import Mathlib

/-! WebViewCore: generation-gated frame cache and incremental picture cache

A shallow embedding of `WebKit/android/jni/WebViewCore.cpp`.  The object's
members become the fields of a record, every member function becomes a
function from the record to the record, and the calls the object makes on
its collaborators (the Java side, the WebCore event handlers) are appended
to a log kept in the record.  What the collaborators answer during one call
is gathered in a `World`.
-/

namespace WebKit

/-! ## Geometry -/

/-- The largest `int`. -/
def INT_MAX : Int := 2147483647

/-- The smallest `int`. -/
def INT_MIN : Int := -2147483648

/-- The value an `int` holds after an addition or subtraction whose exact
result is `v`: the 32-bit two's complement value congruent to `v`. -/
def wrapInt (v : Int) : Int := (v + 2147483648) % 4294967296 - 2147483648

/-- The exact result `v` of an `int` operation is an `int`: nothing wraps. -/
def fitsInt (v : Int) : Prop := INT_MIN ≤ v ∧ v ≤ INT_MAX

/-- The function abs on an `int`; abs(INT_MIN) is INT_MIN again. -/
def absInt (v : Int) : Int := if v < 0 then wrapInt (-v) else v

/-- WebCore::IntPoint. -/
structure IntPoint where
  x : Int
  y : Int
deriving DecidableEq, Repr

/-- WebCore::IntRect, an origin and a size. -/
structure IntRect where
  x : Int
  y : Int
  width : Int
  height : Int
deriving DecidableEq, Repr

/-- IntRect::right(). -/
def IntRect.right (r : IntRect) : Int := wrapInt (r.x + r.width)

/-- IntRect::bottom(). -/
def IntRect.bottom (r : IntRect) : Int := wrapInt (r.y + r.height)

/-- Skia's SkIRect, four edges. -/
structure SkIRect where
  fLeft : Int
  fTop : Int
  fRight : Int
  fBottom : Int
deriving DecidableEq, Repr

namespace SkIRect

/-- SkIRect::set(left, top, right, bottom). -/
def set (l t r b : Int) : SkIRect := ⟨l, t, r, b⟩

/-- The conversion `IntRect::operator SkIRect()`. -/
def ofIntRect (r : IntRect) : SkIRect := ⟨r.x, r.y, r.right, r.bottom⟩

/-- SkIRect::width(). -/
def width (r : SkIRect) : Int := wrapInt (r.fRight - r.fLeft)

/-- SkIRect::height(). -/
def height (r : SkIRect) : Int := wrapInt (r.fBottom - r.fTop)

/-- SkIRect::isEmpty(): no point lies inside. -/
def isEmpty (r : SkIRect) : Bool := decide (r.fLeft ≥ r.fRight) || decide (r.fTop ≥ r.fBottom)

/-- Membership of the point `(x, y)`, edges half open as in Skia. -/
def containsPoint (r : SkIRect) (x y : Int) : Bool :=
  decide (r.fLeft ≤ x) && decide (x < r.fRight) && decide (r.fTop ≤ y) && decide (y < r.fBottom)

/-- SkIRect::intersect(left, top, right, bottom): `none` stands for the
`false` return, which leaves the rectangle as it was. -/
def intersect (s : SkIRect) (left top right bottom : Int) : Option SkIRect :=
  if left < right ∧ top < bottom ∧ s.isEmpty = false ∧
      s.fLeft < right ∧ left < s.fRight ∧ s.fTop < bottom ∧ top < s.fBottom then
    some ⟨max s.fLeft left, max s.fTop top, min s.fRight right, min s.fBottom bottom⟩
  else none

/-- SkIRect::Intersects(a, b). -/
def Intersects (a b : SkIRect) : Bool :=
  !a.isEmpty && !b.isEmpty &&
    decide (a.fLeft < b.fRight) && decide (b.fLeft < a.fRight) &&
    decide (a.fTop < b.fBottom) && decide (b.fTop < a.fBottom)

/-- SkIRect::join(left, top, right, bottom). -/
def join (s : SkIRect) (left top right bottom : Int) : SkIRect :=
  if left ≥ right ∨ top ≥ bottom then s
  else if s.fLeft ≥ s.fRight ∨ s.fTop ≥ s.fBottom then ⟨left, top, right, bottom⟩
  else ⟨min s.fLeft left, min s.fTop top, max s.fRight right, max s.fBottom bottom⟩

/-- SkIRect::contains(const SkIRect&). -/
def contains (s r : SkIRect) : Bool :=
  !r.isEmpty && !s.isEmpty &&
    decide (s.fLeft ≤ r.fLeft) && decide (s.fTop ≤ r.fTop) &&
    decide (s.fRight ≥ r.fRight) && decide (s.fBottom ≥ r.fBottom)

end SkIRect

/-! ## Regions -/

/-- Skia's SkRegion, kept as the rectangles that were united into it. Two
regions are the same when they hold the same points (`SkRegion.SamePoints`). -/
structure SkRegion where
  rects : List SkIRect
deriving DecidableEq, Repr

namespace SkRegion

/-- The region a default-constructed SkRegion holds. -/
def empty : SkRegion := ⟨[]⟩

/-- SkRegion::isEmpty(). -/
def isEmpty (r : SkRegion) : Bool := r.rects.all SkIRect.isEmpty

/-- SkRegion::setEmpty(). -/
def setEmpty (_ : SkRegion) : SkRegion := empty

/-- SkRegion::contains(x, y). -/
def containsPoint (r : SkRegion) (x y : Int) : Bool := r.rects.any fun q => q.containsPoint x y

/-- SkRegion::op(rect, kUnion_Op). -/
def opRect (r : SkRegion) (rect : SkIRect) : SkRegion :=
  if rect.isEmpty then r else ⟨r.rects ++ [rect]⟩

/-- SkRegion::op(region, kUnion_Op). -/
def opRegion (r other : SkRegion) : SkRegion := other.rects.foldl opRect r

/-- SkRegion::setRect(left, top, right, bottom). -/
def setRect (_ : SkRegion) (l t r b : Int) : SkRegion := opRect empty ⟨l, t, r, b⟩

/-- SkRegion::getBounds(): the smallest rectangle around the region,
`(0,0,0,0)` for an empty one. -/
def getBounds (r : SkRegion) : SkIRect :=
  r.rects.foldl (fun acc q => acc.join q.fLeft q.fTop q.fRight q.fBottom) ⟨0, 0, 0, 0⟩

/-- Two regions cover the same points. -/
def SamePoints (a b : SkRegion) : Prop := ∀ x y, a.containsPoint x y = b.containsPoint x y

end SkRegion

/-! ## Buttons -/

/-- A WebCore::Node*, known by its address only. -/
abbrev Node := Nat

/-- A WebCore::Frame*, known by its address only. -/
abbrev FramePtr := Nat

/-- Modelled from the spec: `Container` is declared outside this file. A
decoration record bound to a document node by identity, with a screen
rectangle and the flag saying its node no longer takes part in the document. -/
structure Container where
  node : Node
  rect : IntRect
  removable : Bool
deriving DecidableEq, Repr

namespace Container

/-- Modelled from the spec: Container::matches, identity of the bound node. -/
def matchesNode (c : Container) (n : Node) : Bool := decide (c.node = n)

/-- Modelled from the spec: Container::setRect, "update its rectangle in place". -/
def setRect (c : Container) (r : IntRect) : Container := { c with rect := r }

/-- Modelled from the spec: Container::canBeRemoved, "entries flagged removable". -/
def canBeRemoved (c : Container) : Bool := c.removable

end Container

/-- The inner loop of updateButtonList: the first entry that references the
node of `u` takes the rectangle of `u`; the result is `none` when no entry
matches (`updated` stays false). -/
def updateFirstMatch (u : Container) : List Container → Option (List Container)
  | [] => none
  | p :: rest =>
    if u.matchesNode p.node then some (p.setRect u.rect :: rest)
    else (updateFirstMatch u rest).map fun rest' => p :: rest'

/-- One round of the outer loop of updateButtonList. -/
def mergeButton (buttons : List Container) (u : Container) : List Container :=
  match updateFirstMatch u buttons with
  | some buttons' => buttons'
  | none => buttons ++ [u]

/-- The removal loop of updateButtonList, `while (i < m_buttons.size())`,
run for at most `fuel` rounds. -/
def removeLoop : Nat → Nat → List Container → List Container
  | 0, _, buttons => buttons
  | fuel + 1, i, buttons =>
    match buttons[i]? with
    | none => buttons
    | some b =>
      if b.canBeRemoved then
        match buttons.getLast? with
        | none => buttons
        | some last => removeLoop fuel i (buttons.set i last).dropLast
      else removeLoop fuel (i + 1) buttons

/-- WebViewCore::updateButtonList on the list `m_buttons`. Every round of the
removal loop either drops an entry or moves `i` forward, so the length of the
merged list is fuel enough. -/
def updateButtonList (m_buttons updated : List Container) : List Container :=
  let merged := updated.foldl mergeButton m_buttons
  removeLoop merged.length 0 merged

/-! ## Pictures and tiles -/

/-- An SkPicture as this file fills it: the size it was recorded with, the
translation of the recording canvas, the rectangle the view was asked to draw
and the commands the view answered with. A `new SkPicture()` is `blank`. -/
structure SkPicture where
  width : Int
  height : Int
  translate : IntPoint
  drawn : Option IntRect
  commands : Nat
deriving DecidableEq, Repr

/-- The picture `new SkPicture()` gives. -/
def SkPicture.blank : SkPicture := ⟨0, 0, ⟨0, 0⟩, none, 0⟩

/-- Modelled from the spec: the tiles of PictureSet (PictureSet.cpp is not
among the sources). "A rectangle of the document's coordinate space, a
validity flag, a recorded sequence of paint commands, and last-draw-time
statistics", and the `split` flag that add() is handed. -/
structure Tile where
  area : SkIRect
  valid : Bool
  picture : Option SkPicture
  elapsed : Nat
  split : Bool
deriving DecidableEq, Repr

/-- Modelled from the spec: PictureSet, "ordered sequence of Tiles plus
overall content width/height". -/
structure PictureSet where
  tiles : List Tile
  width : Int
  height : Int
deriving DecidableEq, Repr

namespace PictureSet

/-- The set `PictureSet()` gives, also what clear() leaves. -/
def empty : PictureSet := ⟨[], 0, 0⟩

/-- Modelled from the spec: PictureSet::isEmpty, the set holds no tile. -/
def isEmpty (p : PictureSet) : Bool := p.tiles.isEmpty

/-- Modelled from the spec: PictureSet::size, the number of tiles. -/
def size (p : PictureSet) : Nat := p.tiles.length

/-- Modelled from the spec: PictureSet::upToDate(index), the validity flag of a tile. -/
def upToDate (p : PictureSet) (index : Nat) : Bool :=
  match p.tiles[index]? with
  | some t => t.valid
  | none => true

/-- Modelled from the spec: PictureSet::bounds(index), the rectangle of a tile. -/
def bounds (p : PictureSet) (index : Nat) : SkIRect :=
  match p.tiles[index]? with
  | some t => t.area
  | none => ⟨0, 0, 0, 0⟩

/-- Modelled from the spec: PictureSet::setPicture(index, picture), the tile
takes the re-recorded commands and is valid again. -/
def setPicture (p : PictureSet) (index : Nat) (pic : SkPicture) : PictureSet :=
  { p with tiles := p.tiles.modify (fun t => { t with picture := some pic, valid := true }) index }

/-- Modelled from the spec: PictureSet::checkDimensions, "if content size
changed, marks the full new region dirty". -/
def checkDimensions (p : PictureSet) (width height : Int) (inval : SkRegion) :
    PictureSet × SkRegion :=
  if p.width = width ∧ p.height = height then (p, inval)
  else ({ p with width := width, height := height }, inval.opRect ⟨0, 0, width, height⟩)

/-- Modelled from the spec: PictureSet::add, "appends one tile covering
region's bounds, recorded once, valid immediately". -/
def add (p : PictureSet) (area : SkRegion) (pic : SkPicture) (elapsed : Nat) (split : Bool) :
    PictureSet :=
  { p with tiles := p.tiles ++ [⟨area.getBounds, true, some pic, elapsed, split⟩] }

end PictureSet

/-- The members of PictureSet whose bodies lie outside this file and which
the spec leaves open; the operations below take them as given. -/
structure PictureSetOps where
  /-- PictureSet::reuseSubdivided(inval): the set afterwards and the return value. -/
  reuseSubdivided : PictureSet → SkRegion → PictureSet × Bool
  /-- PictureSet::build(): the set afterwards and the return value. -/
  build : PictureSet → PictureSet × Bool
  /-- The call `dst.setDrawTimes(src)`: the value of `dst` afterwards. -/
  setDrawTimes : PictureSet → PictureSet → PictureSet

/-! ## The frame tree -/

/-- The WebCore::RenderPart that owns a sub-frame. -/
structure RenderPart where
  x : Int
  y : Int
  width : Int
  height : Int
deriving DecidableEq, Repr

/-- A WebCore::FrameView as one layout pass meets it. -/
structure FrameView where
  /-- The answer of needsLayout() when the pass reaches the view. -/
  needsLayout : Bool
  /-- The rectangles layout() hands to contentInvalidate. -/
  layoutInvals : List IntRect
  /-- The answer of needsLayout() once the children have been laid out. -/
  needsLayoutAfter : Bool
deriving DecidableEq, Repr

/-- A WebCore::Frame with its view, the renderer that owns it, the
domTreeVersion of its document and its child frames. -/
inductive Frame where
  | mk (view : Option FrameView) (ownerRenderer : Option RenderPart)
      (domTreeVersion : Nat) (children : List Frame)

namespace Frame

/-- Frame::view(). -/
def view : Frame → Option FrameView
  | mk v _ _ _ => v

/-- Frame::ownerRenderer(). -/
def ownerRenderer : Frame → Option RenderPart
  | mk _ o _ _ => o

/-- The value of document()->domTreeVersion(). -/
def domTreeVersion : Frame → Nat
  | mk _ _ d _ => d

/-- The child frames, firstChild() and its nextSibling() chain. -/
def children : Frame → List Frame
  | mk _ _ _ c => c

end Frame

mutual
/-- The static function layoutIfNeededRecursive: the return value and the
rectangles the layout() calls invalidated, in call order. -/
def layoutIfNeededRecursive : Frame → Bool × List IntRect
  | .mk none _ _ _ => (true, [])
  | .mk (some v) _ _ children =>
    let own := if v.needsLayout then v.layoutInvals else []
    let rest := layoutChildren children
    (rest.1 && !v.needsLayoutAfter, own ++ rest.2)
/-- The `while (child)` loop of layoutIfNeededRecursive, `success &= ...`. -/
def layoutChildren : List Frame → Bool × List IntRect
  | [] => (true, [])
  | child :: siblings =>
    let first := layoutIfNeededRecursive child
    let rest := layoutChildren siblings
    (first.1 && rest.1, first.2 ++ rest.2)
end

mutual
/-- The frames below `f` in traverseNext() order, each with its chain of
parent() frames, nearest first. -/
def traverseBelow (ancestors : List Frame) : Frame → List (Frame × List Frame)
  | .mk v o d children => traverseList (Frame.mk v o d children :: ancestors) children
/-- The traversal of a list of sibling frames and what hangs below them. -/
def traverseList (ancestors : List Frame) : List Frame → List (Frame × List Frame)
  | [] => []
  | child :: siblings =>
    (child, ancestors) :: (traverseBelow ancestors child ++ traverseList ancestors siblings)
end

/-- The rectangle of a sub-frame: its owner's rectangle moved by the x and y of
the owners of all its parent() frames; `none` for a frame without owner. -/
def frameRect (frame : Frame) (ancestors : List Frame) : Option SkIRect :=
  match frame.ownerRenderer with
  | none => none
  | some owner =>
    let x := ancestors.foldl
      (fun acc parent => match parent.ownerRenderer with
        | some parentOwner => wrapInt (acc + parentOwner.x)
        | none => acc) owner.x
    let y := ancestors.foldl
      (fun acc parent => match parent.ownerRenderer with
        | some parentOwner => wrapInt (acc + parentOwner.y)
        | none => acc) owner.y
    some ⟨x, y, wrapInt (x + owner.width), wrapInt (y + owner.height)⟩

/-- One round of the frame loop of recordPictureSet. -/
def joinFrame (total : SkIRect) (entry : Frame × List Frame) : SkIRect :=
  match frameRect entry.1 entry.2 with
  | none => total
  | some r =>
    if SkIRect.Intersects total r then total.join r.fLeft r.fTop r.fRight r.fBottom else total

/-- The rectangle `total` of recordPictureSet once the frame loop is over. -/
def totalRect (contentRect : SkIRect) (mainFrame : Frame) : SkIRect :=
  (traverseBelow [] mainFrame).foldl joinFrame contentRect

/-- The sum recordPictureSet forms in `unsigned latestVersion`, over the main
frame and every frame traverseNext() reaches. -/
def sumDomTreeVersion (mainFrame : Frame) : Nat :=
  (mainFrame :: (traverseBelow [] mainFrame).map Prod.fst).foldl
    (fun latestVersion frame => (latestVersion + frame.domTreeVersion) % 2 ^ 32) 0

/-! ## The navigation cache -/

/-- A CachedNode as far as this file reads it: its index in the cache, the
node it mirrors and its bounds. -/
structure CachedNode where
  index : Nat
  nodePointer : Node
  bounds : IntRect
deriving DecidableEq, Repr

/-- A CachedFrame, known by its index in the cache. -/
abbrev CachedFrame := Nat

/-- A CachedRoot as this file fills it: the tree buildCache() made, then the
values of setPicture, setTextGeneration, setVisibleRect and setCursor. -/
structure CachedRoot where
  tree : Nat
  picture : Option SkPicture
  textGeneration : Int
  visibleRect : IntRect
  cursor : Option (CachedFrame × CachedNode)
deriving DecidableEq, Repr

/-! ## List boxes -/

/-- A WebCore::String, its UChar code units. -/
abbrev WString := List Nat

/-- The static function stringConverter: the array it allocates, the length
cast to uint16_t in front of the characters. -/
def stringConverter (text : WString) : List Nat :=
  (text.length % 65536) :: text

/-- The string makeLabelArray builds from one label,
`NewString(&labels[i][1], labels[i][0])`. -/
def labelString (label : List Nat) : WString :=
  (label.drop 1).take (label.headD 0)

/-- One entry of HTMLSelectElement::listItems(). -/
inductive ListItem where
  | option (text : WString) (disabled : Bool) (selected : Bool)
  | optgroup (groupLabelText : WString)
  | other
deriving DecidableEq, Repr

/-- The ListBoxReply object: the select element and its frame. -/
structure ListBoxReply where
  m_select : Option Node
  m_frame : FramePtr
deriving DecidableEq, Repr

/-! ## The log of outgoing calls -/

/-- The calls WebViewCore makes on the Java object and on WebCore. -/
inductive Event where
  | contentDraw
  | viewResize (width height : Int)
  | setNeedsLayoutAndPrefWidthsRecalc
  | forceLayout
  | handleMouseMoveEvent (frame : FramePtr) (pos : IntPoint)
  | handleMousePressEvent (frame : FramePtr) (pos : IntPoint)
  | handleMouseReleaseEvent (frame : FramePtr) (pos : IntPoint)
  | setFocusedNode (node : Node)
  | resetMultipleFormSubmissionProtection (frame : FramePtr)
  | setFromClick (fromClick : Bool)
  | setUserInitiatedClick (userInitiated : Bool)
  | dispatchSimulatedClick (node : Node)
  | requestListBox (labels : List (Option WString)) (enabled : List Int)
      (selected : List Int)
  | requestSingleListBox (labels : List (Option WString)) (enabled : List Int)
      (selection : Int)
  | keyEvent (frame : FramePtr) (keyCode keyValue : Int) (down cap fn sym : Bool)
  | setFocusControllerActive (active : Bool)
  | updateTextfield (ptr : Node) (changeToPassword : Bool) (text : Option WString)
      (textGeneration : Int)
  | selectOnChange (select : Node)
deriving DecidableEq, Repr

/-- The events that hand a mouse move, press, release or click to WebCore. -/
def Event.isMouse : Event → Bool
  | .handleMouseMoveEvent _ _ => true
  | .handleMousePressEvent _ _ => true
  | .handleMouseReleaseEvent _ _ => true
  | .dispatchSimulatedClick _ => true
  | _ => false

/-- The events that ask the Java side to redraw. -/
def Event.isRedraw : Event → Bool
  | .contentDraw => true
  | _ => false

/-! ## The object -/

/-- The members of WebViewCore this file reads and writes, and the log of the
calls made so far (oldest first). -/
structure WebViewCore where
  m_mainFrame : FramePtr
  m_moveGeneration : Int
  m_touchGeneration : Int
  m_textGeneration : Int
  m_lastGeneration : Int
  m_blockTextfieldUpdates : Bool
  m_scrollOffsetX : Int
  m_scrollOffsetY : Int
  m_mousePos : IntPoint
  m_frameCacheKit : Option CachedRoot
  m_navPictureKit : Option SkPicture
  m_temp : Option CachedRoot
  m_tempPict : Option SkPicture
  m_updatedFrameCache : Bool
  m_frameCacheOutOfDate : Bool
  m_useReplay : Bool
  m_skipContentDraw : Bool
  m_findIsUp : Bool
  m_domtree_version : Nat
  m_check_domtree_version : Bool
  m_progressDone : Bool
  m_lastFocused : Option Node
  m_lastFocusedBounds : IntRect
  m_hasCursorBounds : Bool
  m_cursorBounds : IntRect
  m_cursorNode : Option Node
  m_content : PictureSet
  m_addInval : SkRegion
  m_rebuildInval : SkRegion
  m_buttons : List Container
  m_popupReply : Option ListBoxReply
  log : List Event
deriving DecidableEq, Repr

/-- A WebCore::RenderObject as far as this file asks it. -/
structure RenderObject where
  isWidget : Bool
  /-- Whether widget() is there and isPluginView(). -/
  widgetIsPluginView : Bool
  isTextField : Bool
  isTextArea : Bool
  isMenuList : Bool
  /-- RenderTextControl::text(). -/
  text : WString
deriving DecidableEq, Repr

/-- The frame tree and the content size as one layout pass over the main
frame finds and leaves them. -/
structure Snapshot where
  frame : Frame
  /-- The value of m_mainFrame->view()->contentsWidth() after the pass. -/
  contentsWidth : Int
  /-- The value of m_mainFrame->view()->contentsHeight() after the pass. -/
  contentsHeight : Int

/-- What the collaborators of WebViewCore answer during one call. -/
structure World where
  /-- Whether m_mainFrame->document() is there. -/
  hasDocument : Bool
  /-- The float `progress` that recordContent reads. -/
  progress : ℚ
  /-- The engine at the first layout pass of recordPictureSet. -/
  first : Snapshot
  /-- The rectangles view->forceLayout() hands to contentInvalidate. -/
  forceLayoutInvals : List IntRect
  /-- The engine at the layout pass that follows view->resize(). -/
  resized : Snapshot
  /-- The engine at the layout pass of recordPicture. -/
  nav : Snapshot
  /-- The commands platformWidget()->draw() records for a rectangle. -/
  paint : IntRect → Nat
  /-- The button list the graphics context leaves after draw() of a rectangle. -/
  drawButtons : IntRect → List Container → List Container
  /-- The answer of cacheBuilder().currentFocus(). -/
  currentFocus : Option Node
  /-- The answer of currentFocus() once a click has been handled. -/
  focusAfterClick : Option Node
  /-- Node::getRect(). -/
  getRect : Node → IntRect
  /-- Node::renderer(). -/
  renderer : Node → Option RenderObject
  /-- The frame of the document of a node. -/
  documentFrame : Node → FramePtr
  /-- Node::hasTagName(areaTag). -/
  isAreaTag : Node → Bool
  /-- CacheBuilder::validNode(m_mainFrame, frame, node). -/
  validNode : Option FramePtr → Option Node → Bool
  /-- HTMLSelectElement::listItems(). -/
  listItems : Node → List ListItem
  /-- HTMLSelectElement::multiple(). -/
  multiple : Node → Bool
  /-- The value of select->optionToListIndex(select->selectedIndex()). -/
  selectedListIndex : Node → Int
  /-- The tree CacheBuilder::buildCache() builds. -/
  buildCache : Nat
  /-- CachedRoot::findAt(bounds, ...) on that tree: the frame and the node. -/
  findAt : IntRect → Option (CachedFrame × CachedNode)
  /-- The width of the platform widget of the main view. -/
  windowWidth : Int
  /-- The height of the platform widget of the main view. -/
  windowHeight : Int
  /-- The inner node of hitTestResultAtPoint. -/
  hitTestInnerNode : IntPoint → Option Node
  /-- The answer of handleMouseReleaseEvent. -/
  mouseReleaseHandled : Bool
  /-- A value the UI thread stores into m_moveGeneration while
  prepareFrameCache() runs; `none` when it stores nothing. -/
  uiMoveGeneration : Option Int

namespace WebViewCore

/-- Appends a call to the log. -/
def emit (s : WebViewCore) (e : Event) : WebViewCore := { s with log := s.log ++ [e] }

/-- WebViewCore::contentDraw. -/
def contentDraw (s : WebViewCore) : WebViewCore := s.emit .contentDraw

/-- WebViewCore::contentInvalidate. -/
def contentInvalidate (s : WebViewCore) (r : IntRect) : WebViewCore :=
  match (SkIRect.ofIntRect r).intersect 0 0 INT_MAX INT_MAX with
  | none => s
  | some rect =>
    let s := { s with m_addInval := s.m_addInval.opRect rect }
    if !s.m_skipContentDraw then s.contentDraw else s

/-- A call of layoutIfNeededRecursive(m_mainFrame): the rectangles layout()
invalidates reach contentInvalidate; the result is the return value. -/
def layoutPass (s : WebViewCore) (frame : Frame) : WebViewCore × Bool :=
  let pass := layoutIfNeededRecursive frame
  (pass.2.foldl contentInvalidate s, pass.1)

/-- WebViewCore::recordPicture: the object afterwards and the picture. -/
def recordPicture (w : World) (s : WebViewCore) (picture : SkPicture) :
    WebViewCore × SkPicture :=
  if !w.hasDocument then (s, picture)
  else
    let (s, success) := s.layoutPass w.nav.frame
    if !success then (s, picture)
    else
      let rect : IntRect := ⟨0, 0, INT_MAX, INT_MAX⟩
      let buttons := w.drawButtons rect s.m_buttons
      ({ s with m_buttons := updateButtonList s.m_buttons buttons },
        ⟨w.nav.contentsWidth, w.nav.contentsHeight, picture.translate, some rect, w.paint rect⟩)

/-- WebViewCore::rebuildPicture, recording against the content size of `cur`. -/
def rebuildPicture (w : World) (cur : Snapshot) (s : WebViewCore) (inval : SkIRect) :
    WebViewCore × SkPicture :=
  let rect : IntRect := ⟨inval.fLeft, inval.fTop, inval.width, inval.height⟩
  let buttons := w.drawButtons rect s.m_buttons
  let s := { s with m_rebuildInval := s.m_rebuildInval.opRect inval }
  ({ s with m_buttons := updateButtonList s.m_buttons buttons },
    ⟨cur.contentsWidth, cur.contentsHeight, ⟨-inval.fLeft, -inval.fTop⟩, some rect, w.paint rect⟩)

/-- One round of the loop of rebuildPictureSet. -/
def rebuildTile (w : World) (cur : Snapshot) (acc : WebViewCore × PictureSet) (index : Nat) :
    WebViewCore × PictureSet :=
  if acc.2.upToDate index then acc
  else
    let (s, picture) := rebuildPicture w cur acc.1 (acc.2.bounds index)
    (s, acc.2.setPicture index picture)

/-- WebViewCore::rebuildPictureSet. -/
def rebuildPictureSet (w : World) (cur : Snapshot) (s : WebViewCore) (pictureSet : PictureSet) :
    WebViewCore × PictureSet :=
  (List.range pictureSet.size).foldl (rebuildTile w cur) (s, pictureSet)

/-- WebViewCore::prepareFrameCache: the object afterwards and the return value. -/
def prepareFrameCache (w : World) (s : WebViewCore) : WebViewCore × Bool :=
  if !s.m_frameCacheOutOfDate then (s, false)
  else
    let s := { s with m_frameCacheOutOfDate := false }
    let temp : CachedRoot := ⟨w.buildCache, none, 0, ⟨0, 0, 0, 0⟩, none⟩
    let (s, tempPict) := recordPicture w s SkPicture.blank
    let temp := { temp with picture := some tempPict }
    let temp := { temp with textGeneration := s.m_textGeneration }
    let temp := { temp with
      visibleRect := ⟨s.m_scrollOffsetX, s.m_scrollOffsetY, w.windowWidth, w.windowHeight⟩ }
    let s := { s with m_temp := some temp, m_tempPict := some tempPict }
    let hasCursorBounds := s.m_hasCursorBounds
    let bounds := s.m_cursorBounds
    if !hasCursorBounds then (s, true)
    else
      match w.findAt bounds with
      | none => (s, true)
      | some (frame, node) =>
        let oldCenter : IntPoint :=
          ⟨wrapInt (bounds.x + (bounds.width >>> 1)), wrapInt (bounds.y + (bounds.height >>> 1))⟩
        let newBounds := node.bounds
        let newCenter : IntPoint :=
          ⟨wrapInt (newBounds.x + (newBounds.width >>> 1)),
            wrapInt (newBounds.y + (newBounds.height >>> 1))⟩
        if absInt (wrapInt (oldCenter.x - newCenter.x)) > 2 then (s, true)
        else if absInt (wrapInt (oldCenter.y - newCenter.y)) > 2 then (s, true)
        else if absInt (wrapInt (bounds.x - newBounds.x)) > 4 then (s, true)
        else if absInt (wrapInt (bounds.y - newBounds.y)) > 4 then (s, true)
        else if absInt (wrapInt (bounds.right - newBounds.right)) > 4 then (s, true)
        else if absInt (wrapInt (bounds.bottom - newBounds.bottom)) > 4 then (s, true)
        else ({ s with m_temp := some { temp with cursor := some (frame, node) } }, true)

/-- WebViewCore::releaseFrameCache. -/
def releaseFrameCache (s : WebViewCore) (newCache : Bool) : WebViewCore :=
  if !newCache then s
  else
    { s with
      m_frameCacheKit := s.m_temp
      m_navPictureKit := s.m_tempPict
      m_updatedFrameCache := true }

/-- WebViewCore::updateFrameCache. -/
def updateFrameCache (w : World) (s : WebViewCore) : WebViewCore :=
  let s := { s with m_useReplay := false }
  let (s, newCache) := prepareFrameCache w s
  releaseFrameCache s newCache

/-- The last two statements of the record block of recordPictureSet: build()
and, when it reports invalid tiles, rebuildPictureSet. -/
def buildAndRebuild (ops : PictureSetOps) (w : World) (cur : Snapshot)
    (s : WebViewCore) (content : PictureSet) : WebViewCore × PictureSet :=
  let built := ops.build content
  if built.2 then rebuildPictureSet w cur s built.1 else (s, built.1)

/-- The part of recordPictureSet between checkDimensions and the call of
rebuildPictureSet (the block that ends with the record time counter), for
the content size `width` x `height`. -/
def recordPictureSetTiles (ops : PictureSetOps) (w : World) (cur : Snapshot) (s : WebViewCore)
    (content : PictureSet) (width height : Int) : WebViewCore × PictureSet :=
  let checked := content.checkDimensions width height s.m_addInval
  let s := { s with m_addInval := checked.2 }
  let reused := ops.reuseSubdivided checked.1 s.m_addInval
  if !reused.2 then
    let inval := s.m_addInval.getBounds
    let recorded := rebuildPicture w cur s inval
    buildAndRebuild ops w cur recorded.1 (reused.1.add recorded.1.m_addInval recorded.2 0 false)
  else buildAndRebuild ops w cur s reused.1

/-- The value of `update` in recordPictureSet. -/
def update (s : WebViewCore) (oldFocusNode : Option Node) (oldBounds : IntRect)
    (latestVersion : Nat) : Bool :=
  decide (s.m_lastFocused ≠ oldFocusNode)
    || decide (s.m_lastFocusedBounds ≠ oldBounds) || s.m_findIsUp
    || (s.m_check_domtree_version && decide (latestVersion ≠ s.m_domtree_version))

/-- The part of recordPictureSet after the record time counter: the focus
and version bookkeeping and the call of updateFrameCache. -/
def recordPictureSetFocus (w : World) (cur : Snapshot) (s : WebViewCore) : WebViewCore :=
  let oldFocusNode := w.currentFocus
  let s := { s with m_frameCacheOutOfDate := true }
  let oldBounds : IntRect :=
    match oldFocusNode with
    | some node => w.getRect node
    | none => ⟨0, 0, 0, 0⟩
  let latestVersion : Nat := if s.m_check_domtree_version then sumDomTreeVersion cur.frame else 0
  let update := s.update oldFocusNode oldBounds latestVersion
  let skip : Bool :=
    if false && !update && s.m_hasCursorBounds then
      if s.m_hasCursorBounds && s.m_cursorNode.isSome then
        let bounds : IntRect := s.m_cursorBounds
        let center : IntPoint :=
          ⟨bounds.x + (bounds.width >>> 1), bounds.y + (bounds.height >>> 1)⟩
        decide (s.m_cursorNode = w.hitTestInnerNode center)
      else false
    else false
  if skip then s
  else
    let s := { s with m_lastFocused := oldFocusNode, m_lastFocusedBounds := oldBounds }
    let s := { s with m_domtree_version := latestVersion }
    updateFrameCache w s

/-- WebViewCore::recordPictureSet: the object and the picture set afterwards. -/
def recordPictureSet (ops : PictureSetOps) (w : World) (s : WebViewCore) (content : PictureSet) :
    WebViewCore × PictureSet :=
  if !w.hasDocument then (s, content)
  else if s.m_addInval.isEmpty then (s, content)
  else
    let s := { s with m_skipContentDraw := true }
    let (s, success) := s.layoutPass w.first.frame
    let s := { s with m_skipContentDraw := false }
    if !success then (s, content)
    else
      let width := w.first.contentsWidth
      let height := w.first.contentsHeight
      let contentRect := SkIRect.set 0 0 width height
      let total := totalRect contentRect w.first.frame
      if !contentRect.contains total then
        let s := s.emit (.viewResize total.width total.height)
        let s := s.emit .setNeedsLayoutAndPrefWidthsRecalc
        let s := (w.forceLayoutInvals.foldl contentInvalidate s).emit .forceLayout
        let s := { s with m_skipContentDraw := true }
        let (s, success) := s.layoutPass w.resized.frame
        let s := { s with m_skipContentDraw := false }
        if !success then (s, content)
        else
          let (s, content) := recordPictureSetTiles ops w w.resized s content
            w.resized.contentsWidth w.resized.contentsHeight
          (recordPictureSetFocus w w.resized s, content)
      else
        let (s, content) := recordPictureSetTiles ops w w.first s content width height
        (recordPictureSetFocus w w.first s, content)

/-- WebViewCore::pictureReady. -/
def pictureReady (s : WebViewCore) : Bool :=
  let copyContent := s.m_content
  let done := s.m_progressDone
  done || !copyContent.isEmpty

/-- WebViewCore::recordContent. `region` and `point` are the values behind
the two pointers on entry; the result holds the object, the return value and
the values behind the pointers on return. -/
def recordContent (ops : PictureSetOps) (w : World) (s : WebViewCore) (region : SkRegion)
    (point : IntPoint) : WebViewCore × Bool × SkRegion × IntPoint :=
  let progress := w.progress
  let contentCopy := s.m_content
  let s := { s with m_progressDone := decide (progress ≤ 0) || decide (progress ≥ 1) }
  let (s, contentCopy) := recordPictureSet ops w s contentCopy
  if !s.m_progressDone && contentCopy.isEmpty then (s, false, region, point)
  else
    let region := s.m_addInval
    let s := { s with m_addInval := s.m_addInval.setEmpty }
    let region := region.opRegion s.m_rebuildInval
    let s := { s with m_rebuildInval := s.m_rebuildInval.setEmpty }
    let contentCopy := ops.setDrawTimes contentCopy s.m_content
    let s := { s with m_content := contentCopy }
    let point : IntPoint := ⟨s.m_content.width, s.m_content.height⟩
    (s, true, region, point)

/-- The static function nodeIsPlugin. -/
def nodeIsPlugin (w : World) (node : Node) : Bool :=
  match w.renderer node with
  | some renderer => if renderer.isWidget then renderer.widgetIsPluginView else false
  | none => false

/-- WebViewCore::moveMouse: the object afterwards and the return value. -/
def moveMouse (w : World) (s : WebViewCore) (frame : Option FramePtr) (node : Option Node)
    (x y : Int) : WebViewCore × Bool :=
  let frame : FramePtr :=
    match frame with
    | none => s.m_mainFrame
    | some f => if w.validNode (some f) none = false then s.m_mainFrame else f
  let s := { s with
    m_mousePos := ⟨wrapInt (x - s.m_scrollOffsetX), wrapInt (y - s.m_scrollOffsetY)⟩ }
  let s := s.emit (.handleMouseMoveEvent frame s.m_mousePos)
  let valid := w.validNode (some frame) node
  match node with
  | none => (s, false)
  | some n =>
    if !valid then (s, false)
    else if nodeIsPlugin w n then (s.emit (.setFocusedNode n), true)
    else (s, true)

/-- The static function makeLabelArray: the strings of the Java array; an
entry is `none` where `labels` has no element to read. -/
def makeLabelArray (labels : List (List Nat)) (count : Nat) : List (Option WString) :=
  (List.range count).map fun i => (labels[i]?).map labelString

/-- WebViewCore::listBoxRequest. -/
def listBoxRequest (s : WebViewCore) (reply : ListBoxReply) (labels : List (List Nat))
    (count : Nat) (enabled : List Int) (enabledCount : Nat) (multiple : Bool)
    (selected : List Int) (selectedCountOrSelection : Int) : WebViewCore :=
  if s.m_popupReply.isSome then s
  else
    let labelArray := makeLabelArray labels count
    let enabledArray := enabled.take enabledCount
    let s :=
      if multiple then
        s.emit (.requestListBox labelArray enabledArray
          (selected.take selectedCountOrSelection.toNat))
      else s.emit (.requestSingleListBox labelArray enabledArray selectedCountOrSelection)
    { s with m_popupReply := some reply }

/-- The arrays handleMouseClick gathers from the list items: the names, the
enabled flags and the list indices of the selected options. -/
def gatherListItems (multiple : Bool) :
    List ListItem → Nat → List (List Nat) × List Int × List Int
  | [], _ => ([], [], [])
  | item :: rest, i =>
    let (names, enabledArray, selectedArray) := gatherListItems multiple rest (i + 1)
    match item with
    | .option text disabled selected =>
      (stringConverter text :: names, (if disabled then 0 else 1) :: enabledArray,
        if multiple && selected then (i : Int) :: selectedArray else selectedArray)
    | .optgroup label => (stringConverter label :: names, 0 :: enabledArray, selectedArray)
    | .other => (names, enabledArray, selectedArray)

/-- WebViewCore::setFocusControllerActive. -/
def setFocusControllerActive (s : WebViewCore) (active : Bool) : WebViewCore :=
  s.emit (.setFocusControllerActive active)

/-- WebViewCore::handleMouseClick: the object afterwards and the return value. -/
def handleMouseClick (w : World) (s : WebViewCore) (framePtr : Option FramePtr)
    (nodePtr : Option Node) : WebViewCore × Bool :=
  let valid := framePtr.isNone || w.validNode framePtr nodePtr
  let special : Option (WebViewCore × Bool) :=
    match nodePtr with
    | none => none
    | some node =>
      if !valid then none
      else if w.isAreaTag node then
        let s := s.emit (.setUserInitiatedClick true)
        let s := s.emit (.dispatchSimulatedClick node)
        some (s.emit (.setUserInitiatedClick false), true)
      else
        match w.renderer node with
        | none => none
        | some renderer =>
          if renderer.isMenuList then
            let listItems := w.listItems node
            let size := listItems.length
            let multiple := w.multiple node
            let (names, enabledArray, selectedArray) := gatherListItems multiple listItems 0
            let reply : ListBoxReply := ⟨some node, w.documentFrame node⟩
            some (listBoxRequest s reply names size enabledArray enabledArray.length multiple
              selectedArray
              (if multiple then (selectedArray.length : Int) else w.selectedListIndex node), true)
          else none
  match special with
  | some result => result
  | none =>
    let framePtr : FramePtr :=
      match framePtr with
      | none => s.m_mainFrame
      | some f => if !valid then s.m_mainFrame else f
    let s := s.emit (.setUserInitiatedClick true)
    let s := s.emit (.handleMousePressEvent framePtr s.m_mousePos)
    let s := s.emit (.handleMouseReleaseEvent framePtr s.m_mousePos)
    let handled := w.mouseReleaseHandled
    let s := s.emit (.setUserInitiatedClick false)
    let s :=
      match w.focusAfterClick with
      | none => s
      | some focusNode =>
        match w.renderer focusNode with
        | none => s
        | some renderer =>
          if renderer.isTextField || renderer.isTextArea then s.setFocusControllerActive true
          else s
    (s, handled)

/-- The store of the UI thread into m_moveGeneration that lands while
prepareFrameCache() runs. -/
def uiStore (w : World) (s : WebViewCore) : WebViewCore :=
  match w.uiMoveGeneration with
  | some g => { s with m_moveGeneration := g }
  | none => s

/-- WebViewCore::moveMouseIfLatest. -/
def moveMouseIfLatest (w : World) (s : WebViewCore) (moveGeneration : Int)
    (frame : Option FramePtr) (node : Option Node) (x y : Int) (ignoreNullFocus : Bool) :
    WebViewCore :=
  if s.m_moveGeneration > moveGeneration then s
  else
    let s := { s with m_useReplay := true }
    let prepared := prepareFrameCache w s
    let newCache := prepared.2
    let s := uiStore w prepared.1
    if s.m_moveGeneration > moveGeneration then releaseFrameCache s newCache
    else
      let s := releaseFrameCache s newCache
      let s := { s with m_lastGeneration := moveGeneration }
      if node.isNone && ignoreNullFocus then s
      else (moveMouse w s frame node x y).1

/-- The part of touchUp that precedes the call of handleMouseClick, for a
touch generation that passed the check. -/
def touchUpBeforeClick (w : World) (s : WebViewCore) (touchGeneration : Int)
    (frame : Option FramePtr) (node : Option Node) (x y : Int) : WebViewCore :=
  let s := (moveMouse w s frame node x y).1
  let s := { s with m_lastGeneration := touchGeneration }
  let s :=
    match frame with
    | none => s
    | some f =>
      if w.validNode (some f) none then s.emit (.resetMultipleFormSubmissionProtection f)
      else s
  s.emit (.setFromClick true)

/-- WebViewCore::touchUp. -/
def touchUp (w : World) (s : WebViewCore) (touchGeneration : Int) (frame : Option FramePtr)
    (node : Option Node) (x y : Int) : WebViewCore :=
  if s.m_touchGeneration > touchGeneration then s
  else
    let s := touchUpBeforeClick w s touchGeneration frame node x y
    let s := (handleMouseClick w s frame node).1
    s.emit (.setFromClick false)

/-- WebViewCore::updateTextfield. -/
def updateTextfield (s : WebViewCore) (ptr : Node) (changeToPassword : Bool) (text : WString) :
    WebViewCore :=
  if s.m_blockTextfieldUpdates then s
  else if changeToPassword then s.emit (.updateTextfield ptr true none s.m_textGeneration)
  else s.emit (.updateTextfield ptr false (some text) s.m_textGeneration)

/-- WebViewCore::passToJs. -/
def passToJs (w : World) (s : WebViewCore) (generation : Int) (current : WString)
    (keyCode keyValue : Int) (down cap fn sym : Bool) : WebViewCore :=
  match w.currentFocus with
  | none => s
  | some focus =>
    let frame := w.documentFrame focus
    let s := { s with m_blockTextfieldUpdates := true }
    let s := s.emit (.keyEvent frame keyCode keyValue down cap fn sym)
    let s := { s with m_blockTextfieldUpdates := false }
    let s := { s with m_textGeneration := generation }
    match w.renderer focus with
    | none => s
    | some renderer =>
      if !renderer.isTextField && !renderer.isTextArea then s
      else
        let s := s.setFocusControllerActive true
        let test := renderer.text
        if test = current then s
        else s.updateTextfield focus false test

end WebViewCore

/-- The loop of ListBoxReply::replyIntArray over the list items from
`listIndex` on. `array` holds the cells that may be read; a read outside it
has no defined value and makes the result `none`. -/
def replyIntArrayLoop (array : List Int) (count : Int) :
    List ListItem → Int → Nat → Int → Option (List ListItem)
  | [], _, _, _ => some []
  | .option text disabled _ :: rest, listIndex, arrayIndex, selection =>
    if listIndex = selection then
      if ((arrayIndex + 1 : Nat) : Int) = count then
        (replyIntArrayLoop array count rest (listIndex + 1) (arrayIndex + 1) (-1)).map
          fun items => .option text disabled true :: items
      else
        match array[arrayIndex + 1]? with
        | none => none
        | some next =>
          (replyIntArrayLoop array count rest (listIndex + 1) (arrayIndex + 1) next).map
            fun items => .option text disabled true :: items
    else
      (replyIntArrayLoop array count rest (listIndex + 1) arrayIndex selection).map
        fun items => .option text disabled false :: items
  | item :: rest, listIndex, arrayIndex, selection =>
    (replyIntArrayLoop array count rest (listIndex + 1) arrayIndex selection).map
      fun items => item :: items

/-- ListBoxReply::replyIntArray: the view afterwards and, when the select
element was reached, its list items afterwards. `none` stands for a read
outside `array`. -/
def ListBoxReply.replyIntArray (w : World) (m_viewImpl : WebViewCore) (reply : ListBoxReply)
    (array : List Int) (count : Int) : Option (WebViewCore × Option (List ListItem)) :=
  match reply.m_select with
  | none => some (m_viewImpl, none)
  | some select =>
    if !w.validNode (some reply.m_frame) (some select) then some (m_viewImpl, none)
    else
      let items := w.listItems select
      let arrayIndex := 0
      match array[arrayIndex]? with
      | none => none
      | some selection =>
        match replyIntArrayLoop array count items 0 arrayIndex selection with
        | none => none
        | some items =>
          let m_viewImpl := m_viewImpl.emit (.selectOnChange select)
          some (m_viewImpl.contentInvalidate (w.getRect select), some items)

/-- WebViewCore::popupReply(const int* array, int count). -/
def WebViewCore.popupReplyArray (w : World) (s : WebViewCore) (array : List Int) (count : Int) :
    Option (WebViewCore × Option (List ListItem)) :=
  match s.m_popupReply with
  | none => some (s, none)
  | some reply =>
    match reply.replyIntArray w s array count with
    | none => none
    | some (s, items) => some ({ s with m_popupReply := none }, items)

/-- The loop of SendListBoxChoices over the indices `i`: a ticked box stores
its index at `array[count++]`. A read outside `ptrArray` makes the result
`none`. -/
def gatherChoices (ptrArray : List Bool) : List Nat → List Int × Nat → Option (List Int × Nat)
  | [], filled => some filled
  | i :: rest, (array, count) =>
    match ptrArray[i]? with
    | none => none
    | some ticked =>
      if ticked then gatherChoices ptrArray rest (array.set count (i : Int), count + 1)
      else gatherChoices ptrArray rest (array, count)

/-- The static function SendListBoxChoices. `storage` is what the `size`
cells of the SkAutoSTMalloc hold when they are handed out. -/
def SendListBoxChoices (w : World) (viewImpl : WebViewCore) (ptrArray : List Bool) (size : Nat)
    (storage : List Int) : Option (WebViewCore × Option (List ListItem)) :=
  match gatherChoices ptrArray (List.range size) (storage, 0) with
  | none => none
  | some (array, count) => viewImpl.popupReplyArray w array (count : Int)

/-- The list items as a multiple-choice reply should leave them: an option is
selected exactly when its list index is in `array`, everything else stays. -/
def selectChosen (array : List Int) : Nat → List ListItem → List ListItem
  | _, [] => []
  | listIndex, .option text disabled _ :: rest =>
    .option text disabled (decide ((listIndex : Int) ∈ array)) ::
      selectChosen array (listIndex + 1) rest
  | listIndex, item :: rest => item :: selectChosen array (listIndex + 1) rest

/-- The members that no invalidation, no layout pass and no recording of a
picture or of the navigation cache writes, together with the mouse calls of
the log. -/
structure Quiet (s t : WebViewCore) : Prop where
  moveGeneration : t.m_moveGeneration = s.m_moveGeneration
  touchGeneration : t.m_touchGeneration = s.m_touchGeneration
  textGeneration : t.m_textGeneration = s.m_textGeneration
  lastGeneration : t.m_lastGeneration = s.m_lastGeneration
  mousePos : t.m_mousePos = s.m_mousePos
  progressDone : t.m_progressDone = s.m_progressDone
  content : t.m_content = s.m_content
  mouseLog : t.log.filter Event.isMouse = s.log.filter Event.isMouse

/-- The four generation counters of `t` are not below those of `s`. -/
def CountersGrow (s t : WebViewCore) : Prop :=
  s.m_moveGeneration ≤ t.m_moveGeneration ∧ s.m_touchGeneration ≤ t.m_touchGeneration ∧
    s.m_textGeneration ≤ t.m_textGeneration ∧ s.m_lastGeneration ≤ t.m_lastGeneration

/-- The value `m_progressDone` takes in recordContent. -/
def World.progressDone (w : World) : Bool := decide (w.progress ≤ 0) || decide (w.progress ≥ 1)

/-- The object and the working copy of the picture set as recordContent has
them once its call of recordPictureSet has returned. -/
def WebViewCore.recordingAttempt (ops : PictureSetOps) (w : World) (s : WebViewCore) :
    WebViewCore × PictureSet :=
  WebViewCore.recordPictureSet ops w { s with m_progressDone := w.progressDone } s.m_content

/-- The region `m_addInval` becomes when contentInvalidate is called with the
rectangles `invals` in turn. -/
def addInvalAfter (addInval : SkRegion) (invals : List IntRect) : SkRegion :=
  invals.foldl
    (fun acc r =>
      match (SkIRect.ofIntRect r).intersect 0 0 INT_MAX INT_MAX with
      | none => acc
      | some rect => acc.opRect rect) addInval

/-- The rectangle `contentRect` of recordPictureSet. -/
def World.contentRect (w : World) : SkIRect :=
  SkIRect.set 0 0 w.first.contentsWidth w.first.contentsHeight

/-- Layout cannot settle during recordPictureSet: the first pass fails, or it
succeeds, the view is resized and the pass that follows fails. -/
def LayoutFails (w : World) : Prop :=
  (layoutIfNeededRecursive w.first.frame).1 = false ∨
    ((layoutIfNeededRecursive w.first.frame).1 = true ∧
      w.contentRect.contains (totalRect w.contentRect w.first.frame) = false ∧
      (layoutIfNeededRecursive w.resized.frame).1 = false)

/-- The object once the first layout pass of recordPictureSet is over. -/
def WebViewCore.afterFirstPass (w : World) (s : WebViewCore) : WebViewCore :=
  { ({ s with m_skipContentDraw := true }.layoutPass w.first.frame).1 with
    m_skipContentDraw := false }

/-- The object once recordPictureSet has resized the view to `total`, forced
a layout and run the layout pass that follows. -/
def WebViewCore.afterResize (w : World) (s : WebViewCore) (total : SkIRect) : WebViewCore :=
  { ({ ((w.forceLayoutInvals.foldl WebViewCore.contentInvalidate
          (((s.afterFirstPass w).emit (.viewResize total.width total.height)).emit
            .setNeedsLayoutAndPrefWidthsRecalc)).emit .forceLayout) with
        m_skipContentDraw := true }.layoutPass w.resized.frame).1 with
    m_skipContentDraw := false }

/-- The frame moveMouse hands the mouse move to: `frame` when it is given and
valid, the main frame otherwise. -/
def WebViewCore.mouseFrame (w : World) (s : WebViewCore) (frame : Option FramePtr) : FramePtr :=
  match frame with
  | none => s.m_mainFrame
  | some f => if w.validNode (some f) none = false then s.m_mainFrame else f

/-- After a click the focused node is a text field or a text area. -/
def World.clickFocusesText (w : World) : Bool :=
  match w.focusAfterClick with
  | none => false
  | some focusNode =>
    match w.renderer focusNode with
    | none => false
    | some renderer => renderer.isTextField || renderer.isTextArea

/-- The frame handleMouseClick hands the press and the release to: `framePtr`
when it is given and valid together with `nodePtr`, the main frame otherwise. -/
def WebViewCore.clickFrame (w : World) (s : WebViewCore) (framePtr : Option FramePtr)
    (nodePtr : Option Node) : FramePtr :=
  match framePtr with
  | none => s.m_mainFrame
  | some f => if w.validNode (some f) nodePtr then f else s.m_mainFrame

/-- The point `(x, y)` lies in the quadrant that contentInvalidate clips to,
`[0, INT_MAX) x [0, INT_MAX)`. -/
def inQuadrant (x y : Int) : Bool :=
  decide (0 ≤ x) && decide (x < INT_MAX) && decide (0 ≤ y) && decide (y < INT_MAX)

/-- The rectangle contentInvalidate unites into m_addInval when `r` meets the
quadrant: `r` cut at the edges of the quadrant. -/
def clipToQuadrant (r : IntRect) : SkIRect :=
  ⟨max r.x 0, max r.y 0, min r.right INT_MAX, min r.bottom INT_MAX⟩

/-- The points the rectangle `r` stands for, in exact arithmetic:
`x <= px < x + width` and `y <= py < y + height`. -/
def IntRect.hasPoint (r : IntRect) (px py : Int) : Bool :=
  decide (r.x ≤ px) && decide (px < r.x + r.width) &&
    decide (r.y ≤ py) && decide (py < r.y + r.height)

/-- The picture rebuildPicture records for the rectangle `inval`. -/
def pictureFor (w : World) (cur : Snapshot) (inval : SkIRect) : SkPicture :=
  ⟨cur.contentsWidth, cur.contentsHeight, ⟨-inval.fLeft, -inval.fTop⟩,
    some ⟨inval.fLeft, inval.fTop, inval.width, inval.height⟩,
    w.paint ⟨inval.fLeft, inval.fTop, inval.width, inval.height⟩⟩

/-- What rebuildPictureSet makes of one tile: a tile that is up to date stays,
another one takes the picture recorded for its own bounds. -/
def rebuiltTile (w : World) (cur : Snapshot) (t : Tile) : Tile :=
  if t.valid then t else { t with picture := some (pictureFor w cur t.area), valid := true }

/-- Modelled from the spec: what section 4.1 and 4.2 say of the three members
of PictureSet that are taken as parameters. -/
structure PictureSetOps.Lawful (ops : PictureSetOps) : Prop where
  /-- reuseSubdivided "returns false if no exact match": a set without tiles
  has no split tiles to match and is left alone. -/
  reuse_empty : ∀ p inval, p.tiles = [] → ops.reuseSubdivided p inval = (p, false)
  /-- reuseSubdivided "marks those exact tiles invalid in place": no tile is
  added or removed. -/
  reuse_length : ∀ p inval, (ops.reuseSubdivided p inval).1.tiles.length = p.tiles.length
  /-- build "returns true if any tile remains marked invalid". -/
  build_flag : ∀ p, (ops.build p).2 = (ops.build p).1.tiles.any fun t => !t.valid
  /-- build only "removes/clips tiles": it marks no tile invalid. -/
  build_valid : ∀ p, (∀ t ∈ p.tiles, t.valid = true) →
    ∀ t ∈ (ops.build p).1.tiles, t.valid = true
  /-- build only "removes/clips tiles": it adds none. -/
  build_length : ∀ p, (ops.build p).1.tiles.length ≤ p.tiles.length
  /-- In build "later tiles win on overlap": the last tile stays as it is. -/
  build_last : ∀ p t, p.tiles.getLast? = some t → (ops.build p).1.tiles.getLast? = some t
  /-- build keeps the content width and height. -/
  build_size : ∀ p, (ops.build p).1.width = p.width ∧ (ops.build p).1.height = p.height
  /-- The draw times are "stats only, not geometry": the size, the tiles'
  rectangles, flags and pictures stay. -/
  drawTimes_keeps : ∀ dst src, (ops.setDrawTimes dst src).width = dst.width ∧
    (ops.setDrawTimes dst src).height = dst.height ∧
    (ops.setDrawTimes dst src).tiles.map (fun t => (t.area, t.valid, t.picture)) =
      dst.tiles.map (fun t => (t.area, t.valid, t.picture))

/-- Modelled from the spec: reuseSubdivided acts only when "the pending
invalidation matches a region previously split into tiles" and "returns false
if no exact match": a set none of whose tiles was made by a split is left
alone. -/
def PictureSetOps.ReusesSplitOnly (ops : PictureSetOps) : Prop :=
  ∀ p inval, (∀ t ∈ p.tiles, t.split = false) → ops.reuseSubdivided p inval = (p, false)

/-- A page whose layout settles without invalidating anything, whose content
is `width` x `height` and holds every sub-frame. -/
structure World.Settled (w : World) (width height : Int) : Prop where
  hasDocument : w.hasDocument = true
  layout : layoutIfNeededRecursive w.first.frame = (true, [])
  contentsWidth : w.first.contentsWidth = width
  contentsHeight : w.first.contentsHeight = height
  framesInside : w.contentRect.contains (totalRect w.contentRect w.first.frame) = true
  navLayout : (layoutIfNeededRecursive w.nav.frame).2 = []

/-- The calls with which recordPictureSet resizes the view: the resize itself
and the two calls that force the layout. -/
def Event.isResizeStep : Event → Bool
  | .viewResize _ _ => true
  | .setNeedsLayoutAndPrefWidthsRecalc => true
  | .forceLayout => true
  | _ => false

/-- The rectangle of the last entry of `updated` that references the node `n`. -/
def lastRectFor (updated : List Container) (n : Node) : Option IntRect :=
  (updated.reverse.find? fun u => decide (u.node = n)).map Container.rect

/-- The sum of the x of the owners of the frames `ancestors`. -/
def ownersX (ancestors : List Frame) : Int :=
  ((ancestors.filterMap Frame.ownerRenderer).map RenderPart.x).sum

/-- The sum of the y of the owners of the frames `ancestors`. -/
def ownersY (ancestors : List Frame) : Int :=
  ((ancestors.filterMap Frame.ownerRenderer).map RenderPart.y).sum

/-- The rectangles of the sub-frames that the frame loop of recordPictureSet
joins into `total`, in the order of the loop. -/
def mergedRects (total : SkIRect) : List (Frame × List Frame) → List SkIRect
  | [] => []
  | entry :: rest =>
    match frameRect entry.1 entry.2 with
    | none => mergedRects total rest
    | some r =>
      if SkIRect.Intersects total r then
        r :: mergedRects (total.join r.fLeft r.fTop r.fRight r.fBottom) rest
      else mergedRects total rest

/-- The domTreeVersion counters recordPictureSet adds up: the one of the main
frame, then those of the frames traverseNext() reaches, in that order. -/
def frameVersions (mainFrame : Frame) : List Nat :=
  (mainFrame :: (traverseBelow [] mainFrame).map Prod.fst).map Frame.domTreeVersion

namespace Fixture

/-- The object as the constructor and reset(true) leave it. -/
def fresh : WebViewCore where
  m_mainFrame := 1
  m_moveGeneration := 0
  m_touchGeneration := 0
  m_textGeneration := 0
  m_lastGeneration := 0
  m_blockTextfieldUpdates := false
  m_scrollOffsetX := 0
  m_scrollOffsetY := 0
  m_mousePos := ⟨0, 0⟩
  m_frameCacheKit := none
  m_navPictureKit := none
  m_temp := none
  m_tempPict := none
  m_updatedFrameCache := true
  m_frameCacheOutOfDate := true
  m_useReplay := false
  m_skipContentDraw := false
  m_findIsUp := false
  m_domtree_version := 0
  m_check_domtree_version := true
  m_progressDone := false
  m_lastFocused := none
  m_lastFocusedBounds := ⟨0, 0, 0, 0⟩
  m_hasCursorBounds := false
  m_cursorBounds := ⟨0, 0, 0, 0⟩
  m_cursorNode := none
  m_content := PictureSet.empty
  m_addInval := SkRegion.empty
  m_rebuildInval := SkRegion.empty
  m_buttons := []
  m_popupReply := none
  log := []

/-- A main frame without sub-frames whose view is laid out. -/
def settledFrame : Frame := .mk (some ⟨false, [], false⟩) none 1 []

/-- A main frame whose view still needs layout after layout() ran. -/
def unsettledFrame : Frame := .mk (some ⟨true, [], true⟩) none 1 []

/-- A page of 800 x 600 with a document, no focus, no buttons, half loaded. -/
def world : World where
  hasDocument := true
  progress := mkRat 1 2
  first := ⟨settledFrame, 800, 600⟩
  forceLayoutInvals := []
  resized := ⟨settledFrame, 800, 600⟩
  nav := ⟨settledFrame, 800, 600⟩
  paint := fun _ => 7
  drawButtons := fun _ buttons => buttons
  currentFocus := none
  focusAfterClick := none
  getRect := fun _ => ⟨0, 0, 0, 0⟩
  renderer := fun _ => none
  documentFrame := fun _ => 1
  isAreaTag := fun _ => false
  validNode := fun _ _ => true
  listItems := fun _ => []
  multiple := fun _ => false
  selectedListIndex := fun _ => 0
  buildCache := 1
  findAt := fun _ => none
  windowWidth := 320
  windowHeight := 240
  hitTestInnerNode := fun _ => none
  mouseReleaseHandled := false
  uiMoveGeneration := none

/-- The fresh object once the UI thread has issued move generation 5. -/
def atMoveFive : WebViewCore := { fresh with m_moveGeneration := 5 }

/-- The fresh object once the UI thread has issued move generation 6. -/
def atMoveSix : WebViewCore := { fresh with m_moveGeneration := 6 }

/-- The fresh object once the UI thread has issued touch generation 6. -/
def atTouchSix : WebViewCore := { fresh with m_touchGeneration := 6 }

/-- The world in which the UI thread stores move generation 6 during the rebuild. -/
def bumpWorld : World := { world with uiMoveGeneration := some 6 }

/-- The world in which node 2 has the focus. -/
def focusWorld : World := { world with currentFocus := some 2 }

/-- An object whose text generation is 7 and whose last generation is 9. -/
def seasoned : WebViewCore :=
  { fresh with m_moveGeneration := 5, m_textGeneration := 7, m_lastGeneration := 9 }

/-- The world whose main view does not settle in the first layout pass. -/
def unsettledWorld : World := { world with first := ⟨unsettledFrame, 800, 600⟩ }

/-- The world whose main frame has no document yet. -/
def noDocumentWorld : World := { world with hasDocument := false }

/-- The world whose page has finished loading. -/
def doneWorld : World := { world with progress := 1 }

/-- An object with content of 800 x 600, no tile yet and the rectangle
(0,0,100,100) invalidated. -/
def pending : WebViewCore :=
  { fresh with m_addInval := ⟨[⟨0, 0, 100, 100⟩]⟩, m_content := ⟨[], 800, 600⟩ }

/-- An object with content of 800 x 600, one valid tile and the rectangle
(0,0,10,10) invalidated. -/
def tiled : WebViewCore :=
  { fresh with
    m_addInval := ⟨[⟨0, 0, 10, 10⟩]⟩
    m_content := ⟨[⟨⟨0, 0, 5, 5⟩, true, none, 0, false⟩], 800, 600⟩ }

/-- An object without tiles whose load has been seen to be over. -/
def loadedEmpty : WebViewCore := { fresh with m_progressDone := true }

/-- An object whose picture set has the size 800 x 600 and no tile, with
nothing invalidated. -/
def sized : WebViewCore := { fresh with m_content := ⟨[], 800, 600⟩ }

/-- A picture set of two valid tiles, the second one made by a split. -/
def splitTiles : PictureSet :=
  ⟨[⟨⟨0, 0, 50, 50⟩, true, some SkPicture.blank, 3, false⟩,
    ⟨⟨50, 0, 100, 50⟩, true, some SkPicture.blank, 0, true⟩], 800, 600⟩

/-- An object in which the rectangle of that split tile is invalidated. -/
def splitPending : WebViewCore :=
  { fresh with m_addInval := ⟨[⟨50, 0, 100, 50⟩]⟩, m_content := splitTiles }

/-- An object whose frame cache is up to date for the page of `world`: no
focus, no find overlay, the version sum of the page stored, and the rectangle
(0,0,100,100) invalidated. -/
def current : WebViewCore :=
  { pending with m_frameCacheOutOfDate := false, m_updatedFrameCache := false,
                 m_domtree_version := 1 }

/-- Three buttons on three nodes, the second one removable. -/
def buttons : List Container :=
  [⟨1, ⟨0, 0, 10, 10⟩, false⟩, ⟨2, ⟨0, 20, 10, 10⟩, true⟩, ⟨3, ⟨0, 40, 10, 10⟩, false⟩]

/-- An update that moves the button of node 3 and names node 4 twice. -/
def updatedButtons : List Container :=
  [⟨3, ⟨5, 40, 10, 10⟩, false⟩, ⟨4, ⟨0, 60, 10, 10⟩, false⟩, ⟨4, ⟨0, 61, 10, 10⟩, false⟩]

/-- A main frame with one sub-frame whose owner lies at (700,500) and is
200 x 200: it reaches over the right and the bottom edge of an 800 x 600 page. -/
def framedFrame : Frame :=
  .mk (some ⟨false, [], false⟩) none 1
    [.mk (some ⟨false, [], false⟩) (some ⟨700, 500, 200, 200⟩) 1 []]

/-- The page of `world` with that sub-frame. -/
def framedWorld : World :=
  { world with first := ⟨framedFrame, 800, 600⟩, resized := ⟨framedFrame, 900, 700⟩ }

/-- A main frame and one sub-frame, both documents at version 0. -/
def wrapBefore : Frame := .mk none none 0 [.mk none none 0 []]

/-- The same two frames once each document has seen 2^31 changes. -/
def wrapAfter : Frame := .mk none none 2147483648 [.mk none none 2147483648 []]

/-- A page on which node 5 is a select element with two options, the second
one selected. -/
def selectWorld : World :=
  { world with
    listItems := fun _ => [.option [97] false false, .option [98] false true]
    multiple := fun _ => true }

/-- An object that waits for the reply of the list box of node 5. -/
def withPopup : WebViewCore := { fresh with m_popupReply := some ⟨some 5, 1⟩ }

/-- A page on which node 5 is a menu list with two options. -/
def menuWorld : World :=
  { selectWorld with renderer := fun _ => some ⟨false, false, false, false, true, []⟩ }

/-- A PictureSet implementation that never reuses split tiles, removes
nothing in build() and copies no draw time. -/
def ops : PictureSetOps where
  reuseSubdivided := fun p _ => (p, false)
  build := fun p => (p, p.tiles.any fun t => !t.valid)
  setDrawTimes := fun dst _ => dst

/-- A PictureSet implementation whose reuseSubdivided marks the split tiles
that have exactly the bounds of the invalidated region. -/
def splitOps : PictureSetOps where
  reuseSubdivided := fun p inval =>
    if p.tiles.any (fun t => t.split && decide (t.area = inval.getBounds)) then
      ({ p with
          tiles := p.tiles.map fun t =>
            if t.split && decide (t.area = inval.getBounds) then { t with valid := false }
            else t }, true)
    else (p, false)
  build := fun p => (p, p.tiles.any fun t => !t.valid)
  setDrawTimes := fun dst _ => dst

/-- The object after the first record cycle on the page of `world`: the
constructor state, one invalidation and one call of recordContent. -/
def recordedOnce : WebViewCore :=
  (WebViewCore.recordContent ops world (fresh.contentInvalidate ⟨0, 0, 800, 600⟩)
    SkRegion.empty ⟨0, 0⟩).1

end Fixture

/-! ## Arithmetic on `int` -/

theorem wrapInt_of_fits (v : Int) (h : fitsInt v) : wrapInt v = v := by
  unfold fitsInt INT_MIN INT_MAX at h
  unfold wrapInt
  omega

theorem wrapInt_fits (v : Int) : fitsInt (wrapInt v) := by
  unfold fitsInt INT_MIN INT_MAX wrapInt
  omega

theorem wrapInt_add_left (a b : Int) : wrapInt (wrapInt a + b) = wrapInt (a + b) := by
  unfold wrapInt
  omega

theorem IntRect.right_of_fits (r : IntRect) (h : fitsInt (r.x + r.width)) :
    r.right = r.x + r.width :=
  wrapInt_of_fits _ h

theorem IntRect.bottom_of_fits (r : IntRect) (h : fitsInt (r.y + r.height)) :
    r.bottom = r.y + r.height :=
  wrapInt_of_fits _ h

/-! ## What the recording steps leave alone -/

theorem Quiet.refl (s : WebViewCore) : Quiet s s :=
  ⟨rfl, rfl, rfl, rfl, rfl, rfl, rfl, rfl⟩

theorem Quiet.trans {s t u : WebViewCore} (h₁ : Quiet s t) (h₂ : Quiet t u) : Quiet s u :=
  ⟨h₂.moveGeneration.trans h₁.moveGeneration, h₂.touchGeneration.trans h₁.touchGeneration,
    h₂.textGeneration.trans h₁.textGeneration, h₂.lastGeneration.trans h₁.lastGeneration,
    h₂.mousePos.trans h₁.mousePos, h₂.progressDone.trans h₁.progressDone,
    h₂.content.trans h₁.content, h₂.mouseLog.trans h₁.mouseLog⟩

namespace WebViewCore

theorem emit_quiet (s : WebViewCore) (e : Event) (he : e.isMouse = false) :
    Quiet s (s.emit e) := by
  constructor <;> simp [emit, List.filter_append, he]

theorem contentInvalidate_quiet (s : WebViewCore) (r : IntRect) :
    Quiet s (s.contentInvalidate r) := by
  unfold contentInvalidate
  split
  · exact Quiet.refl s
  · by_cases h : s.m_skipContentDraw = true <;>
      constructor <;> simp [h, contentDraw, emit, List.filter_append, Event.isMouse]

theorem foldl_contentInvalidate_quiet (invals : List IntRect) (s : WebViewCore) :
    Quiet s (invals.foldl contentInvalidate s) := by
  induction invals generalizing s with
  | nil => exact Quiet.refl s
  | cons r rest ih => exact (contentInvalidate_quiet s r).trans (ih _)

theorem layoutPass_quiet (s : WebViewCore) (frame : Frame) :
    Quiet s (s.layoutPass frame).1 :=
  foldl_contentInvalidate_quiet _ s

theorem recordPicture_quiet (w : World) (s : WebViewCore) (picture : SkPicture) :
    Quiet s (recordPicture w s picture).1 := by
  unfold recordPicture
  split
  · exact Quiet.refl s
  · have h := layoutPass_quiet s w.nav.frame
    rcases hp : s.layoutPass w.nav.frame with ⟨t, success⟩
    rw [hp] at h
    cases success
    · simpa using h
    · exact ⟨h.1, h.2, h.3, h.4, h.5, h.6, h.7, h.8⟩

theorem prepareFrameCache_upToDate (w : World) (s : WebViewCore)
    (h : s.m_frameCacheOutOfDate = false) : prepareFrameCache w s = (s, false) := by
  simp [prepareFrameCache, h]

/-- The shape of a rebuild: the object after recordPicture with a new temp
snapshot and its picture. -/
theorem prepareFrameCache_outOfDate (w : World) (s : WebViewCore)
    (h : s.m_frameCacheOutOfDate = true) :
    ∃ temp : CachedRoot,
      prepareFrameCache w s =
        ({ (recordPicture w { s with m_frameCacheOutOfDate := false } SkPicture.blank).1 with
            m_temp := some temp
            m_tempPict :=
              some (recordPicture w { s with m_frameCacheOutOfDate := false } SkPicture.blank).2 },
          true) := by
  unfold prepareFrameCache
  simp only [h, Bool.not_true, Bool.false_eq_true, if_false]
  rcases hp : recordPicture w { s with m_frameCacheOutOfDate := false } SkPicture.blank with
    ⟨t, tempPict⟩
  simp only
  split
  · exact ⟨_, rfl⟩
  · split
    · exact ⟨_, rfl⟩
    · repeat' split
      all_goals exact ⟨_, rfl⟩

theorem prepareFrameCache_result (w : World) (s : WebViewCore) :
    (prepareFrameCache w s).2 = s.m_frameCacheOutOfDate := by
  cases h : s.m_frameCacheOutOfDate
  · rw [prepareFrameCache_upToDate w s h]
  · obtain ⟨temp, ht⟩ := prepareFrameCache_outOfDate w s h
    rw [ht]

theorem prepareFrameCache_quiet (w : World) (s : WebViewCore) :
    Quiet s (prepareFrameCache w s).1 := by
  cases h : s.m_frameCacheOutOfDate
  · rw [prepareFrameCache_upToDate w s h]
    exact Quiet.refl s
  · obtain ⟨temp, ht⟩ := prepareFrameCache_outOfDate w s h
    rw [ht]
    have hq := recordPicture_quiet w { s with m_frameCacheOutOfDate := false } SkPicture.blank
    exact ⟨hq.1, hq.2, hq.3, hq.4, hq.5, hq.6, hq.7, hq.8⟩

theorem releaseFrameCache_quiet (s : WebViewCore) (newCache : Bool) :
    Quiet s (releaseFrameCache s newCache) := by
  cases newCache
  · exact Quiet.refl s
  · exact ⟨rfl, rfl, rfl, rfl, rfl, rfl, rfl, rfl⟩

theorem updateFrameCache_quiet (w : World) (s : WebViewCore) :
    Quiet s (updateFrameCache w s) := by
  unfold updateFrameCache
  have h := prepareFrameCache_quiet w { s with m_useReplay := false }
  have h₂ := releaseFrameCache_quiet (prepareFrameCache w { s with m_useReplay := false }).1
    (prepareFrameCache w { s with m_useReplay := false }).2
  have h₃ := h.trans h₂
  exact ⟨h₃.1, h₃.2, h₃.3, h₃.4, h₃.5, h₃.6, h₃.7, h₃.8⟩

theorem moveMouse_keeps (w : World) (s : WebViewCore) (frame : Option FramePtr)
    (node : Option Node) (x y : Int) :
    (moveMouse w s frame node x y).1.m_moveGeneration = s.m_moveGeneration ∧
    (moveMouse w s frame node x y).1.m_touchGeneration = s.m_touchGeneration ∧
    (moveMouse w s frame node x y).1.m_textGeneration = s.m_textGeneration ∧
    (moveMouse w s frame node x y).1.m_lastGeneration = s.m_lastGeneration ∧
    (moveMouse w s frame node x y).1.m_mousePos =
      ⟨wrapInt (x - s.m_scrollOffsetX), wrapInt (y - s.m_scrollOffsetY)⟩ ∧
    Event.handleMouseMoveEvent (s.mouseFrame w frame)
        ⟨wrapInt (x - s.m_scrollOffsetX), wrapInt (y - s.m_scrollOffsetY)⟩ ∈
      (moveMouse w s frame node x y).1.log := by
  unfold moveMouse mouseFrame
  cases node with
  | none => simp [emit]
  | some n =>
    simp only [emit]
    split
    · simp
    · split <;> simp

/-- Whatever holds of the object on entry and survives every logged call and
every store to m_popupReply holds after handleMouseClick. -/
theorem handleMouseClick_invariant (w : World) (s : WebViewCore) (framePtr : Option FramePtr)
    (nodePtr : Option Node) (P : WebViewCore → Prop) (h0 : P s)
    (hemit : ∀ t e, P t → P (t.emit e))
    (hpop : ∀ t r, P t → P { t with m_popupReply := r }) :
    P (handleMouseClick w s framePtr nodePtr).1 := by
  have hlb : ∀ t reply labels count enabled ec multiple selected sc, P t →
      P (listBoxRequest t reply labels count enabled ec multiple selected sc) := by
    intro t reply labels count enabled ec multiple selected sc ht
    unfold listBoxRequest
    split
    · exact ht
    · split <;> exact hpop _ _ (hemit _ _ ht)
  have htail : ∀ fp : FramePtr, P
      (match w.focusAfterClick with
        | none => (((s.emit (Event.setUserInitiatedClick true)).emit
            (Event.handleMousePressEvent fp s.m_mousePos)).emit
            (Event.handleMouseReleaseEvent fp s.m_mousePos)).emit (Event.setUserInitiatedClick false)
        | some focusNode =>
          match w.renderer focusNode with
          | none => (((s.emit (Event.setUserInitiatedClick true)).emit
            (Event.handleMousePressEvent fp s.m_mousePos)).emit
            (Event.handleMouseReleaseEvent fp s.m_mousePos)).emit (Event.setUserInitiatedClick false)
          | some renderer =>
            if (renderer.isTextField || renderer.isTextArea) = true then
              ((((s.emit (Event.setUserInitiatedClick true)).emit
            (Event.handleMousePressEvent fp s.m_mousePos)).emit
            (Event.handleMouseReleaseEvent fp s.m_mousePos)).emit (Event.setUserInitiatedClick false)).setFocusControllerActive true
            else (((s.emit (Event.setUserInitiatedClick true)).emit
            (Event.handleMousePressEvent fp s.m_mousePos)).emit
            (Event.handleMouseReleaseEvent fp s.m_mousePos)).emit (Event.setUserInitiatedClick false)) := by
    intro fp
    have h4 := hemit _ (Event.setUserInitiatedClick false) (hemit _ (Event.handleMouseReleaseEvent fp s.m_mousePos)
      (hemit _ (Event.handleMousePressEvent fp s.m_mousePos) (hemit _ (Event.setUserInitiatedClick true) h0)))
    split
    · exact h4
    · split
      · exact h4
      · split
        · exact hemit _ _ h4
        · exact h4
  unfold handleMouseClick
  cases nodePtr with
  | none => exact htail _
  | some node =>
    dsimp only
    by_cases hv : (framePtr.isNone || w.validNode framePtr (some node)) = true
    · simp only [hv, Bool.not_true, Bool.false_eq_true, if_false]
      by_cases ha : w.isAreaTag node = true
      · simp only [ha, if_true]
        exact hemit _ _ (hemit _ _ (hemit _ _ h0))
      · simp only [ha, if_false]
        cases hr : w.renderer node with
        | none => exact htail _
        | some renderer =>
          by_cases hm : renderer.isMenuList = true
          · simp only [hm, if_true]
            exact hlb _ _ _ _ _ _ _ _ _ h0
          · simp only [hm, if_false]
            exact htail _
    · simp only [hv, Bool.not_false, if_true]
      exact htail _

theorem handleMouseClick_keeps (w : World) (s : WebViewCore) (framePtr : Option FramePtr)
    (nodePtr : Option Node) :
    (handleMouseClick w s framePtr nodePtr).1.m_moveGeneration = s.m_moveGeneration ∧
    (handleMouseClick w s framePtr nodePtr).1.m_touchGeneration = s.m_touchGeneration ∧
    (handleMouseClick w s framePtr nodePtr).1.m_textGeneration = s.m_textGeneration ∧
    (handleMouseClick w s framePtr nodePtr).1.m_lastGeneration = s.m_lastGeneration ∧
    (handleMouseClick w s framePtr nodePtr).1.m_mousePos = s.m_mousePos ∧
    ∀ e ∈ s.log, e ∈ (handleMouseClick w s framePtr nodePtr).1.log := by
  refine handleMouseClick_invariant w s framePtr nodePtr
    (fun t => t.m_moveGeneration = s.m_moveGeneration ∧
      t.m_touchGeneration = s.m_touchGeneration ∧ t.m_textGeneration = s.m_textGeneration ∧
      t.m_lastGeneration = s.m_lastGeneration ∧ t.m_mousePos = s.m_mousePos ∧
      ∀ e ∈ s.log, e ∈ t.log) ⟨rfl, rfl, rfl, rfl, rfl, fun _ h => h⟩ ?_ ?_
  · rintro t e ⟨h₁, h₂, h₃, h₄, h₅, h₆⟩
    exact ⟨h₁, h₂, h₃, h₄, h₅, fun e he => by simp [emit, h₆ e he]⟩
  · rintro t r ⟨h₁, h₂, h₃, h₄, h₅, h₆⟩
    exact ⟨h₁, h₂, h₃, h₄, h₅, h₆⟩

theorem uiStore_keeps (w : World) (s : WebViewCore) :
    (uiStore w s).m_touchGeneration = s.m_touchGeneration ∧
    (uiStore w s).m_textGeneration = s.m_textGeneration ∧
    (uiStore w s).m_lastGeneration = s.m_lastGeneration ∧
    ((uiStore w s).m_moveGeneration = s.m_moveGeneration ∨
      w.uiMoveGeneration = some (uiStore w s).m_moveGeneration) := by
  unfold uiStore
  cases h : w.uiMoveGeneration with
  | none => exact ⟨rfl, rfl, rfl, Or.inl rfl⟩
  | some g => exact ⟨rfl, rfl, rfl, Or.inr rfl⟩

theorem moveMouseIfLatest_eq (w : World) (s : WebViewCore) (moveGeneration : Int)
    (frame : Option FramePtr) (node : Option Node) (x y : Int) (ignoreNullFocus : Bool) :
    moveMouseIfLatest w s moveGeneration frame node x y ignoreNullFocus =
      if s.m_moveGeneration > moveGeneration then s
      else if (uiStore w (prepareFrameCache w { s with m_useReplay := true }).1).m_moveGeneration
          > moveGeneration then
        releaseFrameCache (uiStore w (prepareFrameCache w { s with m_useReplay := true }).1)
          (prepareFrameCache w { s with m_useReplay := true }).2
      else if node.isNone && ignoreNullFocus then
        { releaseFrameCache (uiStore w (prepareFrameCache w { s with m_useReplay := true }).1)
            (prepareFrameCache w { s with m_useReplay := true }).2 with
          m_lastGeneration := moveGeneration }
      else
        (moveMouse w
          { releaseFrameCache (uiStore w (prepareFrameCache w { s with m_useReplay := true }).1)
              (prepareFrameCache w { s with m_useReplay := true }).2 with
            m_lastGeneration := moveGeneration } frame node x y).1 :=
  rfl

theorem moveMouseIfLatest_counters (w : World) (s : WebViewCore) (moveGeneration : Int)
    (frame : Option FramePtr) (node : Option Node) (x y : Int) (ignoreNullFocus : Bool) :
    (moveMouseIfLatest w s moveGeneration frame node x y ignoreNullFocus).m_touchGeneration =
      s.m_touchGeneration ∧
    (moveMouseIfLatest w s moveGeneration frame node x y ignoreNullFocus).m_textGeneration =
      s.m_textGeneration ∧
    ((moveMouseIfLatest w s moveGeneration frame node x y ignoreNullFocus).m_moveGeneration =
        s.m_moveGeneration ∨
      w.uiMoveGeneration = some
        (moveMouseIfLatest w s moveGeneration frame node x y ignoreNullFocus).m_moveGeneration) ∧
    ((moveMouseIfLatest w s moveGeneration frame node x y ignoreNullFocus).m_lastGeneration =
        s.m_lastGeneration ∨
      (moveMouseIfLatest w s moveGeneration frame node x y ignoreNullFocus).m_lastGeneration =
        moveGeneration) := by
  have hq := prepareFrameCache_quiet w { s with m_useReplay := true }
  have hu := uiStore_keeps w (prepareFrameCache w { s with m_useReplay := true }).1
  have hr := releaseFrameCache_quiet (uiStore w (prepareFrameCache w { s with m_useReplay := true }).1)
    (prepareFrameCache w { s with m_useReplay := true }).2
  have hm := moveMouse_keeps w
    { releaseFrameCache (uiStore w (prepareFrameCache w { s with m_useReplay := true }).1)
        (prepareFrameCache w { s with m_useReplay := true }).2 with
      m_lastGeneration := moveGeneration } frame node x y
  have h1 := hq.moveGeneration
  have h2 := hq.touchGeneration
  have h3 := hq.textGeneration
  have h4 := hq.lastGeneration
  have r1 := hr.moveGeneration
  have r2 := hr.touchGeneration
  have r3 := hr.textGeneration
  have r4 := hr.lastGeneration
  clear hq hr
  rw [moveMouseIfLatest_eq]
  generalize prepareFrameCache w { s with m_useReplay := true } = p at *
  generalize uiStore w p.1 = u at *
  generalize releaseFrameCache u p.2 = v at *
  simp only at h1 h2 h3 h4 hm ⊢
  obtain ⟨u1, u2, u3, u4⟩ := hu
  obtain ⟨m1, m2, m3, m4, -, -⟩ := hm
  split
  · exact ⟨rfl, rfl, Or.inl rfl, Or.inl rfl⟩
  · split
    · refine ⟨by rw [r2, u1, h2], by rw [r3, u2, h3], ?_, Or.inl (by rw [r4, u3, h4])⟩
      rw [r1]
      rcases u4 with h | h
      · exact Or.inl (by rw [h, h1])
      · exact Or.inr h
    · split
      · refine ⟨by simp [r2, u1, h2], by simp [r3, u2, h3], ?_, Or.inr rfl⟩
        simp only [r1]
        rcases u4 with h | h
        · exact Or.inl (by rw [h, h1])
        · exact Or.inr h
      · refine ⟨by rw [m2]; simp [r2, u1, h2], by rw [m3]; simp [r3, u2, h3], ?_,
          Or.inr (by rw [m4])⟩
        rw [m1]
        simp only [r1]
        rcases u4 with h | h
        · exact Or.inl (by rw [h, h1])
        · exact Or.inr h

theorem touchUpBeforeClick_keeps (w : World) (s : WebViewCore) (touchGeneration : Int)
    (frame : Option FramePtr) (node : Option Node) (x y : Int) :
    (touchUpBeforeClick w s touchGeneration frame node x y).m_moveGeneration =
      s.m_moveGeneration ∧
    (touchUpBeforeClick w s touchGeneration frame node x y).m_touchGeneration =
      s.m_touchGeneration ∧
    (touchUpBeforeClick w s touchGeneration frame node x y).m_textGeneration =
      s.m_textGeneration ∧
    (touchUpBeforeClick w s touchGeneration frame node x y).m_lastGeneration =
      touchGeneration ∧
    (touchUpBeforeClick w s touchGeneration frame node x y).m_mousePos =
      ⟨wrapInt (x - s.m_scrollOffsetX), wrapInt (y - s.m_scrollOffsetY)⟩ ∧
    Event.handleMouseMoveEvent (s.mouseFrame w frame)
        ⟨wrapInt (x - s.m_scrollOffsetX), wrapInt (y - s.m_scrollOffsetY)⟩ ∈
      (touchUpBeforeClick w s touchGeneration frame node x y).log ∧
    (touchUpBeforeClick w s touchGeneration frame node x y).log.getLast? =
      some (Event.setFromClick true) := by
  obtain ⟨m1, m2, m3, -, m5, m6⟩ := moveMouse_keeps w s frame node x y
  unfold touchUpBeforeClick
  generalize (moveMouse w s frame node x y).1 = t at *
  cases frame with
  | none => simp [emit, m1, m2, m3, m5, m6]
  | some f =>
    by_cases hv : w.validNode (some f) none = true <;> simp [emit, hv, m1, m2, m3, m5, m6]

theorem touchUp_eq (w : World) (s : WebViewCore) (touchGeneration : Int)
    (frame : Option FramePtr) (node : Option Node) (x y : Int) :
    touchUp w s touchGeneration frame node x y =
      if s.m_touchGeneration > touchGeneration then s
      else
        (handleMouseClick w (touchUpBeforeClick w s touchGeneration frame node x y)
          frame node).1.emit (Event.setFromClick false) :=
  rfl

theorem passToJs_counters (w : World) (s : WebViewCore) (generation : Int) (current : WString)
    (keyCode keyValue : Int) (down cap fn sym : Bool) :
    (passToJs w s generation current keyCode keyValue down cap fn sym).m_moveGeneration =
      s.m_moveGeneration ∧
    (passToJs w s generation current keyCode keyValue down cap fn sym).m_touchGeneration =
      s.m_touchGeneration ∧
    (passToJs w s generation current keyCode keyValue down cap fn sym).m_lastGeneration =
      s.m_lastGeneration ∧
    ((passToJs w s generation current keyCode keyValue down cap fn sym).m_textGeneration =
        s.m_textGeneration ∨
      (passToJs w s generation current keyCode keyValue down cap fn sym).m_textGeneration =
        generation) := by
  cases hf : w.currentFocus with
  | none => simp [passToJs, hf]
  | some focus =>
    cases hr : w.renderer focus with
    | none => simp [passToJs, hf, hr, emit]
    | some renderer =>
      simp only [passToJs, hf, hr, setFocusControllerActive, updateTextfield, emit]
      split
      · simp
      · split <;> simp

/-! ## Generation gating (C1 to C4) -/

/-- C1, as the code has it: when the UI thread stores a newer move generation
while prepareFrameCache runs, moveMouseIfLatest still releases the rebuilt
snapshot: with an out-of-date cache on entry the current snapshot and picture
become the rebuilt ones, otherwise they keep their values; what the call
drops is the store to m_lastGeneration and the mouse move. -/
theorem moveMouseIfLatest_late_generation (w : World) (s : WebViewCore)
    (moveGeneration : Int) (frame : Option FramePtr) (node : Option Node) (x y : Int)
    (ignoreNullFocus : Bool) (newer : Int)
    (hentry : ¬ s.m_moveGeneration > moveGeneration)
    (hui : w.uiMoveGeneration = some newer) (hlate : newer > moveGeneration) :
    (s.m_frameCacheOutOfDate = true →
      (moveMouseIfLatest w s moveGeneration frame node x y ignoreNullFocus).m_frameCacheKit =
          (prepareFrameCache w { s with m_useReplay := true }).1.m_temp ∧
        (moveMouseIfLatest w s moveGeneration frame node x y ignoreNullFocus).m_navPictureKit =
          (prepareFrameCache w { s with m_useReplay := true }).1.m_tempPict ∧
        (moveMouseIfLatest w s moveGeneration frame node x y ignoreNullFocus).m_frameCacheKit.isSome
          = true) ∧
    (s.m_frameCacheOutOfDate = false →
      (moveMouseIfLatest w s moveGeneration frame node x y ignoreNullFocus).m_frameCacheKit =
          s.m_frameCacheKit ∧
        (moveMouseIfLatest w s moveGeneration frame node x y ignoreNullFocus).m_navPictureKit =
          s.m_navPictureKit) ∧
    (moveMouseIfLatest w s moveGeneration frame node x y ignoreNullFocus).m_lastGeneration =
      s.m_lastGeneration ∧
    (moveMouseIfLatest w s moveGeneration frame node x y ignoreNullFocus).m_mousePos =
      s.m_mousePos ∧
    (moveMouseIfLatest w s moveGeneration frame node x y ignoreNullFocus).log.filter
      Event.isMouse = s.log.filter Event.isMouse := by
  have hq := prepareFrameCache_quiet w { s with m_useReplay := true }
  have hres := prepareFrameCache_result w { s with m_useReplay := true }
  have hval : moveMouseIfLatest w s moveGeneration frame node x y ignoreNullFocus =
      releaseFrameCache
        { (prepareFrameCache w { s with m_useReplay := true }).1 with m_moveGeneration := newer }
        (prepareFrameCache w { s with m_useReplay := true }).2 := by
    unfold moveMouseIfLatest uiStore
    simp only [hentry, if_false, hui, hlate, if_true]
  rw [hval]
  refine ⟨?_, ?_, ?_, ?_, ?_⟩
  · intro hout
    obtain ⟨temp, ht⟩ := prepareFrameCache_outOfDate w { s with m_useReplay := true } hout
    rw [ht]
    simp [releaseFrameCache]
  · intro hfresh
    rw [prepareFrameCache_upToDate w { s with m_useReplay := true } hfresh]
    simp [releaseFrameCache]
  · cases (prepareFrameCache w { s with m_useReplay := true }).2 <;>
      simpa [releaseFrameCache] using hq.lastGeneration
  · cases (prepareFrameCache w { s with m_useReplay := true }).2 <;>
      simpa [releaseFrameCache] using hq.mousePos
  · cases (prepareFrameCache w { s with m_useReplay := true }).2 <;>
      simpa [releaseFrameCache] using hq.mouseLog

/-- C1 witness: move generation 5 starts a rebuild of the fresh object and the
UI thread stores generation 6 meanwhile. -/
theorem moveMouseIfLatest_late_generation_witness :
    ¬ Fixture.atMoveFive.m_moveGeneration > 5 ∧
    Fixture.bumpWorld.uiMoveGeneration = some 6 ∧ (6 : Int) > 5 ∧
    (moveMouseIfLatest Fixture.bumpWorld Fixture.atMoveFive 5 none none 3 4
      false).m_frameCacheKit.isSome = true ∧
    (moveMouseIfLatest Fixture.bumpWorld Fixture.atMoveFive 5 none none 3 4 false).m_lastGeneration
      = Fixture.atMoveFive.m_lastGeneration ∧
    (moveMouseIfLatest Fixture.bumpWorld Fixture.atMoveFive 5 none none 3 4 false).m_mousePos
      = Fixture.atMoveFive.m_mousePos :=
  ⟨by decide, rfl, by decide,
    ((moveMouseIfLatest_late_generation Fixture.bumpWorld Fixture.atMoveFive 5 none none 3 4 false
      6 (by decide) rfl (by decide)).1 rfl).2.2,
    (moveMouseIfLatest_late_generation Fixture.bumpWorld Fixture.atMoveFive 5 none none 3 4 false
      6 (by decide) rfl (by decide)).2.2.1,
    (moveMouseIfLatest_late_generation Fixture.bumpWorld Fixture.atMoveFive 5 none none 3 4 false
      6 (by decide) rfl (by decide)).2.2.2.1⟩

/-- C1 refuted as stated: move generation 5 starts a rebuild, the UI thread
stores generation 6 before the second check, and the current snapshot and its
picture are replaced all the same. -/
theorem moveMouseIfLatest_promotes_late_rebuild :
    ¬ Fixture.atMoveFive.m_moveGeneration > 5 ∧
    (moveMouseIfLatest Fixture.bumpWorld Fixture.atMoveFive 5 none none 3 4 false).m_moveGeneration
      > 5 ∧
    (moveMouseIfLatest Fixture.bumpWorld Fixture.atMoveFive 5 none none 3 4 false).m_frameCacheKit
      ≠ Fixture.atMoveFive.m_frameCacheKit ∧
    (moveMouseIfLatest Fixture.bumpWorld Fixture.atMoveFive 5 none none 3 4 false).m_navPictureKit
      ≠ Fixture.atMoveFive.m_navPictureKit := by
  decide

/-- C2, as the code has it: moveMouseIfLatest and touchUp store their
generation argument into m_lastGeneration and passToJs stores its argument
into m_textGeneration without looking at the old value, and none of the three
writes m_moveGeneration or m_touchGeneration. So no counter goes down as long
as the argument is not below the counter it is stored into (and the UI thread
does not lower m_moveGeneration meanwhile). -/
theorem generation_counters_grow (w : World) (s : WebViewCore)
    (moveGeneration touchGeneration generation : Int) (frame : Option FramePtr)
    (node : Option Node) (x y : Int) (ignoreNullFocus : Bool) (current : WString)
    (keyCode keyValue : Int) (down cap fn sym : Bool)
    (hui : ∀ g, w.uiMoveGeneration = some g → s.m_moveGeneration ≤ g)
    (hmove : s.m_lastGeneration ≤ moveGeneration)
    (htouch : s.m_lastGeneration ≤ touchGeneration)
    (htext : s.m_textGeneration ≤ generation) :
    CountersGrow s (moveMouseIfLatest w s moveGeneration frame node x y ignoreNullFocus) ∧
    CountersGrow s (touchUp w s touchGeneration frame node x y) ∧
    CountersGrow s (passToJs w s generation current keyCode keyValue down cap fn sym) ∧
    (moveMouseIfLatest w s moveGeneration frame node x y ignoreNullFocus).m_touchGeneration =
      s.m_touchGeneration ∧
    (touchUp w s touchGeneration frame node x y).m_moveGeneration = s.m_moveGeneration ∧
    (touchUp w s touchGeneration frame node x y).m_touchGeneration = s.m_touchGeneration ∧
    (passToJs w s generation current keyCode keyValue down cap fn sym).m_moveGeneration =
      s.m_moveGeneration ∧
    (passToJs w s generation current keyCode keyValue down cap fn sym).m_touchGeneration =
      s.m_touchGeneration := by
  obtain ⟨a1, a2, a3, a4⟩ :=
    moveMouseIfLatest_counters w s moveGeneration frame node x y ignoreNullFocus
  obtain ⟨c1, c2, c3, c4⟩ :=
    passToJs_counters w s generation current keyCode keyValue down cap fn sym
  have htouchUp :
      (touchUp w s touchGeneration frame node x y).m_moveGeneration = s.m_moveGeneration ∧
      (touchUp w s touchGeneration frame node x y).m_touchGeneration = s.m_touchGeneration ∧
      (touchUp w s touchGeneration frame node x y).m_textGeneration = s.m_textGeneration ∧
      ((touchUp w s touchGeneration frame node x y).m_lastGeneration = s.m_lastGeneration ∨
        (touchUp w s touchGeneration frame node x y).m_lastGeneration = touchGeneration) := by
    rw [touchUp_eq]
    split
    · exact ⟨rfl, rfl, rfl, Or.inl rfl⟩
    · obtain ⟨b1, b2, b3, b4, -, -, -⟩ :=
        touchUpBeforeClick_keeps w s touchGeneration frame node x y
      obtain ⟨k1, k2, k3, k4, -, -⟩ :=
        handleMouseClick_keeps w (touchUpBeforeClick w s touchGeneration frame node x y)
          frame node
      exact ⟨k1.trans b1, k2.trans b2, k3.trans b3, Or.inr (k4.trans b4)⟩
  obtain ⟨b1, b2, b3, b4⟩ := htouchUp
  refine ⟨⟨?_, a1.ge, a2.ge, ?_⟩, ⟨b1.ge, b2.ge, b3.ge, ?_⟩, ⟨c1.ge, c2.ge, ?_, c3.ge⟩,
    a1, b1, b2, c1, c2⟩
  · rcases a3 with h | h
    · exact h.ge
    · exact hui _ h
  · rcases a4 with h | h
    · exact h.ge
    · rw [h]; exact hmove
  · rcases b4 with h | h
    · exact h.ge
    · rw [h]; exact htouch
  · rcases c4 with h | h
    · exact h.ge
    · rw [h]; exact htext

/-- C2 witness: generation 1 reaches the fresh object while the UI thread
moves on to move generation 6. -/
theorem generation_counters_grow_witness :
    Fixture.fresh.m_lastGeneration ≤ 1 ∧ Fixture.fresh.m_textGeneration ≤ 1 ∧
    CountersGrow Fixture.fresh
      (moveMouseIfLatest Fixture.bumpWorld Fixture.fresh 1 none none 3 4 false) ∧
    CountersGrow Fixture.fresh (touchUp Fixture.bumpWorld Fixture.fresh 1 none none 3 4) ∧
    CountersGrow Fixture.fresh
      (passToJs Fixture.bumpWorld Fixture.fresh 1 [] 0 0 true false false false) :=
  ⟨by decide, by decide,
    (generation_counters_grow Fixture.bumpWorld Fixture.fresh 1 1 1 none none 3 4 false [] 0 0
      true false false false (fun _ h => Option.some.inj h ▸ by decide) (by decide) (by decide)
      (by decide)).1,
    (generation_counters_grow Fixture.bumpWorld Fixture.fresh 1 1 1 none none 3 4 false [] 0 0
      true false false false (fun _ h => Option.some.inj h ▸ by decide) (by decide) (by decide)
      (by decide)).2.1,
    (generation_counters_grow Fixture.bumpWorld Fixture.fresh 1 1 1 none none 3 4 false [] 0 0
      true false false false (fun _ h => Option.some.inj h ▸ by decide) (by decide) (by decide)
      (by decide)).2.2.1⟩

/-- C2 refuted as stated: passToJs with generation 3 lowers a text generation
of 7, and moveMouseIfLatest with move generation 5 lowers a last generation
of 9. -/
theorem generation_counters_can_drop :
    (passToJs Fixture.focusWorld Fixture.seasoned 3 [] 0 0 true false false false).m_textGeneration
      < Fixture.seasoned.m_textGeneration ∧
    (moveMouseIfLatest Fixture.world Fixture.seasoned 5 none none 3 4 false).m_lastGeneration
      < Fixture.seasoned.m_lastGeneration := by
  decide

/-- C3: a call of moveMouseIfLatest whose generation is older than
m_moveGeneration on entry leaves the whole object as it was: no rebuild is
started (m_frameCacheOutOfDate, m_temp, m_frameCacheKit), m_useReplay and
m_lastGeneration keep their values, m_mousePos too, and nothing is added to
the log of calls. -/
theorem moveMouseIfLatest_stale_on_entry (w : World) (s : WebViewCore) (moveGeneration : Int)
    (frame : Option FramePtr) (node : Option Node) (x y : Int) (ignoreNullFocus : Bool)
    (h : s.m_moveGeneration > moveGeneration) :
    moveMouseIfLatest w s moveGeneration frame node x y ignoreNullFocus = s := by
  rw [moveMouseIfLatest_eq, if_pos h]

/-- C3 witness: move generation 5 arrives when the UI thread is at 6. -/
theorem moveMouseIfLatest_stale_on_entry_witness :
    Fixture.atMoveSix.m_moveGeneration > 5 ∧
    moveMouseIfLatest Fixture.world Fixture.atMoveSix 5 (some 1) (some 2) 3 4 false =
      Fixture.atMoveSix :=
  ⟨by decide,
    moveMouseIfLatest_stale_on_entry Fixture.world Fixture.atMoveSix 5 (some 1) (some 2) 3 4
      false (by decide)⟩

theorem emit_log (s : WebViewCore) (e : Event) : (s.emit e).log = s.log ++ [e] := rfl

/-- The click on a live menu list: the list box is requested, unless one is
showing already. -/
theorem handleMouseClick_menuList (w : World) (s : WebViewCore) (framePtr : Option FramePtr)
    (node : Node) (renderer : RenderObject)
    (hv : (framePtr.isNone || w.validNode framePtr (some node)) = true)
    (ha : w.isAreaTag node = false) (hr : w.renderer node = some renderer)
    (hm : renderer.isMenuList = true) :
    (s.m_popupReply.isSome = true → (handleMouseClick w s framePtr (some node)).1 = s) ∧
    (s.m_popupReply = none →
      (handleMouseClick w s framePtr (some node)).1.log =
        s.log ++
          [if w.multiple node then
            Event.requestListBox
              (makeLabelArray (gatherListItems (w.multiple node) (w.listItems node) 0).1
                (w.listItems node).length)
              (gatherListItems (w.multiple node) (w.listItems node) 0).2.1
              (gatherListItems (w.multiple node) (w.listItems node) 0).2.2
          else
            Event.requestSingleListBox
              (makeLabelArray (gatherListItems (w.multiple node) (w.listItems node) 0).1
                (w.listItems node).length)
              (gatherListItems (w.multiple node) (w.listItems node) 0).2.1
              (w.selectedListIndex node)] ∧
      (handleMouseClick w s framePtr (some node)).1.m_popupReply =
        some ⟨some node, w.documentFrame node⟩) := by
  unfold handleMouseClick
  dsimp only
  simp only [hv, Bool.not_true, Bool.false_eq_true, if_false, ha, hr, hm, if_true]
  rcases hg : gatherListItems (w.multiple node) (w.listItems node) 0 with
    ⟨names, enabledArray, selectedArray⟩
  simp only
  unfold listBoxRequest
  constructor
  · intro hp
    simp only [hp, if_true]
  · intro hp
    simp only [hp, Option.isSome_none, Bool.false_eq_true, if_false]
    cases hmul : w.multiple node <;> simp [emit, List.take_length]

/-- The click everywhere else: a press and a release at m_mousePos. -/
theorem handleMouseClick_plain (w : World) (s : WebViewCore) (framePtr : Option FramePtr)
    (nodePtr : Option Node)
    (h : nodePtr = none ∨ (framePtr.isNone || w.validNode framePtr nodePtr) = false ∨
      ∃ node, nodePtr = some node ∧ w.isAreaTag node = false ∧
        (w.renderer node = none ∨ ∃ r, w.renderer node = some r ∧ r.isMenuList = false)) :
    (handleMouseClick w s framePtr nodePtr).1.log =
      s.log ++
        [Event.setUserInitiatedClick true,
          Event.handleMousePressEvent
            (match framePtr with
              | none => s.m_mainFrame
              | some f =>
                if (framePtr.isNone || w.validNode framePtr nodePtr) = true then f
                else s.m_mainFrame) s.m_mousePos,
          Event.handleMouseReleaseEvent
            (match framePtr with
              | none => s.m_mainFrame
              | some f =>
                if (framePtr.isNone || w.validNode framePtr nodePtr) = true then f
                else s.m_mainFrame) s.m_mousePos,
          Event.setUserInitiatedClick false] ++
        (if w.clickFocusesText then [Event.setFocusControllerActive true] else []) ∧
    (handleMouseClick w s framePtr nodePtr).1.m_popupReply = s.m_popupReply := by
  have htail : ∀ fp : FramePtr,
      (match w.focusAfterClick with
        | none => (((s.emit (Event.setUserInitiatedClick true)).emit
            (Event.handleMousePressEvent fp s.m_mousePos)).emit
            (Event.handleMouseReleaseEvent fp s.m_mousePos)).emit (Event.setUserInitiatedClick false)
        | some focusNode =>
          match w.renderer focusNode with
          | none => (((s.emit (Event.setUserInitiatedClick true)).emit
            (Event.handleMousePressEvent fp s.m_mousePos)).emit
            (Event.handleMouseReleaseEvent fp s.m_mousePos)).emit (Event.setUserInitiatedClick false)
          | some renderer =>
            if (renderer.isTextField || renderer.isTextArea) = true then
              ((((s.emit (Event.setUserInitiatedClick true)).emit
            (Event.handleMousePressEvent fp s.m_mousePos)).emit
            (Event.handleMouseReleaseEvent fp s.m_mousePos)).emit (Event.setUserInitiatedClick false)).setFocusControllerActive true
            else (((s.emit (Event.setUserInitiatedClick true)).emit
            (Event.handleMousePressEvent fp s.m_mousePos)).emit
            (Event.handleMouseReleaseEvent fp s.m_mousePos)).emit (Event.setUserInitiatedClick false)).log =
        s.log ++
          [Event.setUserInitiatedClick true, Event.handleMousePressEvent fp s.m_mousePos,
            Event.handleMouseReleaseEvent fp s.m_mousePos, Event.setUserInitiatedClick false] ++
          (if w.clickFocusesText then [Event.setFocusControllerActive true] else []) ∧
      (match w.focusAfterClick with
        | none => (((s.emit (Event.setUserInitiatedClick true)).emit
            (Event.handleMousePressEvent fp s.m_mousePos)).emit
            (Event.handleMouseReleaseEvent fp s.m_mousePos)).emit (Event.setUserInitiatedClick false)
        | some focusNode =>
          match w.renderer focusNode with
          | none => (((s.emit (Event.setUserInitiatedClick true)).emit
            (Event.handleMousePressEvent fp s.m_mousePos)).emit
            (Event.handleMouseReleaseEvent fp s.m_mousePos)).emit (Event.setUserInitiatedClick false)
          | some renderer =>
            if (renderer.isTextField || renderer.isTextArea) = true then
              ((((s.emit (Event.setUserInitiatedClick true)).emit
            (Event.handleMousePressEvent fp s.m_mousePos)).emit
            (Event.handleMouseReleaseEvent fp s.m_mousePos)).emit (Event.setUserInitiatedClick false)).setFocusControllerActive true
            else (((s.emit (Event.setUserInitiatedClick true)).emit
            (Event.handleMousePressEvent fp s.m_mousePos)).emit
            (Event.handleMouseReleaseEvent fp s.m_mousePos)).emit (Event.setUserInitiatedClick false)).m_popupReply =
        s.m_popupReply := by
    intro fp
    unfold World.clickFocusesText
    cases hf : w.focusAfterClick with
    | none => simp [emit]
    | some focusNode =>
      dsimp only
      cases hr : w.renderer focusNode with
      | none => simp [emit]
      | some renderer =>
        dsimp only
        by_cases ht : (renderer.isTextField || renderer.isTextArea) = true
        · simp only [ht, if_true]
          simp [emit, setFocusControllerActive]
        · simp only [ht, if_false]
          simp [emit]
  unfold handleMouseClick
  cases nodePtr with
  | none =>
    cases framePtr with
    | none => exact htail _
    | some f =>
      dsimp only
      by_cases hv : w.validNode (some f) none = true
      · simp only [Option.isNone_some, Bool.false_or, hv, Bool.not_true, Bool.false_eq_true,
          if_false, if_true]
        exact htail _
      · simp only [Option.isNone_some, Bool.false_or, hv, Bool.not_false, if_true, if_false]
        exact htail _
  | some node =>
    dsimp only
    by_cases hv : (framePtr.isNone || w.validNode framePtr (some node)) = true
    · rcases h with h | h | ⟨n, hn, ha, hr⟩
      · cases h
      · rw [hv] at h
        cases h
      · cases hn
        simp only [hv, Bool.not_true, Bool.false_eq_true, if_false, ha]
        rcases hr with hr | ⟨r, hr, hm⟩
        · simp only [hr]
          cases framePtr <;> exact htail _
        · simp only [hr, hm, Bool.false_eq_true, if_false]
          cases framePtr <;> exact htail _
    · simp only [hv, Bool.not_false, if_true, if_false]
      cases framePtr <;> exact htail _

/-- The calls touchUp makes before the click: the mouse move, the focus on a
live plug-in node, the reset of the form submission protection of a live
frame, and setFromClick(true). -/
theorem touchUpBeforeClick_log (w : World) (s : WebViewCore) (touchGeneration : Int)
    (frame : Option FramePtr) (node : Option Node) (x y : Int) :
    (touchUpBeforeClick w s touchGeneration frame node x y).log =
      s.log ++
        [Event.handleMouseMoveEvent (s.mouseFrame w frame)
          ⟨wrapInt (x - s.m_scrollOffsetX), wrapInt (y - s.m_scrollOffsetY)⟩] ++
        (match node with
          | none => []
          | some n =>
            if w.validNode (some (s.mouseFrame w frame)) (some n) && nodeIsPlugin w n then
              [Event.setFocusedNode n]
            else []) ++
        (match frame with
          | none => []
          | some f =>
            if w.validNode (some f) none then [Event.resetMultipleFormSubmissionProtection f]
            else []) ++
        [Event.setFromClick true] ∧
    (touchUpBeforeClick w s touchGeneration frame node x y).m_popupReply = s.m_popupReply ∧
    (touchUpBeforeClick w s touchGeneration frame node x y).m_mainFrame = s.m_mainFrame := by
  have hmove : (moveMouse w s frame node x y).1.log =
      s.log ++
        [Event.handleMouseMoveEvent (s.mouseFrame w frame)
          ⟨wrapInt (x - s.m_scrollOffsetX), wrapInt (y - s.m_scrollOffsetY)⟩] ++
        (match node with
          | none => []
          | some n =>
            if w.validNode (some (s.mouseFrame w frame)) (some n) && nodeIsPlugin w n then
              [Event.setFocusedNode n]
            else []) ∧
      (moveMouse w s frame node x y).1.m_popupReply = s.m_popupReply ∧
      (moveMouse w s frame node x y).1.m_mainFrame = s.m_mainFrame := by
    unfold moveMouse mouseFrame
    cases node with
    | none => simp [emit]
    | some n =>
      simp only [emit]
      split
      · rename_i hv
        simp only [Bool.not_eq_true'] at hv
        simp [hv]
      · rename_i hv
        simp only [Bool.not_eq_true', Bool.not_eq_false] at hv
        split
        · rename_i hp
          simp [hv, hp]
        · rename_i hp
          simp [hv, hp]
  obtain ⟨m1, m2, m3⟩ := hmove
  unfold touchUpBeforeClick
  generalize (moveMouse w s frame node x y).1 = t at *
  cases frame with
  | none => simp [emit, m1, m2, m3]
  | some f =>
    by_cases hv : w.validNode (some f) none = true <;> simp [emit, hv, m1, m2, m3]

/-- C4: touchUp is gated by the touch generation. A generation older than
m_touchGeneration leaves the whole object as it was. Otherwise m_mousePos is
the point in window coordinates (x and y less the scroll offsets, as `int`s),
m_lastGeneration is the generation, and the log grows by exactly: the mouse
move handed to the frame, the focus of a plug-in node, the reset of the
form-submission protection of a valid frame, setFromClick(true), the calls of
the click, setFromClick(false). The calls of
the click are a simulated click for a live area element; for a live menu list
nothing when a list box is showing and else the request of the list box, which
is then waited for; in every other case the press and the release at
m_mousePos on the frame of the click, followed by the activation of the focus
controller when the click focused a text field or text area. -/
theorem touchUp_generation_gated (w : World) (s : WebViewCore) (touchGeneration : Int)
    (frame : Option FramePtr) (node : Option Node) (x y : Int) :
    (s.m_touchGeneration > touchGeneration → touchUp w s touchGeneration frame node x y = s) ∧
    (¬ s.m_touchGeneration > touchGeneration →
      (touchUp w s touchGeneration frame node x y).m_mousePos =
          ⟨wrapInt (x - s.m_scrollOffsetX), wrapInt (y - s.m_scrollOffsetY)⟩ ∧
      (touchUp w s touchGeneration frame node x y).m_lastGeneration = touchGeneration ∧
      ∃ click : List Event,
        (touchUp w s touchGeneration frame node x y).log =
          s.log ++
            [Event.handleMouseMoveEvent (s.mouseFrame w frame)
              ⟨wrapInt (x - s.m_scrollOffsetX), wrapInt (y - s.m_scrollOffsetY)⟩] ++
            (match node with
              | none => []
              | some n =>
                if w.validNode (some (s.mouseFrame w frame)) (some n) && nodeIsPlugin w n then
                  [Event.setFocusedNode n]
                else []) ++
            (match frame with
              | none => []
              | some f =>
                if w.validNode (some f) none then
                  [Event.resetMultipleFormSubmissionProtection f]
                else []) ++
            [Event.setFromClick true] ++ click ++ [Event.setFromClick false] ∧
        (∀ n, node = some n → (frame.isNone || w.validNode frame node) = true →
          w.isAreaTag n = true →
          click = [Event.setUserInitiatedClick true, Event.dispatchSimulatedClick n,
            Event.setUserInitiatedClick false]) ∧
        (∀ n renderer, node = some n → (frame.isNone || w.validNode frame node) = true →
          w.isAreaTag n = false → w.renderer n = some renderer → renderer.isMenuList = true →
          (s.m_popupReply.isSome = true →
            click = [] ∧
            (touchUp w s touchGeneration frame node x y).m_popupReply = s.m_popupReply) ∧
          (s.m_popupReply = none →
            click =
              [if w.multiple n then
                Event.requestListBox
                  (makeLabelArray (gatherListItems (w.multiple n) (w.listItems n) 0).1
                    (w.listItems n).length)
                  (gatherListItems (w.multiple n) (w.listItems n) 0).2.1
                  (gatherListItems (w.multiple n) (w.listItems n) 0).2.2
              else
                Event.requestSingleListBox
                  (makeLabelArray (gatherListItems (w.multiple n) (w.listItems n) 0).1
                    (w.listItems n).length)
                  (gatherListItems (w.multiple n) (w.listItems n) 0).2.1
                  (w.selectedListIndex n)] ∧
            (touchUp w s touchGeneration frame node x y).m_popupReply =
              some ⟨some n, w.documentFrame n⟩)) ∧
        ((node = none ∨ (frame.isNone || w.validNode frame node) = false ∨
            ∃ n, node = some n ∧ w.isAreaTag n = false ∧
              (w.renderer n = none ∨ ∃ r, w.renderer n = some r ∧ r.isMenuList = false)) →
          click =
            [Event.setUserInitiatedClick true,
              Event.handleMousePressEvent (s.clickFrame w frame node)
                ⟨wrapInt (x - s.m_scrollOffsetX), wrapInt (y - s.m_scrollOffsetY)⟩,
              Event.handleMouseReleaseEvent (s.clickFrame w frame node)
                ⟨wrapInt (x - s.m_scrollOffsetX), wrapInt (y - s.m_scrollOffsetY)⟩,
              Event.setUserInitiatedClick false] ++
            (if w.clickFocusesText then [Event.setFocusControllerActive true] else []))) := by
  constructor
  · intro h
    rw [touchUp_eq, if_pos h]
  · intro h
    obtain ⟨-, -, -, b4, b5, -, -⟩ :=
      touchUpBeforeClick_keeps w s touchGeneration frame node x y
    obtain ⟨-, -, -, k4, k5, -⟩ :=
      handleMouseClick_keeps w (touchUpBeforeClick w s touchGeneration frame node x y)
        frame node
    obtain ⟨l1, l2, l3⟩ := touchUpBeforeClick_log w s touchGeneration frame node x y
    have hprefix : ∀ e ∈ (touchUpBeforeClick w s touchGeneration frame node x y).log,
        e ∈ (handleMouseClick w (touchUpBeforeClick w s touchGeneration frame node x y)
          frame node).1.log :=
      (handleMouseClick_keeps w (touchUpBeforeClick w s touchGeneration frame node x y)
        frame node).2.2.2.2.2
    rw [touchUp_eq, if_neg h]
    refine ⟨k5.trans b5, k4.trans b4,
      (handleMouseClick w (touchUpBeforeClick w s touchGeneration frame node x y)
        frame node).1.log.drop
        (touchUpBeforeClick w s touchGeneration frame node x y).log.length, ?_, ?_, ?_, ?_⟩
    · -- the log starts with the log before the click
      have hsplit : ∃ click,
          (handleMouseClick w (touchUpBeforeClick w s touchGeneration frame node x y)
            frame node).1.log =
            (touchUpBeforeClick w s touchGeneration frame node x y).log ++ click :=
        handleMouseClick_invariant w _ frame node
          (fun t => ∃ click, t.log =
            (touchUpBeforeClick w s touchGeneration frame node x y).log ++ click)
          ⟨[], by simp⟩
          (fun t e ⟨click, hc⟩ => ⟨click ++ [e], by simp [emit, hc]⟩)
          (fun t r ⟨click, hc⟩ => ⟨click, hc⟩)
      obtain ⟨click, hc⟩ := hsplit
      rw [emit_log, hc, List.drop_left, ← l1]
    · intro n hn hv ha
      subst hn
      have harea : (handleMouseClick w
          (touchUpBeforeClick w s touchGeneration frame (some n) x y) frame (some n)).1.log =
          (touchUpBeforeClick w s touchGeneration frame (some n) x y).log ++
            [Event.setUserInitiatedClick true, Event.dispatchSimulatedClick n,
              Event.setUserInitiatedClick false] := by
        unfold handleMouseClick
        dsimp only
        simp only [hv, Bool.not_true, Bool.false_eq_true, if_false, ha, if_true]
        simp [emit]
      rw [harea, List.drop_left]
    · intro n renderer hn hv ha hr hm
      subst hn
      obtain ⟨m1, m2⟩ := handleMouseClick_menuList w
        (touchUpBeforeClick w s touchGeneration frame (some n) x y) frame n renderer hv ha hr hm
      rw [l2] at m1 m2
      constructor
      · intro hp
        rw [m1 hp]
        exact ⟨by simp, l2⟩
      · intro hp
        obtain ⟨m3, m4⟩ := m2 hp
        rw [m3, List.drop_left]
        exact ⟨rfl, m4⟩
    · intro hplain
      rw [(handleMouseClick_plain w _ frame node hplain).1, List.append_assoc, List.drop_left,
        l3, b5]
      cases frame with
      | none => rfl
      | some f =>
        cases hvalid : w.validNode (some f) node <;> simp [clickFrame, hvalid]

/-- C4, counterexample: a touch of a current generation on a live menu list
dispatches no click. With the list box of an earlier click still showing
nothing happens between setFromClick(true) and setFromClick(false); without
one the list box is requested, and no press, release or simulated click is
handed to any frame. -/
theorem touchUp_menu_list_dispatches_no_click :
    ¬ Fixture.withPopup.m_touchGeneration > 1 ∧
    (touchUp Fixture.menuWorld Fixture.withPopup 1 none (some 5) 3 4).m_lastGeneration = 1 ∧
    (touchUp Fixture.menuWorld Fixture.withPopup 1 none (some 5) 3 4).log =
      [Event.handleMouseMoveEvent 1 ⟨3, 4⟩, Event.setFromClick true,
        Event.setFromClick false] ∧
    (touchUp Fixture.menuWorld Fixture.fresh 1 none (some 5) 3 4).log =
      [Event.handleMouseMoveEvent 1 ⟨3, 4⟩, Event.setFromClick true,
        Event.requestListBox [some [97], some [98]] [1, 1] [1],
        Event.setFromClick false] := by
  decide

/-- A touch of a current generation on a plain node of frame 1: the move, the
reset of the form-submission protection, and the press and release at the
touched point between setFromClick(true) and setFromClick(false). -/
theorem touchUp_plain_click :
    (touchUp Fixture.world Fixture.fresh 1 (some 1) (some 5) 3 4).log =
      [Event.handleMouseMoveEvent 1 ⟨3, 4⟩,
        Event.resetMultipleFormSubmissionProtection 1,
        Event.setFromClick true,
        Event.setUserInitiatedClick true,
        Event.handleMousePressEvent 1 ⟨3, 4⟩,
        Event.handleMouseReleaseEvent 1 ⟨3, 4⟩,
        Event.setUserInitiatedClick false,
        Event.setFromClick false] := by
  decide

end WebViewCore

/-! ## Regions as sets of points -/

theorem SkIRect.containsPoint_of_isEmpty (q : SkIRect) (x y : Int) (h : q.isEmpty = true) :
    q.containsPoint x y = false := by
  unfold SkIRect.isEmpty at h
  unfold SkIRect.containsPoint
  simp only [Bool.or_eq_true, decide_eq_true_eq] at h
  rcases h with h | h
  · by_cases h1 : q.fLeft ≤ x <;> by_cases h2 : x < q.fRight <;> simp [h1, h2]
    omega
  · by_cases h1 : q.fTop ≤ y <;> by_cases h2 : y < q.fBottom <;> simp [h1, h2]
    omega

theorem SkRegion.containsPoint_opRect (r : SkRegion) (q : SkIRect) (x y : Int) :
    (r.opRect q).containsPoint x y = (r.containsPoint x y || q.containsPoint x y) := by
  unfold SkRegion.opRect
  split
  · rename_i h
    rw [SkIRect.containsPoint_of_isEmpty q x y h, Bool.or_false]
  · simp [SkRegion.containsPoint, List.any_append]

theorem SkRegion.containsPoint_foldl_opRect (rects : List SkIRect) (r : SkRegion) (x y : Int) :
    (rects.foldl SkRegion.opRect r).containsPoint x y =
      (r.containsPoint x y || rects.any fun q => q.containsPoint x y) := by
  induction rects generalizing r with
  | nil => simp
  | cons q rest ih =>
    rw [List.foldl_cons, ih, SkRegion.containsPoint_opRect, List.any_cons, Bool.or_assoc]

theorem SkRegion.containsPoint_opRegion (a b : SkRegion) (x y : Int) :
    (a.opRegion b).containsPoint x y = (a.containsPoint x y || b.containsPoint x y) :=
  SkRegion.containsPoint_foldl_opRect b.rects a x y

theorem addInvalAfter_contains (r : SkRegion) (invals : List IntRect) (x y : Int)
    (h : r.containsPoint x y = true) : (addInvalAfter r invals).containsPoint x y = true := by
  induction invals generalizing r with
  | nil => exact h
  | cons q rest ih =>
    unfold addInvalAfter
    rw [List.foldl_cons]
    apply ih
    split
    · exact h
    · rw [SkRegion.containsPoint_opRect, h, Bool.true_or]

/-! ## The recording cycle -/

namespace WebViewCore

theorem rebuildPicture_quiet (w : World) (cur : Snapshot) (s : WebViewCore) (inval : SkIRect) :
    Quiet s (rebuildPicture w cur s inval).1 :=
  ⟨rfl, rfl, rfl, rfl, rfl, rfl, rfl, rfl⟩

theorem rebuildTile_quiet (w : World) (cur : Snapshot) (acc : WebViewCore × PictureSet)
    (index : Nat) : Quiet acc.1 (rebuildTile w cur acc index).1 := by
  unfold rebuildTile
  split
  · exact Quiet.refl _
  · exact rebuildPicture_quiet w cur acc.1 _

theorem foldl_rebuildTile_quiet (w : World) (cur : Snapshot) (indices : List Nat)
    (acc : WebViewCore × PictureSet) :
    Quiet acc.1 (indices.foldl (rebuildTile w cur) acc).1 := by
  induction indices generalizing acc with
  | nil => exact Quiet.refl _
  | cons i rest ih => exact (rebuildTile_quiet w cur acc i).trans (ih _)

theorem rebuildPictureSet_quiet (w : World) (cur : Snapshot) (s : WebViewCore)
    (pictureSet : PictureSet) : Quiet s (rebuildPictureSet w cur s pictureSet).1 :=
  foldl_rebuildTile_quiet w cur _ (s, pictureSet)

theorem buildAndRebuild_quiet (ops : PictureSetOps) (w : World) (cur : Snapshot)
    (s : WebViewCore) (content : PictureSet) :
    Quiet s (buildAndRebuild ops w cur s content).1 := by
  unfold buildAndRebuild
  dsimp only
  split
  · exact rebuildPictureSet_quiet w cur _ _
  · exact Quiet.refl s

theorem recordPictureSetTiles_quiet (ops : PictureSetOps) (w : World) (cur : Snapshot)
    (s : WebViewCore) (content : PictureSet) (width height : Int) :
    Quiet s (recordPictureSetTiles ops w cur s content width height).1 := by
  unfold recordPictureSetTiles
  dsimp only
  have h0 : Quiet s { s with m_addInval := (content.checkDimensions width height s.m_addInval).2 } :=
    ⟨rfl, rfl, rfl, rfl, rfl, rfl, rfl, rfl⟩
  split
  · exact (h0.trans (rebuildPicture_quiet w cur _ _)).trans (buildAndRebuild_quiet ops w cur _ _)
  · exact h0.trans (buildAndRebuild_quiet ops w cur _ _)

theorem recordPictureSetFocus_quiet (w : World) (cur : Snapshot) (s : WebViewCore) :
    Quiet s (recordPictureSetFocus w cur s) := by
  unfold recordPictureSetFocus
  dsimp only
  simp only [Bool.false_and, Bool.false_eq_true, if_false]
  have h := updateFrameCache_quiet w
    { s with
      m_frameCacheOutOfDate := true
      m_lastFocused := w.currentFocus
      m_lastFocusedBounds :=
        match w.currentFocus with
        | some node => w.getRect node
        | none => ⟨0, 0, 0, 0⟩
      m_domtree_version := if s.m_check_domtree_version then sumDomTreeVersion cur.frame else 0 }
  exact ⟨h.1, h.2, h.3, h.4, h.5, h.6, h.7, h.8⟩

theorem layoutPass_result (s : WebViewCore) (frame : Frame) :
    (s.layoutPass frame).2 = (layoutIfNeededRecursive frame).1 := rfl

theorem recordContent_eq (ops : PictureSetOps) (w : World) (s : WebViewCore) (region : SkRegion)
    (point : IntPoint) :
    recordContent ops w s region point =
      if (!(recordingAttempt ops w s).1.m_progressDone && (recordingAttempt ops w s).2.isEmpty)
          = true then
        ((recordingAttempt ops w s).1, false, region, point)
      else
        ({ (recordingAttempt ops w s).1 with
            m_addInval := SkRegion.empty
            m_rebuildInval := SkRegion.empty
            m_content :=
              ops.setDrawTimes (recordingAttempt ops w s).2 (recordingAttempt ops w s).1.m_content },
          true,
          (recordingAttempt ops w s).1.m_addInval.opRegion
            (recordingAttempt ops w s).1.m_rebuildInval,
          ⟨(ops.setDrawTimes (recordingAttempt ops w s).2
              (recordingAttempt ops w s).1.m_content).width,
            (ops.setDrawTimes (recordingAttempt ops w s).2
              (recordingAttempt ops w s).1.m_content).height⟩) :=
  rfl

theorem recordPictureSet_eq (ops : PictureSetOps) (w : World) (s : WebViewCore)
    (content : PictureSet) :
    recordPictureSet ops w s content =
      if (!w.hasDocument) = true then (s, content)
      else if s.m_addInval.isEmpty = true then (s, content)
      else if (!(layoutIfNeededRecursive w.first.frame).1) = true then
        (s.afterFirstPass w, content)
      else if (!w.contentRect.contains (totalRect w.contentRect w.first.frame)) = true then
        if (!(layoutIfNeededRecursive w.resized.frame).1) = true then
          (s.afterResize w (totalRect w.contentRect w.first.frame), content)
        else
          (recordPictureSetFocus w w.resized
            (recordPictureSetTiles ops w w.resized
              (s.afterResize w (totalRect w.contentRect w.first.frame)) content
              w.resized.contentsWidth w.resized.contentsHeight).1,
            (recordPictureSetTiles ops w w.resized
              (s.afterResize w (totalRect w.contentRect w.first.frame)) content
              w.resized.contentsWidth w.resized.contentsHeight).2)
      else
        (recordPictureSetFocus w w.first
          (recordPictureSetTiles ops w w.first (s.afterFirstPass w) content
            w.first.contentsWidth w.first.contentsHeight).1,
          (recordPictureSetTiles ops w w.first (s.afterFirstPass w) content
            w.first.contentsWidth w.first.contentsHeight).2) :=
  rfl

theorem foldl_contentInvalidate_addInval (invals : List IntRect) (s : WebViewCore) :
    (invals.foldl contentInvalidate s).m_addInval = addInvalAfter s.m_addInval invals := by
  induction invals generalizing s with
  | nil => rfl
  | cons r rest ih =>
    rw [List.foldl_cons, ih]
    unfold addInvalAfter
    rw [List.foldl_cons]
    congr 1
    unfold contentInvalidate
    split
    · rfl
    · dsimp only
      split <;> rfl

theorem addInvalAfter_append (r : SkRegion) (a b : List IntRect) :
    addInvalAfter (addInvalAfter r a) b = addInvalAfter r (a ++ b) := by
  unfold addInvalAfter
  rw [List.foldl_append]

theorem afterFirstPass_quiet (w : World) (s : WebViewCore) : Quiet s (s.afterFirstPass w) := by
  have h := layoutPass_quiet { s with m_skipContentDraw := true } w.first.frame
  exact ⟨h.1, h.2, h.3, h.4, h.5, h.6, h.7, h.8⟩

theorem afterFirstPass_addInval (w : World) (s : WebViewCore) :
    (s.afterFirstPass w).m_addInval =
      addInvalAfter s.m_addInval (layoutIfNeededRecursive w.first.frame).2 :=
  foldl_contentInvalidate_addInval _ { s with m_skipContentDraw := true }

theorem afterResize_quiet (w : World) (s : WebViewCore) (total : SkIRect) :
    Quiet s (s.afterResize w total) := by
  have h1 := afterFirstPass_quiet w s
  have h2 := emit_quiet (s.afterFirstPass w) (.viewResize total.width total.height) rfl
  have h3 := emit_quiet ((s.afterFirstPass w).emit (.viewResize total.width total.height))
    .setNeedsLayoutAndPrefWidthsRecalc rfl
  have h4 := foldl_contentInvalidate_quiet w.forceLayoutInvals
    (((s.afterFirstPass w).emit (.viewResize total.width total.height)).emit
      .setNeedsLayoutAndPrefWidthsRecalc)
  have h5 := emit_quiet (w.forceLayoutInvals.foldl contentInvalidate
    (((s.afterFirstPass w).emit (.viewResize total.width total.height)).emit
      .setNeedsLayoutAndPrefWidthsRecalc)) .forceLayout rfl
  have h6 := layoutPass_quiet { ((w.forceLayoutInvals.foldl contentInvalidate
    (((s.afterFirstPass w).emit (.viewResize total.width total.height)).emit
      .setNeedsLayoutAndPrefWidthsRecalc)).emit .forceLayout) with m_skipContentDraw := true }
    w.resized.frame
  have h := (((h1.trans h2).trans h3).trans h4).trans h5
  exact ⟨h6.1.trans h.1, h6.2.trans h.2, h6.3.trans h.3, h6.4.trans h.4, h6.5.trans h.5,
    h6.6.trans h.6, h6.7.trans h.7, h6.8.trans h.8⟩

theorem afterResize_addInval (w : World) (s : WebViewCore) (total : SkIRect) :
    (s.afterResize w total).m_addInval =
      addInvalAfter s.m_addInval
        ((layoutIfNeededRecursive w.first.frame).2 ++ w.forceLayoutInvals ++
          (layoutIfNeededRecursive w.resized.frame).2) := by
  unfold afterResize layoutPass
  simp only [foldl_contentInvalidate_addInval, emit]
  rw [← addInvalAfter_append, ← addInvalAfter_append, ← afterFirstPass_addInval]

theorem recordPictureSet_quiet (ops : PictureSetOps) (w : World) (s : WebViewCore)
    (content : PictureSet) : Quiet s (recordPictureSet ops w s content).1 := by
  rw [recordPictureSet_eq]
  split
  · exact Quiet.refl s
  · split
    · exact Quiet.refl s
    · split
      · exact afterFirstPass_quiet w s
      · split
        · split
          · exact afterResize_quiet w s _
          · exact ((afterResize_quiet w s _).trans
              (recordPictureSetTiles_quiet ops w _ _ _ _ _)).trans
              (recordPictureSetFocus_quiet w _ _)
        · exact ((afterFirstPass_quiet w s).trans
            (recordPictureSetTiles_quiet ops w _ _ _ _ _)).trans
            (recordPictureSetFocus_quiet w _ _)

theorem recordPictureSet_noDocument (ops : PictureSetOps) (w : World) (s : WebViewCore)
    (content : PictureSet) (h : w.hasDocument = false) :
    recordPictureSet ops w s content = (s, content) := by
  rw [recordPictureSet_eq, h]
  rfl

theorem recordPictureSet_nothingPending (ops : PictureSetOps) (w : World) (s : WebViewCore)
    (content : PictureSet) (h : s.m_addInval.isEmpty = true) :
    recordPictureSet ops w s content = (s, content) := by
  rw [recordPictureSet_eq]
  split
  · rfl
  · simp only [h, if_true]

theorem recordPictureSet_layoutFails (ops : PictureSetOps) (w : World) (s : WebViewCore)
    (content : PictureSet) (hdoc : w.hasDocument = true) (hpending : s.m_addInval.isEmpty = false)
    (hfail : LayoutFails w) :
    (recordPictureSet ops w s content).2 = content ∧
    (∃ invals, (recordPictureSet ops w s content).1.m_addInval =
      addInvalAfter s.m_addInval invals) ∧
    ((layoutIfNeededRecursive w.first.frame).1 = false →
      (recordPictureSet ops w s content).1.m_addInval =
        addInvalAfter s.m_addInval (layoutIfNeededRecursive w.first.frame).2) := by
  rw [recordPictureSet_eq]
  simp only [hdoc, hpending, Bool.not_true, Bool.false_eq_true, if_false]
  rcases hfail with h1 | ⟨h1, h2, h3⟩
  · simp only [h1, Bool.not_false, if_true]
    exact ⟨trivial, ⟨_, afterFirstPass_addInval w s⟩, fun _ => afterFirstPass_addInval w s⟩
  · simp only [h1, h2, h3, Bool.not_true, Bool.not_false, Bool.false_eq_true, if_false, if_true]
    exact ⟨trivial, ⟨_, afterResize_addInval w s _⟩, fun h => by simp at h⟩

theorem recordingAttempt_quiet (ops : PictureSetOps) (w : World) (s : WebViewCore) :
    (recordingAttempt ops w s).1.m_progressDone = w.progressDone ∧
    (recordingAttempt ops w s).1.m_content = s.m_content := by
  have h := recordPictureSet_quiet ops w { s with m_progressDone := w.progressDone } s.m_content
  exact ⟨h.progressDone, h.content⟩

theorem recordContent_false_iff (ops : PictureSetOps) (w : World) (s : WebViewCore)
    (region : SkRegion) (point : IntPoint) :
    (recordContent ops w s region point).2.1 = false ↔
      (w.progressDone = false ∧ (recordingAttempt ops w s).2.isEmpty = true) := by
  rw [recordContent_eq, (recordingAttempt_quiet ops w s).1]
  cases w.progressDone <;> cases (recordingAttempt ops w s).2.isEmpty <;> simp

theorem recordContent_of_false (ops : PictureSetOps) (w : World) (s : WebViewCore)
    (region : SkRegion) (point : IntPoint)
    (h : (recordContent ops w s region point).2.1 = false) :
    recordContent ops w s region point = ((recordingAttempt ops w s).1, false, region, point) := by
  have h' := (recordContent_false_iff ops w s region point).1 h
  rw [recordContent_eq, (recordingAttempt_quiet ops w s).1, h'.1, h'.2]
  rfl

theorem recordContent_of_true (ops : PictureSetOps) (w : World) (s : WebViewCore)
    (region : SkRegion) (point : IntPoint)
    (h : (recordContent ops w s region point).2.1 = true) :
    recordContent ops w s region point =
      ({ (recordingAttempt ops w s).1 with
          m_addInval := SkRegion.empty
          m_rebuildInval := SkRegion.empty
          m_content := ops.setDrawTimes (recordingAttempt ops w s).2 s.m_content },
        true,
        (recordingAttempt ops w s).1.m_addInval.opRegion
          (recordingAttempt ops w s).1.m_rebuildInval,
        ⟨(ops.setDrawTimes (recordingAttempt ops w s).2 s.m_content).width,
          (ops.setDrawTimes (recordingAttempt ops w s).2 s.m_content).height⟩) := by
  rw [recordContent_eq] at h ⊢
  rw [(recordingAttempt_quiet ops w s).2] at h ⊢
  split
  · rename_i hc
    rw [if_pos hc] at h
    simp at h
  · rfl

/-! ## recordContent and pictureReady (C5 to C10) -/

/-- C5, as the code has it: when layout cannot settle during recordPictureSet,
the working copy of the picture set is untouched and m_addInval holds every
point it held (its old value united with what the layout passes invalidated).
recordContent keeps that m_addInval only when it returns false, that is when
load progress is strictly between 0 and 1 and the picture set is empty;
otherwise it returns true, empties m_addInval and hands its points to the
caller in the reported region. -/
theorem recordContent_layout_fails (ops : PictureSetOps) (w : World) (s : WebViewCore)
    (region : SkRegion) (point : IntPoint) (hdoc : w.hasDocument = true)
    (hpending : s.m_addInval.isEmpty = false) (hfail : LayoutFails w) :
    (recordingAttempt ops w s).2 = s.m_content ∧
    (∀ x y, s.m_addInval.containsPoint x y = true →
      (recordingAttempt ops w s).1.m_addInval.containsPoint x y = true) ∧
    ((layoutIfNeededRecursive w.first.frame).1 = false →
      (recordingAttempt ops w s).1.m_addInval =
        addInvalAfter s.m_addInval (layoutIfNeededRecursive w.first.frame).2) ∧
    ((recordContent ops w s region point).2.1 = false ↔
      (w.progressDone = false ∧ s.m_content.isEmpty = true)) ∧
    ((recordContent ops w s region point).2.1 = false →
      (recordContent ops w s region point).1.m_addInval =
        (recordingAttempt ops w s).1.m_addInval) ∧
    ((recordContent ops w s region point).2.1 = true →
      (recordContent ops w s region point).1.m_addInval = SkRegion.empty ∧
      ∀ x y, s.m_addInval.containsPoint x y = true →
        (recordContent ops w s region point).2.2.1.containsPoint x y = true) := by
  obtain ⟨hcopy, ⟨invals, hinv⟩, hfirst⟩ :=
    recordPictureSet_layoutFails ops w { s with m_progressDone := w.progressDone } s.m_content
      hdoc hpending hfail
  have hkeep : ∀ x y, s.m_addInval.containsPoint x y = true →
      (recordingAttempt ops w s).1.m_addInval.containsPoint x y = true := by
    intro x y hxy
    unfold recordingAttempt
    rw [hinv]
    exact addInvalAfter_contains _ invals x y hxy
  refine ⟨hcopy, hkeep, hfirst, ?_, ?_, ?_⟩
  · rw [recordContent_false_iff]
    unfold recordingAttempt
    rw [hcopy]
  · intro h
    rw [recordContent_of_false ops w s region point h]
  · intro h
    rw [recordContent_of_true ops w s region point h]
    refine ⟨rfl, fun x y hxy => ?_⟩
    simp only [SkRegion.containsPoint_opRegion, hkeep x y hxy, Bool.true_or]

/-- C5 witness: the page is half loaded, nothing is recorded yet and the main
view does not settle. -/
theorem recordContent_layout_fails_witness :
    Fixture.unsettledWorld.hasDocument = true ∧ Fixture.pending.m_addInval.isEmpty = false ∧
    LayoutFails Fixture.unsettledWorld ∧
    (recordingAttempt Fixture.ops Fixture.unsettledWorld Fixture.pending).2 =
      Fixture.pending.m_content ∧
    ((layoutIfNeededRecursive Fixture.unsettledWorld.first.frame).1 = false →
      (recordingAttempt Fixture.ops Fixture.unsettledWorld Fixture.pending).1.m_addInval =
        addInvalAfter Fixture.pending.m_addInval
          (layoutIfNeededRecursive Fixture.unsettledWorld.first.frame).2) :=
  ⟨rfl, by decide, Or.inl (by decide),
    (recordContent_layout_fails Fixture.ops Fixture.unsettledWorld Fixture.pending SkRegion.empty
      ⟨0, 0⟩ rfl (by decide) (Or.inl (by decide))).1,
    (recordContent_layout_fails Fixture.ops Fixture.unsettledWorld Fixture.pending SkRegion.empty
      ⟨0, 0⟩ rfl (by decide) (Or.inl (by decide))).2.2.1⟩

/-- C5 refuted as stated: the main view does not settle, the picture set holds
a tile, and recordContent returns true with m_addInval emptied. -/
theorem recordContent_drains_after_failed_layout :
    Fixture.unsettledWorld.hasDocument = true ∧ Fixture.tiled.m_addInval.isEmpty = false ∧
    (layoutIfNeededRecursive Fixture.unsettledWorld.first.frame).1 = false ∧
    (recordContent Fixture.ops Fixture.unsettledWorld Fixture.tiled SkRegion.empty ⟨0, 0⟩).2.1
      = true ∧
    (recordContent Fixture.ops Fixture.unsettledWorld Fixture.tiled SkRegion.empty
      ⟨0, 0⟩).1.m_addInval ≠ Fixture.tiled.m_addInval := by
  decide

/-- C6, as the code has it: when m_addInval is empty on entry, or layout
cannot settle, recordPictureSet records nothing (the working copy stays equal
to m_content, and with m_addInval empty the object is untouched).
recordContent then returns false exactly when load progress is strictly
between 0 and 1 and m_content is empty, and that return writes nothing but
m_progressDone; in the other cases it returns true and publishes. -/
theorem recordContent_nothing_recorded (ops : PictureSetOps) (w : World) (s : WebViewCore)
    (region : SkRegion) (point : IntPoint)
    (h : s.m_addInval.isEmpty = true ∨ (w.hasDocument = true ∧ LayoutFails w)) :
    (recordingAttempt ops w s).2 = s.m_content ∧
    (s.m_addInval.isEmpty = true →
      (recordingAttempt ops w s).1 = { s with m_progressDone := w.progressDone }) ∧
    ((recordContent ops w s region point).2.1 = false ↔
      (w.progressDone = false ∧ s.m_content.isEmpty = true)) ∧
    ((recordContent ops w s region point).2.1 = false →
      (recordContent ops w s region point).1 = (recordingAttempt ops w s).1 ∧
      (recordContent ops w s region point).1.m_content = s.m_content ∧
      (recordContent ops w s region point).2.2 = (region, point)) := by
  have hcopy : (recordingAttempt ops w s).2 = s.m_content := by
    unfold recordingAttempt
    cases hp : s.m_addInval.isEmpty with
    | true => rw [recordPictureSet_nothingPending ops w { s with m_progressDone := w.progressDone }
        s.m_content hp]
    | false =>
      rcases h with h | ⟨hdoc, hfail⟩
      · rw [hp] at h
        cases h
      · exact (recordPictureSet_layoutFails ops w { s with m_progressDone := w.progressDone }
          s.m_content hdoc hp hfail).1
  refine ⟨hcopy, ?_, ?_, ?_⟩
  · intro hp
    unfold recordingAttempt
    rw [recordPictureSet_nothingPending ops w { s with m_progressDone := w.progressDone }
        s.m_content hp]
  · rw [recordContent_false_iff, hcopy]
  · intro hf
    rw [recordContent_of_false ops w s region point hf]
    exact ⟨rfl, (recordingAttempt_quiet ops w s).2, rfl⟩

/-- C6 witness: nothing is pending on the fresh object and the page is half
loaded. -/
theorem recordContent_nothing_recorded_witness :
    Fixture.fresh.m_addInval.isEmpty = true ∧
    (recordingAttempt Fixture.ops Fixture.world Fixture.fresh).2 = Fixture.fresh.m_content ∧
    ((recordContent Fixture.ops Fixture.world Fixture.fresh SkRegion.empty ⟨5, 5⟩).2.1 = false ↔
      (Fixture.world.progressDone = false ∧ Fixture.fresh.m_content.isEmpty = true)) :=
  ⟨by decide,
    (recordContent_nothing_recorded Fixture.ops Fixture.world Fixture.fresh SkRegion.empty ⟨5, 5⟩
      (Or.inl (by decide))).1,
    (recordContent_nothing_recorded Fixture.ops Fixture.world Fixture.fresh SkRegion.empty ⟨5, 5⟩
      (Or.inl (by decide))).2.2.1⟩

/-- C6 refuted as stated: with nothing pending and the load over, recordContent
returns true, stores m_progressDone and overwrites the point; with layout
failing over a picture set that holds a tile it returns true as well. -/
theorem recordContent_idle_returns_true :
    Fixture.fresh.m_addInval.isEmpty = true ∧
    (recordContent Fixture.ops Fixture.doneWorld Fixture.fresh SkRegion.empty ⟨5, 5⟩).2.1
      = true ∧
    (recordContent Fixture.ops Fixture.doneWorld Fixture.fresh SkRegion.empty ⟨5, 5⟩).2.2.2
      ≠ ⟨5, 5⟩ ∧
    (recordContent Fixture.ops Fixture.doneWorld Fixture.fresh SkRegion.empty ⟨5, 5⟩).1
      ≠ Fixture.fresh ∧
    (layoutIfNeededRecursive Fixture.unsettledWorld.first.frame).1 = false ∧
    (recordContent Fixture.ops Fixture.unsettledWorld Fixture.tiled SkRegion.empty ⟨5, 5⟩).2.1
      = true := by
  decide

/-- C7, as the code has it: without a document recordPictureSet returns at
once and changes neither the picture set nor the object. recordContent then
returns false, publishing nothing, exactly when load progress is strictly
between 0 and 1 and m_content is empty; otherwise it returns true and
publishes the accumulated region, the unchanged tiles and their size. -/
theorem recordContent_no_document (ops : PictureSetOps) (w : World) (s : WebViewCore)
    (region : SkRegion) (point : IntPoint) (hnodoc : w.hasDocument = false) :
    (∀ t content, recordPictureSet ops w t content = (t, content)) ∧
    ((recordContent ops w s region point).2.1 = false ↔
      (w.progressDone = false ∧ s.m_content.isEmpty = true)) ∧
    ((recordContent ops w s region point).2.1 = false →
      recordContent ops w s region point =
        ({ s with m_progressDone := w.progressDone }, false, region, point)) ∧
    ((recordContent ops w s region point).2.1 = true →
      (recordContent ops w s region point).2.2.1 = s.m_addInval.opRegion s.m_rebuildInval ∧
      (recordContent ops w s region point).1.m_content =
        ops.setDrawTimes s.m_content s.m_content ∧
      (recordContent ops w s region point).2.2.2 =
        ⟨(ops.setDrawTimes s.m_content s.m_content).width,
          (ops.setDrawTimes s.m_content s.m_content).height⟩) := by
  have hatt : recordingAttempt ops w s =
      ({ s with m_progressDone := w.progressDone }, s.m_content) :=
    recordPictureSet_noDocument ops w _ _ hnodoc
  refine ⟨fun t content => recordPictureSet_noDocument ops w t content hnodoc, ?_, ?_, ?_⟩
  · rw [recordContent_false_iff, hatt]
  · intro hf
    rw [recordContent_of_false ops w s region point hf, hatt]
  · intro ht
    rw [recordContent_of_true ops w s region point ht, hatt]
    exact ⟨rfl, rfl, rfl⟩

/-- C7 witness: no document yet, nothing recorded, the load half way. -/
theorem recordContent_no_document_witness :
    Fixture.noDocumentWorld.hasDocument = false ∧
    ((recordContent Fixture.ops Fixture.noDocumentWorld Fixture.pending SkRegion.empty
        ⟨5, 5⟩).2.1 = false ↔
      (Fixture.noDocumentWorld.progressDone = false ∧
        Fixture.pending.m_content.isEmpty = true)) :=
  ⟨rfl,
    (recordContent_no_document Fixture.ops Fixture.noDocumentWorld Fixture.pending SkRegion.empty
      ⟨5, 5⟩ rfl).2.1⟩

/-- C7 refuted as stated: the main frame has no document, the picture set
holds a tile, and recordContent returns true, writes the region and the
point and empties m_addInval. -/
theorem recordContent_true_without_document :
    Fixture.noDocumentWorld.hasDocument = false ∧
    (recordContent Fixture.ops Fixture.noDocumentWorld Fixture.tiled SkRegion.empty
      ⟨5, 5⟩).2.1 = true ∧
    (recordContent Fixture.ops Fixture.noDocumentWorld Fixture.tiled SkRegion.empty
      ⟨5, 5⟩).2.2.1 = ⟨[⟨0, 0, 10, 10⟩]⟩ ∧
    (recordContent Fixture.ops Fixture.noDocumentWorld Fixture.tiled SkRegion.empty
      ⟨5, 5⟩).2.2.2 = ⟨800, 600⟩ ∧
    (recordContent Fixture.ops Fixture.noDocumentWorld Fixture.tiled SkRegion.empty
      ⟨5, 5⟩).1.m_addInval = SkRegion.empty := by
  decide

/-- C8: whenever recordContent returns true, the region it reports is the
union of m_addInval and m_rebuildInval as the recording step left them (the
same rectangles, hence the same points), both accumulators are empty
afterwards, m_content is the working copy as it stands at publication (the
recorded copy after its setDrawTimes(m_content) call), and the point is the
width and height of m_content. -/
theorem recordContent_publishes (ops : PictureSetOps) (w : World) (s : WebViewCore)
    (region : SkRegion) (point : IntPoint)
    (h : (recordContent ops w s region point).2.1 = true) :
    (recordContent ops w s region point).2.2.1 =
      (recordingAttempt ops w s).1.m_addInval.opRegion
        (recordingAttempt ops w s).1.m_rebuildInval ∧
    (∀ x y, (recordContent ops w s region point).2.2.1.containsPoint x y =
      ((recordingAttempt ops w s).1.m_addInval.containsPoint x y ||
        (recordingAttempt ops w s).1.m_rebuildInval.containsPoint x y)) ∧
    (recordContent ops w s region point).1.m_addInval = SkRegion.empty ∧
    (recordContent ops w s region point).1.m_rebuildInval = SkRegion.empty ∧
    (recordContent ops w s region point).1.m_addInval.isEmpty = true ∧
    (recordContent ops w s region point).1.m_rebuildInval.isEmpty = true ∧
    (recordContent ops w s region point).1.m_content =
      ops.setDrawTimes (recordingAttempt ops w s).2 s.m_content ∧
    (recordContent ops w s region point).2.2.2 =
      ⟨(recordContent ops w s region point).1.m_content.width,
        (recordContent ops w s region point).1.m_content.height⟩ := by
  rw [recordContent_of_true ops w s region point h]
  exact ⟨rfl, fun x y => SkRegion.containsPoint_opRegion _ _ x y, rfl, rfl, rfl, rfl, rfl, rfl⟩

/-- C8 witness: content of 800 x 600 with the rectangle (0,0,100,100)
invalidated. -/
theorem recordContent_publishes_witness :
    (recordContent Fixture.ops Fixture.world Fixture.pending SkRegion.empty ⟨0, 0⟩).2.1 = true ∧
    (recordContent Fixture.ops Fixture.world Fixture.pending SkRegion.empty
      ⟨0, 0⟩).1.m_addInval = SkRegion.empty ∧
    (recordContent Fixture.ops Fixture.world Fixture.pending SkRegion.empty ⟨0, 0⟩).2.2.2 =
      ⟨(recordContent Fixture.ops Fixture.world Fixture.pending SkRegion.empty
          ⟨0, 0⟩).1.m_content.width,
        (recordContent Fixture.ops Fixture.world Fixture.pending SkRegion.empty
          ⟨0, 0⟩).1.m_content.height⟩ :=
  ⟨by decide,
    (recordContent_publishes Fixture.ops Fixture.world Fixture.pending SkRegion.empty ⟨0, 0⟩
      (by decide)).2.2.1,
    (recordContent_publishes Fixture.ops Fixture.world Fixture.pending SkRegion.empty ⟨0, 0⟩
      (by decide)).2.2.2.2.2.2.2⟩

/-- C9: recordContent stores (progress <= 0 or progress >= 1) into
m_progressDone; it returns false exactly when, after the call of
recordPictureSet, m_progressDone is false and the working copy is empty; and
a false return leaves the object as recordPictureSet left it (m_content as on
entry, the accumulators not drained) and the region and point unwritten. -/
theorem recordContent_progress_gate (ops : PictureSetOps) (w : World) (s : WebViewCore)
    (region : SkRegion) (point : IntPoint) :
    (recordContent ops w s region point).1.m_progressDone =
      (decide (w.progress ≤ 0) || decide (w.progress ≥ 1)) ∧
    ((recordContent ops w s region point).2.1 = false ↔
      ((recordingAttempt ops w s).1.m_progressDone = false ∧
        (recordingAttempt ops w s).2.isEmpty = true)) ∧
    ((recordContent ops w s region point).2.1 = false →
      (recordContent ops w s region point).1 = (recordingAttempt ops w s).1 ∧
      (recordContent ops w s region point).1.m_content = s.m_content ∧
      (recordContent ops w s region point).1.m_addInval =
        (recordingAttempt ops w s).1.m_addInval ∧
      (recordContent ops w s region point).1.m_rebuildInval =
        (recordingAttempt ops w s).1.m_rebuildInval ∧
      (recordContent ops w s region point).2.2.1 = region ∧
      (recordContent ops w s region point).2.2.2 = point) := by
  obtain ⟨hdone, hcontent⟩ := recordingAttempt_quiet ops w s
  refine ⟨?_, ?_, ?_⟩
  · cases hr : (recordContent ops w s region point).2.1 with
    | false =>
      rw [recordContent_of_false ops w s region point hr]
      exact hdone
    | true =>
      rw [recordContent_of_true ops w s region point hr]
      exact hdone
  · rw [recordContent_false_iff, hdone]
  · intro hf
    rw [recordContent_of_false ops w s region point hf]
    exact ⟨rfl, hcontent, rfl, rfl, rfl, rfl⟩

/-- C10, as the code has it: with an empty m_content, pictureReady returns
m_progressDone: false while the load is under way, true once progress was
seen at 0 or at 1. -/
theorem pictureReady_of_empty (s : WebViewCore) (h : s.m_content.isEmpty = true) :
    pictureReady s = s.m_progressDone := by
  simp [pictureReady, h]

/-- C10 witness: the fresh object, nothing recorded and no progress seen. -/
theorem pictureReady_of_empty_witness :
    Fixture.fresh.m_content.isEmpty = true ∧
    pictureReady Fixture.fresh = Fixture.fresh.m_progressDone :=
  ⟨by decide, pictureReady_of_empty Fixture.fresh (by decide)⟩

/-- C10 refuted as stated: after a recordContent cycle on the fresh object
with the load over, m_content is empty and pictureReady returns true. -/
theorem pictureReady_true_when_empty :
    (recordContent Fixture.ops Fixture.doneWorld Fixture.fresh SkRegion.empty
      ⟨0, 0⟩).1.m_content.isEmpty = true ∧
    pictureReady (recordContent Fixture.ops Fixture.doneWorld Fixture.fresh SkRegion.empty
      ⟨0, 0⟩).1 = true ∧
    Fixture.loadedEmpty.m_content.isEmpty = true ∧
    pictureReady Fixture.loadedEmpty = true := by
  decide

end WebViewCore

/-! ## Invalidation (C11 and C12) -/

theorem intersect_quadrant_some (r : IntRect) (hne : (SkIRect.ofIntRect r).isEmpty = false)
    (h1 : r.x < INT_MAX) (h2 : 0 < r.right) (h3 : r.y < INT_MAX) (h4 : 0 < r.bottom) :
    (SkIRect.ofIntRect r).intersect 0 0 INT_MAX INT_MAX = some (clipToQuadrant r) := by
  unfold SkIRect.intersect clipToQuadrant
  have h0 : (0 : Int) < INT_MAX := by decide
  rw [if_pos ⟨h0, h0, hne, h1, h2, h3, h4⟩]
  rfl

theorem intersect_quadrant_none (r : IntRect)
    (h : ¬ ((SkIRect.ofIntRect r).isEmpty = false ∧ r.x < INT_MAX ∧ 0 < r.right ∧
      r.y < INT_MAX ∧ 0 < r.bottom)) :
    (SkIRect.ofIntRect r).intersect 0 0 INT_MAX INT_MAX = none := by
  unfold SkIRect.intersect
  rw [if_neg]
  rintro ⟨-, -, a, b, c, d, e⟩
  exact h ⟨a, b, c, d, e⟩

theorem clipToQuadrant_containsPoint (r : IntRect) (x y : Int) :
    (clipToQuadrant r).containsPoint x y =
      ((SkIRect.ofIntRect r).containsPoint x y && inQuadrant x y) := by
  unfold clipToQuadrant SkIRect.containsPoint SkIRect.ofIntRect inQuadrant
  simp only [Bool.and_assoc]
  rw [Bool.eq_iff_iff]
  simp only [Bool.and_eq_true, decide_eq_true_eq]
  constructor
  · rintro ⟨a, b, c, d⟩
    omega
  · rintro ⟨a, b, c, d, e, f, g, h⟩
    omega

theorem quadrant_part_empty (r : IntRect)
    (h : ¬ ((SkIRect.ofIntRect r).isEmpty = false ∧ r.x < INT_MAX ∧ 0 < r.right ∧
      r.y < INT_MAX ∧ 0 < r.bottom)) (x y : Int) :
    ((SkIRect.ofIntRect r).containsPoint x y && inQuadrant x y) = false := by
  rw [Bool.eq_false_iff]
  intro hc
  apply h
  unfold SkIRect.containsPoint SkIRect.ofIntRect inQuadrant at hc
  unfold SkIRect.isEmpty SkIRect.ofIntRect
  simp only [Bool.and_eq_true, decide_eq_true_eq] at hc
  simp only [Bool.or_eq_false_iff, decide_eq_false_iff_not]
  omega

namespace WebViewCore

theorem contentInvalidate_of_some (s : WebViewCore) (r : IntRect) (rect : SkIRect)
    (h : (SkIRect.ofIntRect r).intersect 0 0 INT_MAX INT_MAX = some rect) :
    (s.contentInvalidate r).m_addInval = s.m_addInval.opRect rect ∧
    (s.contentInvalidate r).log =
      (if s.m_skipContentDraw then s.log else s.log ++ [Event.contentDraw]) := by
  unfold contentInvalidate
  rw [h]
  cases hs : s.m_skipContentDraw <;> simp [hs, contentDraw, emit]

theorem contentInvalidate_of_none (s : WebViewCore) (r : IntRect)
    (h : (SkIRect.ofIntRect r).intersect 0 0 INT_MAX INT_MAX = none) :
    s.contentInvalidate r = s := by
  unfold contentInvalidate
  rw [h]

theorem contentInvalidate_points (s : WebViewCore) (r : IntRect) (x y : Int) :
    (s.contentInvalidate r).m_addInval.containsPoint x y =
      (s.m_addInval.containsPoint x y ||
        ((SkIRect.ofIntRect r).containsPoint x y && inQuadrant x y)) := by
  by_cases hq : (SkIRect.ofIntRect r).isEmpty = false ∧ r.x < INT_MAX ∧ 0 < r.right ∧
      r.y < INT_MAX ∧ 0 < r.bottom
  · obtain ⟨a, b, c, d, e⟩ := hq
    rw [(contentInvalidate_of_some s r _ (intersect_quadrant_some r a b c d e)).1,
      SkRegion.containsPoint_opRect, clipToQuadrant_containsPoint]
  · rw [contentInvalidate_of_none s r (intersect_quadrant_none r hq),
      quadrant_part_empty r hq, Bool.or_false]

/-- C11: idempotent union. For every rectangle and every object,
contentInvalidate called twice with the rectangle leaves m_addInval with the
same points as one call does. -/
theorem contentInvalidate_idempotent (s : WebViewCore) (r : IntRect) :
    SkRegion.SamePoints ((s.contentInvalidate r).contentInvalidate r).m_addInval
      (s.contentInvalidate r).m_addInval := by
  intro x y
  rw [contentInvalidate_points (s.contentInvalidate r) r x y, contentInvalidate_points s r x y,
    Bool.or_assoc, Bool.or_self]

/-- C12: contentInvalidate accumulates exactly the part of the rectangle inside
the quadrant [0, INT_MAX) x [0, INT_MAX), the rectangle being the one the
conversion to SkIRect makes of it: from x to right() and from y to bottom(),
both computed on `int`s. The points of m_addInval afterwards are the old ones
and those of the rectangle in the quadrant. When the rectangle has no point in
the quadrant the object stays as it was (m_addInval unchanged, contentDraw not
called); otherwise m_addInval is united with the clipped rectangle and
contentDraw is called exactly when m_skipContentDraw is false. When x + width
and y + height fit an `int`, the converted rectangle has the points of the
rectangle itself and the clipped rectangle runs from max(x, 0) to
min(x + width, INT_MAX) and from max(y, 0) to min(y + height, INT_MAX). -/
theorem contentInvalidate_accumulates_clipped (s : WebViewCore) (r : IntRect) :
    (∀ x y, (s.contentInvalidate r).m_addInval.containsPoint x y =
      (s.m_addInval.containsPoint x y ||
        ((SkIRect.ofIntRect r).containsPoint x y && inQuadrant x y))) ∧
    ((∀ x y, ((SkIRect.ofIntRect r).containsPoint x y && inQuadrant x y) = false) →
      s.contentInvalidate r = s) ∧
    ((∃ x y, ((SkIRect.ofIntRect r).containsPoint x y && inQuadrant x y) = true) →
      (s.contentInvalidate r).m_addInval = s.m_addInval.opRect (clipToQuadrant r) ∧
      (s.contentInvalidate r).log =
        (if s.m_skipContentDraw then s.log else s.log ++ [Event.contentDraw])) ∧
    (fitsInt (r.x + r.width) → fitsInt (r.y + r.height) →
      (∀ x y, (SkIRect.ofIntRect r).containsPoint x y = r.hasPoint x y) ∧
      clipToQuadrant r =
        ⟨max r.x 0, max r.y 0, min (r.x + r.width) INT_MAX, min (r.y + r.height) INT_MAX⟩) := by
  refine ⟨contentInvalidate_points s r, ?_, ?_, ?_⟩
  · intro hnone
    have hmiss : (SkIRect.ofIntRect r).intersect 0 0 INT_MAX INT_MAX = none := by
      apply intersect_quadrant_none
      rintro ⟨a, b, c, d, e⟩
      have hp := hnone (max r.x 0) (max r.y 0)
      rw [← clipToQuadrant_containsPoint] at hp
      have : (clipToQuadrant r).containsPoint (max r.x 0) (max r.y 0) = true := by
        unfold SkIRect.isEmpty SkIRect.ofIntRect at a
        simp only [Bool.or_eq_false_iff, decide_eq_false_iff_not] at a
        have h0 : (0 : Int) < INT_MAX := by decide
        unfold clipToQuadrant SkIRect.containsPoint
        simp only [Bool.and_eq_true, decide_eq_true_eq]
        omega
      rw [this] at hp
      cases hp
    unfold contentInvalidate
    rw [hmiss]
  · rintro ⟨x, y, hxy⟩
    by_cases hq : (SkIRect.ofIntRect r).isEmpty = false ∧ r.x < INT_MAX ∧ 0 < r.right ∧
        r.y < INT_MAX ∧ 0 < r.bottom
    · obtain ⟨a, b, c, d, e⟩ := hq
      exact contentInvalidate_of_some s r _ (intersect_quadrant_some r a b c d e)
    · rw [quadrant_part_empty r hq x y] at hxy
      cases hxy
  · intro hr hb
    have e1 : r.right = r.x + r.width := wrapInt_of_fits _ hr
    have e2 : r.bottom = r.y + r.height := wrapInt_of_fits _ hb
    constructor
    · intro x y
      unfold SkIRect.containsPoint SkIRect.ofIntRect IntRect.hasPoint
      simp only [e1, e2]
    · unfold clipToQuadrant
      rw [e1, e2]

/-- C12, counterexample: the rectangle (2147483000, 0, 1000, 10) has the point
(2147483000, 0) inside the quadrant, but x + width is beyond INT_MAX: right()
wraps below x, the converted rectangle is empty and the call on a fresh object
(which does not skip contentDraw) unites nothing and calls no contentDraw. -/
theorem contentInvalidate_drops_wrapped_rect :
    (IntRect.hasPoint ⟨2147483000, 0, 1000, 10⟩ 2147483000 0 &&
      inQuadrant 2147483000 0) = true ∧
    SkIRect.ofIntRect ⟨2147483000, 0, 1000, 10⟩ = ⟨2147483000, 0, -2147483296, 10⟩ ∧
    (Fixture.fresh.contentInvalidate ⟨2147483000, 0, 1000, 10⟩).m_addInval =
      Fixture.fresh.m_addInval ∧
    (Fixture.fresh.contentInvalidate ⟨2147483000, 0, 1000, 10⟩).log = Fixture.fresh.log := by
  decide

/-- A rectangle that fits: (-5, -5, 20, 20) on a fresh object is cut to
(0, 0, 15, 15) and contentDraw is called. -/
theorem contentInvalidate_example :
    (Fixture.fresh.contentInvalidate ⟨-5, -5, 20, 20⟩).m_addInval =
      Fixture.fresh.m_addInval.opRect ⟨0, 0, 15, 15⟩ ∧
    (Fixture.fresh.contentInvalidate ⟨-5, -5, 20, 20⟩).log = [Event.contentDraw] := by
  decide

end WebViewCore

/-! ## Rebuilding tiles (C16 and C17) -/

theorem modify_append_cons {α : Type} (f : α → α) (A : List α) (t : α) (B : List α) :
    (A ++ t :: B).modify f A.length = A ++ f t :: B := by
  induction A with
  | nil => simp
  | cons a A ih => simpa using ih

theorem getElem?_append_cons {α : Type} (A : List α) (t : α) (B : List α) :
    (A ++ t :: B)[A.length]? = some t := by
  rw [List.getElem?_append_right (Nat.le_refl _), Nat.sub_self]
  simp

namespace WebViewCore

theorem rebuildPicture_eq (w : World) (cur : Snapshot) (s : WebViewCore) (inval : SkIRect) :
    rebuildPicture w cur s inval =
      ({ s with
          m_rebuildInval := s.m_rebuildInval.opRect inval
          m_buttons := updateButtonList s.m_buttons
            (w.drawButtons ⟨inval.fLeft, inval.fTop, inval.width, inval.height⟩ s.m_buttons) },
        pictureFor w cur inval) :=
  rfl

theorem rebuild_loop (w : World) (cur : Snapshot) (B : List Tile) :
    ∀ (A : List Tile) (s : WebViewCore) (width height : Int),
      ((List.range' A.length B.length).foldl (rebuildTile w cur)
          (s, ⟨A ++ B, width, height⟩)).2 = ⟨A ++ B.map (rebuiltTile w cur), width, height⟩ ∧
      ((List.range' A.length B.length).foldl (rebuildTile w cur)
          (s, ⟨A ++ B, width, height⟩)).1.m_rebuildInval =
        ((B.filter fun t => !t.valid).map Tile.area).foldl SkRegion.opRect s.m_rebuildInval ∧
      ((List.range' A.length B.length).foldl (rebuildTile w cur)
          (s, ⟨A ++ B, width, height⟩)).1.m_addInval = s.m_addInval := by
  induction B with
  | nil => intro A s width height; simp
  | cons t B ih =>
    intro A s width height
    rw [List.length_cons, List.range'_succ, List.foldl_cons]
    have hstep : rebuildTile w cur (s, ⟨A ++ t :: B, width, height⟩) A.length =
        if t.valid then (s, ⟨A ++ t :: B, width, height⟩)
        else ((rebuildPicture w cur s t.area).1,
          ⟨A ++ rebuiltTile w cur t :: B, width, height⟩) := by
      unfold rebuildTile PictureSet.upToDate PictureSet.bounds PictureSet.setPicture
      simp only [getElem?_append_cons, modify_append_cons]
      cases hv : t.valid <;> simp [rebuiltTile, hv, rebuildPicture_eq]
    rw [hstep]
    have hA : ∀ u : Tile, A ++ u :: B = (A ++ [u]) ++ B := by intro u; simp
    have hlen : ∀ u : Tile, A.length + 1 = (A ++ [u]).length := by intro u; simp
    cases hv : t.valid with
    | true =>
      simp only [if_true]
      rw [hA t, hlen t]
      obtain ⟨h1, h2, h3⟩ := ih (A ++ [t]) s width height
      refine ⟨?_, ?_, h3⟩
      · rw [h1]; simp [rebuiltTile, hv]
      · rw [h2]; simp [hv]
    | false =>
      simp only [Bool.false_eq_true, if_false]
      rw [hA (rebuiltTile w cur t), hlen (rebuiltTile w cur t)]
      obtain ⟨h1, h2, h3⟩ := ih (A ++ [rebuiltTile w cur t]) (rebuildPicture w cur s t.area).1
        width height
      refine ⟨?_, ?_, ?_⟩
      · rw [h1]; simp
      · rw [h2]; simp [hv, rebuildPicture_eq]
      · rw [h3]; rfl

theorem rebuildPictureSet_eq (w : World) (cur : Snapshot) (s : WebViewCore) (p : PictureSet) :
    (rebuildPictureSet w cur s p).2 = { p with tiles := p.tiles.map (rebuiltTile w cur) } ∧
    (rebuildPictureSet w cur s p).1.m_rebuildInval =
      ((p.tiles.filter fun t => !t.valid).map Tile.area).foldl SkRegion.opRect
        s.m_rebuildInval ∧
    (rebuildPictureSet w cur s p).1.m_addInval = s.m_addInval := by
  have h := rebuild_loop w cur p.tiles [] s p.width p.height
  simp only [List.length_nil, List.nil_append] at h
  unfold rebuildPictureSet PictureSet.size
  rw [List.range_eq_range']
  exact h

/-- C16: tile rebuild minimality. rebuildPictureSet keeps the number of tiles
and the content size; a tile that is up to date stays exactly as it was
(rectangle, paint commands, statistics); a tile that is not takes, through
setPicture, the picture rebuildPicture records for that tile's own bounds. -/
theorem rebuildPictureSet_minimal (w : World) (cur : Snapshot) (s : WebViewCore)
    (p : PictureSet) :
    (rebuildPictureSet w cur s p).2.size = p.size ∧
    (rebuildPictureSet w cur s p).2.width = p.width ∧
    (rebuildPictureSet w cur s p).2.height = p.height ∧
    (∀ (t : WebViewCore) (inval : SkIRect),
      (rebuildPicture w cur t inval).2 = pictureFor w cur inval) ∧
    ∀ (index : Nat) (tile : Tile), p.tiles[index]? = some tile →
      (p.upToDate index = true →
        (rebuildPictureSet w cur s p).2.tiles[index]? = some tile) ∧
      (p.upToDate index = false →
        (rebuildPictureSet w cur s p).2.tiles[index]? =
          some { tile with picture := some (pictureFor w cur (p.bounds index)), valid := true })
    := by
  rw [(rebuildPictureSet_eq w cur s p).1]
  refine ⟨by simp [PictureSet.size], rfl, rfl, fun _ _ => rfl, ?_⟩
  intro index tile ht
  unfold PictureSet.upToDate PictureSet.bounds
  simp only [ht, List.getElem?_map, Option.map_some']
  constructor
  · intro hv
    simp [rebuiltTile, hv]
  · intro hv
    simp [rebuiltTile, hv]

/-- C17: m_rebuildInval records what was redrawn. rebuildPicture(inval) makes
m_rebuildInval its old value united with inval, so no point leaves it; after
rebuildPictureSet it is the old value united with the bounds of every tile
that was not up to date, and nothing else. -/
theorem rebuildInval_records_redrawn (w : World) (cur : Snapshot) (s : WebViewCore)
    (p : PictureSet) (inval : SkIRect) :
    (rebuildPicture w cur s inval).1.m_rebuildInval = s.m_rebuildInval.opRect inval ∧
    (∀ x y, (rebuildPicture w cur s inval).1.m_rebuildInval.containsPoint x y =
      (s.m_rebuildInval.containsPoint x y || inval.containsPoint x y)) ∧
    (rebuildPictureSet w cur s p).1.m_rebuildInval =
      ((p.tiles.filter fun t => !t.valid).map Tile.area).foldl SkRegion.opRect
        s.m_rebuildInval ∧
    (∀ x y, (rebuildPictureSet w cur s p).1.m_rebuildInval.containsPoint x y =
      (s.m_rebuildInval.containsPoint x y ||
        p.tiles.any fun t => !t.valid && t.area.containsPoint x y)) := by
  refine ⟨rfl, fun x y => SkRegion.containsPoint_opRect _ _ x y,
    (rebuildPictureSet_eq w cur s p).2.1, fun x y => ?_⟩
  rw [(rebuildPictureSet_eq w cur s p).2.1, SkRegion.containsPoint_foldl_opRect]
  congr 1
  induction p.tiles with
  | nil => rfl
  | cons t rest ih =>
    cases hv : t.valid <;> simp [List.filter_cons, hv, ih]

/-! ## The frame cache (C19 and C20) -/

theorem contentInvalidate_invariant (P : WebViewCore → Prop)
    (hemit : ∀ t e, P t → P (t.emit e))
    (hadd : ∀ t r, P t → P { t with m_addInval := r })
    (s : WebViewCore) (r : IntRect) (h : P s) : P (s.contentInvalidate r) := by
  unfold contentInvalidate
  split
  · exact h
  · dsimp only
    split
    · exact hemit _ _ (hadd _ _ h)
    · exact hadd _ _ h

theorem foldl_contentInvalidate_invariant (P : WebViewCore → Prop)
    (hemit : ∀ t e, P t → P (t.emit e))
    (hadd : ∀ t r, P t → P { t with m_addInval := r })
    (invals : List IntRect) (s : WebViewCore) (h : P s) :
    P (invals.foldl contentInvalidate s) := by
  induction invals generalizing s with
  | nil => exact h
  | cons r rest ih => exact ih _ (contentInvalidate_invariant P hemit hadd s r h)

theorem recordPicture_invariant (P : WebViewCore → Prop)
    (hemit : ∀ t e, P t → P (t.emit e))
    (hadd : ∀ t r, P t → P { t with m_addInval := r })
    (hbuttons : ∀ t b, P t → P { t with m_buttons := b })
    (w : World) (s : WebViewCore) (picture : SkPicture) (h : P s) :
    P (recordPicture w s picture).1 := by
  have hl : P (s.layoutPass w.nav.frame).1 :=
    foldl_contentInvalidate_invariant P hemit hadd _ s h
  unfold recordPicture
  split
  · exact h
  · rcases hp : s.layoutPass w.nav.frame with ⟨t, success⟩
    rw [hp] at hl
    cases success
    · exact hl
    · exact hbuttons _ _ hl

theorem recordPicture_outOfDate (w : World) (s : WebViewCore) (picture : SkPicture) :
    (recordPicture w s picture).1.m_frameCacheOutOfDate = s.m_frameCacheOutOfDate :=
  recordPicture_invariant (fun t => t.m_frameCacheOutOfDate = s.m_frameCacheOutOfDate)
    (fun _ _ h => h) (fun _ _ h => h) (fun _ _ h => h) w s picture rfl

/-- C19: prepareFrameCache returns true exactly when m_frameCacheOutOfDate
was true on entry. A false return leaves the whole object alone. After a true
return the flag is false and a temp snapshot exists, so a second call, in
whatever world, returns false and changes nothing. -/
theorem prepareFrameCache_gate (w : World) (s : WebViewCore) :
    ((prepareFrameCache w s).2 = true ↔ s.m_frameCacheOutOfDate = true) ∧
    ((prepareFrameCache w s).2 = false → (prepareFrameCache w s).1 = s) ∧
    ((prepareFrameCache w s).2 = true →
      (prepareFrameCache w s).1.m_frameCacheOutOfDate = false ∧
      (prepareFrameCache w s).1.m_temp.isSome = true ∧
      ∀ w₂ : World, prepareFrameCache w₂ (prepareFrameCache w s).1 =
        ((prepareFrameCache w s).1, false)) := by
  have hres := prepareFrameCache_result w s
  refine ⟨by rw [hres], ?_, ?_⟩
  · intro h
    rw [hres] at h
    rw [prepareFrameCache_upToDate w s h]
  · intro h
    rw [hres] at h
    obtain ⟨temp, ht⟩ := prepareFrameCache_outOfDate w s h
    have hflag : (prepareFrameCache w s).1.m_frameCacheOutOfDate = false := by
      rw [ht]
      exact recordPicture_outOfDate w { s with m_frameCacheOutOfDate := false } SkPicture.blank
    refine ⟨hflag, by rw [ht]; rfl, fun w₂ => prepareFrameCache_upToDate w₂ _ hflag⟩

/-- C20: releaseFrameCache(false) leaves the whole object alone, so the
snapshot, its picture and m_updatedFrameCache keep their values.
releaseFrameCache(true) makes the prepared snapshot and picture the current
ones, sets m_updatedFrameCache and adds no call to the log: no contentDraw,
no viewInvalidate. -/
theorem releaseFrameCache_publishes (s : WebViewCore) :
    releaseFrameCache s false = s ∧
    (releaseFrameCache s true).m_frameCacheKit = s.m_temp ∧
    (releaseFrameCache s true).m_navPictureKit = s.m_tempPict ∧
    (releaseFrameCache s true).m_updatedFrameCache = true ∧
    (releaseFrameCache s true).log = s.log :=
  ⟨rfl, rfl, rfl, rfl, rfl⟩

/-! ## A record cycle on a settled page (C13 to C15, C18) -/

theorem recordPictureSetTiles_eq (ops : PictureSetOps) (w : World) (cur : Snapshot)
    (s : WebViewCore) (content : PictureSet) (width height : Int) :
    recordPictureSetTiles ops w cur s content width height =
      if (!(ops.reuseSubdivided (content.checkDimensions width height s.m_addInval).1
          (content.checkDimensions width height s.m_addInval).2).2) = true then
        buildAndRebuild ops w cur
          (rebuildPicture w cur
            { s with m_addInval := (content.checkDimensions width height s.m_addInval).2 }
            (content.checkDimensions width height s.m_addInval).2.getBounds).1
          ((ops.reuseSubdivided (content.checkDimensions width height s.m_addInval).1
              (content.checkDimensions width height s.m_addInval).2).1.add
            (content.checkDimensions width height s.m_addInval).2
            (pictureFor w cur (content.checkDimensions width height s.m_addInval).2.getBounds)
            0 false)
      else
        buildAndRebuild ops w cur
          { s with m_addInval := (content.checkDimensions width height s.m_addInval).2 }
          (ops.reuseSubdivided (content.checkDimensions width height s.m_addInval).1
            (content.checkDimensions width height s.m_addInval).2).1 :=
  rfl

theorem checkDimensions_tiles (p : PictureSet) (width height : Int) (inval : SkRegion) :
    (p.checkDimensions width height inval).1.tiles = p.tiles ∧
    (p.checkDimensions width height inval).1.width = width ∧
    (p.checkDimensions width height inval).1.height = height := by
  unfold PictureSet.checkDimensions
  split
  · rename_i h
    exact ⟨rfl, h.1, h.2⟩
  · exact ⟨rfl, rfl, rfl⟩

theorem buildAndRebuild_length (ops : PictureSetOps) (hops : ops.Lawful) (w : World)
    (cur : Snapshot) (s : WebViewCore) (content : PictureSet) :
    (buildAndRebuild ops w cur s content).2.tiles.length ≤ content.tiles.length := by
  unfold buildAndRebuild
  dsimp only
  split
  · rw [(rebuildPictureSet_eq w cur s _).1]
    simpa using hops.build_length content
  · exact hops.build_length content

theorem buildAndRebuild_single (ops : PictureSetOps) (hops : ops.Lawful) (w : World)
    (cur : Snapshot) (s : WebViewCore) (tile : Tile) (width height : Int)
    (hv : tile.valid = true) :
    buildAndRebuild ops w cur s ⟨[tile], width, height⟩ = (s, ⟨[tile], width, height⟩) := by
  have hlast := hops.build_last ⟨[tile], width, height⟩ tile rfl
  have hlen := hops.build_length ⟨[tile], width, height⟩
  have hsize := hops.build_size ⟨[tile], width, height⟩
  have hflag := hops.build_flag ⟨[tile], width, height⟩
  have htiles : (ops.build ⟨[tile], width, height⟩).1.tiles = [tile] := by
    generalize (ops.build ⟨[tile], width, height⟩).1.tiles = l at hlast hlen
    match l, hlast, hlen with
    | [], h, _ => simp at h
    | [a], h, _ => simpa using h
    | _ :: _ :: _, _, h => simp at h
  have hset : (ops.build ⟨[tile], width, height⟩).1 = ⟨[tile], width, height⟩ := by
    rcases hb : (ops.build ⟨[tile], width, height⟩).1 with ⟨tl, wd, ht⟩
    rw [hb] at htiles hsize
    simp only at htiles hsize
    rw [htiles, hsize.1, hsize.2]
  unfold buildAndRebuild
  dsimp only
  rw [hflag, htiles]
  simp [hv, hset]

theorem layoutPass_of_nil (s : WebViewCore) (frame : Frame)
    (h : (layoutIfNeededRecursive frame).2 = []) : (s.layoutPass frame).1 = s := by
  unfold layoutPass
  dsimp only
  rw [h]
  rfl

theorem recordPicture_accumulators (w : World) (s : WebViewCore) (picture : SkPicture)
    (hnav : (layoutIfNeededRecursive w.nav.frame).2 = []) :
    (recordPicture w s picture).1.m_addInval = s.m_addInval ∧
    (recordPicture w s picture).1.m_rebuildInval = s.m_rebuildInval := by
  have hl := layoutPass_of_nil s w.nav.frame hnav
  unfold recordPicture
  split
  · exact ⟨rfl, rfl⟩
  · rcases hp : s.layoutPass w.nav.frame with ⟨t, success⟩
    rw [hp] at hl
    simp only at hl
    subst hl
    cases success <;> exact ⟨rfl, rfl⟩

theorem prepareFrameCache_accumulators (w : World) (s : WebViewCore)
    (hnav : (layoutIfNeededRecursive w.nav.frame).2 = []) :
    (prepareFrameCache w s).1.m_addInval = s.m_addInval ∧
    (prepareFrameCache w s).1.m_rebuildInval = s.m_rebuildInval := by
  cases h : s.m_frameCacheOutOfDate
  · rw [prepareFrameCache_upToDate w s h]
    exact ⟨rfl, rfl⟩
  · obtain ⟨temp, ht⟩ := prepareFrameCache_outOfDate w s h
    rw [ht]
    exact recordPicture_accumulators w { s with m_frameCacheOutOfDate := false } _ hnav

theorem releaseFrameCache_accumulators (s : WebViewCore) (newCache : Bool) :
    (releaseFrameCache s newCache).m_addInval = s.m_addInval ∧
    (releaseFrameCache s newCache).m_rebuildInval = s.m_rebuildInval := by
  cases newCache <;> exact ⟨rfl, rfl⟩

theorem updateFrameCache_accumulators (w : World) (s : WebViewCore)
    (hnav : (layoutIfNeededRecursive w.nav.frame).2 = []) :
    (updateFrameCache w s).m_addInval = s.m_addInval ∧
    (updateFrameCache w s).m_rebuildInval = s.m_rebuildInval := by
  have hp := prepareFrameCache_accumulators w { s with m_useReplay := false } hnav
  have hr := releaseFrameCache_accumulators (prepareFrameCache w { s with m_useReplay := false }).1
    (prepareFrameCache w { s with m_useReplay := false }).2
  exact ⟨hr.1.trans hp.1, hr.2.trans hp.2⟩

theorem recordPictureSetFocus_accumulators (w : World) (cur : Snapshot) (s : WebViewCore)
    (hnav : (layoutIfNeededRecursive w.nav.frame).2 = []) :
    (recordPictureSetFocus w cur s).m_addInval = s.m_addInval ∧
    (recordPictureSetFocus w cur s).m_rebuildInval = s.m_rebuildInval := by
  unfold recordPictureSetFocus
  dsimp only
  simp only [Bool.false_and, Bool.false_eq_true, if_false]
  have h := updateFrameCache_accumulators w
    { s with
      m_frameCacheOutOfDate := true
      m_lastFocused := w.currentFocus
      m_lastFocusedBounds :=
        match w.currentFocus with
        | some node => w.getRect node
        | none => ⟨0, 0, 0, 0⟩
      m_domtree_version := if s.m_check_domtree_version then sumDomTreeVersion cur.frame else 0 }
    hnav
  exact ⟨h.1, h.2⟩

theorem afterFirstPass_settled (w : World) (s : WebViewCore) (width height : Int)
    (hw : w.Settled width height) :
    s.afterFirstPass w = { s with m_skipContentDraw := false } := by
  unfold afterFirstPass
  rw [layoutPass_of_nil _ _ (by rw [hw.layout])]

theorem recordPictureSet_settled (ops : PictureSetOps) (w : World) (s : WebViewCore)
    (content : PictureSet) (width height : Int) (hw : w.Settled width height)
    (hne : s.m_addInval.isEmpty = false) :
    recordPictureSet ops w s content =
      (recordPictureSetFocus w w.first
        (recordPictureSetTiles ops w w.first { s with m_skipContentDraw := false } content
          width height).1,
        (recordPictureSetTiles ops w w.first { s with m_skipContentDraw := false } content
          width height).2) := by
  rw [recordPictureSet_eq, afterFirstPass_settled w s width height hw]
  simp only [hw.hasDocument, hne, hw.layout, hw.framesInside, hw.contentsWidth, hw.contentsHeight,
    Bool.not_true, Bool.false_eq_true, if_false]

theorem recordPictureSetTiles_tileless (ops : PictureSetOps) (hops : ops.Lawful) (w : World)
    (cur : Snapshot) (s : WebViewCore) (content : PictureSet) (width height : Int)
    (htiles : content.tiles = []) :
    (recordPictureSetTiles ops w cur s content width height).1 =
      (rebuildPicture w cur
        { s with m_addInval := (content.checkDimensions width height s.m_addInval).2 }
        (content.checkDimensions width height s.m_addInval).2.getBounds).1 ∧
    (recordPictureSetTiles ops w cur s content width height).2 =
      ⟨[⟨(content.checkDimensions width height s.m_addInval).2.getBounds, true,
          some (pictureFor w cur (content.checkDimensions width height s.m_addInval).2.getBounds),
          0, false⟩], width, height⟩ := by
  obtain ⟨ht, hwd, hht⟩ := checkDimensions_tiles content width height s.m_addInval
  have hreuse := hops.reuse_empty (content.checkDimensions width height s.m_addInval).1
    (content.checkDimensions width height s.m_addInval).2 (ht.trans htiles)
  rw [recordPictureSetTiles_eq, hreuse]
  simp only [Bool.not_false, if_true]
  have hadd : (content.checkDimensions width height s.m_addInval).1.add
      (content.checkDimensions width height s.m_addInval).2
      (pictureFor w cur (content.checkDimensions width height s.m_addInval).2.getBounds) 0 false =
      ⟨[⟨(content.checkDimensions width height s.m_addInval).2.getBounds, true,
          some (pictureFor w cur (content.checkDimensions width height s.m_addInval).2.getBounds),
          0, false⟩], width, height⟩ := by
    unfold PictureSet.add
    rw [ht.trans htiles, hwd, hht]
    rfl
  rw [hadd, buildAndRebuild_single ops hops w cur _ _ width height rfl]
  exact ⟨rfl, rfl⟩

theorem recordingAttempt_tileless (ops : PictureSetOps) (hops : ops.Lawful) (w : World)
    (s : WebViewCore) (width height : Int) (hw : w.Settled width height)
    (htiles : s.m_content.tiles = []) (hne : s.m_addInval.isEmpty = false) :
    (recordingAttempt ops w s).1.m_addInval =
      (s.m_content.checkDimensions width height s.m_addInval).2 ∧
    (recordingAttempt ops w s).1.m_rebuildInval =
      s.m_rebuildInval.opRect
        (s.m_content.checkDimensions width height s.m_addInval).2.getBounds ∧
    (recordingAttempt ops w s).2 =
      ⟨[⟨(s.m_content.checkDimensions width height s.m_addInval).2.getBounds, true,
          some (pictureFor w w.first
            (s.m_content.checkDimensions width height s.m_addInval).2.getBounds),
          0, false⟩], width, height⟩ := by
  unfold recordingAttempt
  rw [recordPictureSet_settled ops w { s with m_progressDone := w.progressDone } s.m_content
    width height hw hne]
  obtain ⟨h1, h2⟩ := recordPictureSetTiles_tileless ops hops w w.first
    { s with m_progressDone := w.progressDone, m_skipContentDraw := false } s.m_content
    width height htiles
  obtain ⟨f1, f2⟩ := recordPictureSetFocus_accumulators w w.first
    (recordPictureSetTiles ops w w.first
      { s with m_progressDone := w.progressDone, m_skipContentDraw := false } s.m_content
      width height).1 hw.navLayout
  refine ⟨?_, ?_, h2⟩
  · rw [f1, h1]
    rfl
  · rw [f2, h1]
    rfl

theorem recordContent_tileless (ops : PictureSetOps) (hops : ops.Lawful) (w : World)
    (s : WebViewCore) (region : SkRegion) (point : IntPoint) (width height : Int)
    (hw : w.Settled width height) (htiles : s.m_content.tiles = [])
    (hne : s.m_addInval.isEmpty = false) :
    (recordContent ops w s region point).2.1 = true ∧
    (recordContent ops w s region point).2.2.1 =
      (s.m_content.checkDimensions width height s.m_addInval).2.opRegion
        (s.m_rebuildInval.opRect
          (s.m_content.checkDimensions width height s.m_addInval).2.getBounds) ∧
    (recordContent ops w s region point).2.2.2 = ⟨width, height⟩ ∧
    (recordContent ops w s region point).1.m_content.tiles.map Tile.area =
      [(s.m_content.checkDimensions width height s.m_addInval).2.getBounds] := by
  obtain ⟨a1, a2, a3⟩ := recordingAttempt_tileless ops hops w s width height hw htiles hne
  have htrue : (recordContent ops w s region point).2.1 = true := by
    cases hr : (recordContent ops w s region point).2.1 with
    | true => rfl
    | false =>
      have := ((recordContent_false_iff ops w s region point).1 hr).2
      rw [a3] at this
      cases this
  obtain ⟨d1, d2, d3⟩ := hops.drawTimes_keeps (recordingAttempt ops w s).2 s.m_content
  rw [recordContent_of_true ops w s region point htrue]
  refine ⟨rfl, ?_, ?_, ?_⟩
  · show (recordingAttempt ops w s).1.m_addInval.opRegion
      (recordingAttempt ops w s).1.m_rebuildInval = _
    rw [a1, a2]
  · show (⟨(ops.setDrawTimes (recordingAttempt ops w s).2 s.m_content).width,
      (ops.setDrawTimes (recordingAttempt ops w s).2 s.m_content).height⟩ : IntPoint) = _
    rw [d1, d2, a3]
  · show (ops.setDrawTimes (recordingAttempt ops w s).2 s.m_content).tiles.map Tile.area = _
    have := congrArg (List.map fun q : SkIRect × Bool × Option SkPicture => q.1) d3
    simp only [List.map_map, Function.comp_def] at this
    rw [this, a3]
    rfl

theorem contentInvalidate_keeps (s : WebViewCore) (r : IntRect) :
    (s.contentInvalidate r).m_content = s.m_content ∧
    (s.contentInvalidate r).m_rebuildInval = s.m_rebuildInval :=
  ⟨(contentInvalidate_quiet s r).content,
    contentInvalidate_invariant (fun t => t.m_rebuildInval = s.m_rebuildInval)
      (fun _ _ h => h) (fun _ _ h => h) s r rfl⟩

theorem contentInvalidate_positive (s : WebViewCore) (r : IntRect)
    (hx : 0 ≤ r.x) (hy : 0 ≤ r.y) (hw : 0 < r.width) (hh : 0 < r.height)
    (hr : r.x + r.width ≤ INT_MAX) (hb : r.y + r.height ≤ INT_MAX) :
    (s.contentInvalidate r).m_addInval =
      ⟨s.m_addInval.rects ++ [⟨r.x, r.y, r.right, r.bottom⟩]⟩ := by
  have hright : r.right = r.x + r.width :=
    r.right_of_fits ⟨by unfold INT_MIN; omega, hr⟩
  have hbottom : r.bottom = r.y + r.height :=
    r.bottom_of_fits ⟨by unfold INT_MIN; omega, hb⟩
  have hne : (SkIRect.ofIntRect r).isEmpty = false := by
    unfold SkIRect.isEmpty SkIRect.ofIntRect
    rw [hright, hbottom]
    simp only [Bool.or_eq_false_iff, decide_eq_false_iff_not]
    omega
  have h0 : (0 : Int) < INT_MAX := by decide
  rw [(contentInvalidate_of_some s r _ (intersect_quadrant_some r hne (by omega)
    (by rw [hright]; omega) (by omega) (by rw [hbottom]; omega))).1]
  have hclip : clipToQuadrant r = ⟨r.x, r.y, r.right, r.bottom⟩ := by
    unfold clipToQuadrant
    rw [hright, hbottom, max_eq_left hx, max_eq_left hy, min_eq_left hr, min_eq_left hb]
  rw [hclip]
  unfold SkRegion.opRect
  have hne2 : (⟨r.x, r.y, r.right, r.bottom⟩ : SkIRect).isEmpty = false := hne
  rw [hne2]
  rfl

theorem ops_lawful : Fixture.ops.Lawful where
  reuse_empty := fun _ _ _ => rfl
  reuse_length := fun _ _ => rfl
  build_flag := fun _ => rfl
  build_valid := fun _ h => h
  build_length := fun _ => Nat.le_refl _
  build_last := fun _ _ h => h
  build_size := fun _ => ⟨rfl, rfl⟩
  drawTimes_keeps := fun _ _ => ⟨rfl, rfl, rfl⟩

theorem world_settled : Fixture.world.Settled 800 600 where
  hasDocument := rfl
  layout := by decide
  contentsWidth := rfl
  contentsHeight := rfl
  framesInside := by decide
  navLayout := by decide

theorem splitOps_lawful : Fixture.splitOps.Lawful where
  reuse_empty := fun p _ h => by simp [Fixture.splitOps, h]
  reuse_length := fun p inval => by
    unfold Fixture.splitOps
    dsimp only
    split <;> simp
  build_flag := fun _ => rfl
  build_valid := fun _ h => h
  build_length := fun _ => Nat.le_refl _
  build_last := fun _ _ h => h
  build_size := fun _ => ⟨rfl, rfl⟩
  drawTimes_keeps := fun _ _ => ⟨rfl, rfl, rfl⟩

theorem buildAndRebuild_valid (ops : PictureSetOps) (hops : ops.Lawful) (w : World)
    (cur : Snapshot) (s : WebViewCore) (content : PictureSet)
    (hv : ∀ t ∈ content.tiles, t.valid = true) :
    buildAndRebuild ops w cur s content = (s, (ops.build content).1) := by
  have hflag : (ops.build content).2 = false := by
    rw [hops.build_flag content, List.any_eq_false]
    intro t ht
    simp [hops.build_valid content hv t ht]
  unfold buildAndRebuild
  dsimp only
  rw [hflag]
  rfl

theorem recordPictureSetTiles_unsplit (ops : PictureSetOps) (hops : ops.Lawful)
    (hsplit : ops.ReusesSplitOnly) (w : World) (cur : Snapshot) (s : WebViewCore)
    (content : PictureSet) (width height : Int)
    (hwidth : content.width = width) (hheight : content.height = height)
    (htiles : ∀ t ∈ content.tiles, t.valid = true ∧ t.split = false) :
    (recordPictureSetTiles ops w cur s content width height).1 =
      (rebuildPicture w cur s s.m_addInval.getBounds).1 ∧
    (recordPictureSetTiles ops w cur s content width height).2 =
      (ops.build
        (content.add s.m_addInval (pictureFor w cur s.m_addInval.getBounds) 0 false)).1 := by
  have hcheck : content.checkDimensions width height s.m_addInval = (content, s.m_addInval) := by
    unfold PictureSet.checkDimensions
    rw [if_pos ⟨hwidth, hheight⟩]
  have hreuse := hsplit content s.m_addInval (fun t ht => (htiles t ht).2)
  rw [recordPictureSetTiles_eq, hcheck]
  simp only [hreuse, Bool.not_false, if_true]
  have hv : ∀ t ∈ (content.add s.m_addInval (pictureFor w cur s.m_addInval.getBounds) 0
      false).tiles, t.valid = true := by
    intro t ht
    unfold PictureSet.add at ht
    simp only [List.mem_append, List.mem_singleton] at ht
    rcases ht with ht | ht
    · exact (htiles t ht).1
    · rw [ht]
  rw [buildAndRebuild_valid ops hops w cur _ _ hv]
  exact ⟨rfl, rfl⟩

theorem recordingAttempt_unsplit (ops : PictureSetOps) (hops : ops.Lawful)
    (hsplit : ops.ReusesSplitOnly) (w : World)
    (s : WebViewCore) (width height : Int) (hw : w.Settled width height)
    (hwidth : s.m_content.width = width) (hheight : s.m_content.height = height)
    (htiles : ∀ t ∈ s.m_content.tiles, t.valid = true ∧ t.split = false)
    (hne : s.m_addInval.isEmpty = false) :
    (recordingAttempt ops w s).1.m_addInval = s.m_addInval ∧
    (recordingAttempt ops w s).1.m_rebuildInval =
      s.m_rebuildInval.opRect s.m_addInval.getBounds ∧
    (recordingAttempt ops w s).2 =
      (ops.build
        (s.m_content.add s.m_addInval (pictureFor w w.first s.m_addInval.getBounds) 0
          false)).1 := by
  unfold recordingAttempt
  rw [recordPictureSet_settled ops w { s with m_progressDone := w.progressDone } s.m_content
    width height hw hne]
  obtain ⟨h1, h2⟩ := recordPictureSetTiles_unsplit ops hops hsplit w w.first
    { s with m_progressDone := w.progressDone, m_skipContentDraw := false } s.m_content
    width height hwidth hheight htiles
  obtain ⟨f1, f2⟩ := recordPictureSetFocus_accumulators w w.first
    (recordPictureSetTiles ops w w.first
      { s with m_progressDone := w.progressDone, m_skipContentDraw := false } s.m_content
      width height).1 hw.navLayout
  refine ⟨?_, ?_, h2⟩
  · rw [f1, h1]
    rfl
  · rw [f2, h1]
    rfl

theorem recordContent_unsplit (ops : PictureSetOps) (hops : ops.Lawful)
    (hsplit : ops.ReusesSplitOnly) (w : World)
    (s : WebViewCore) (region : SkRegion) (point : IntPoint) (width height : Int)
    (hw : w.Settled width height)
    (hwidth : s.m_content.width = width) (hheight : s.m_content.height = height)
    (htiles : ∀ t ∈ s.m_content.tiles, t.valid = true ∧ t.split = false)
    (hne : s.m_addInval.isEmpty = false) :
    (recordContent ops w s region point).2.1 = true ∧
    (recordContent ops w s region point).2.2.1 =
      s.m_addInval.opRegion (s.m_rebuildInval.opRect s.m_addInval.getBounds) ∧
    (recordContent ops w s region point).2.2.2 = ⟨width, height⟩ ∧
    (recordContent ops w s region point).1.m_content.tiles.getLast?.map Tile.area =
      some s.m_addInval.getBounds := by
  obtain ⟨a1, a2, a3⟩ := recordingAttempt_unsplit ops hops hsplit w s width height hw hwidth
    hheight htiles hne
  have hlast : (recordingAttempt ops w s).2.tiles.getLast? =
      some ⟨s.m_addInval.getBounds, true, some (pictureFor w w.first s.m_addInval.getBounds),
        0, false⟩ := by
    rw [a3]
    apply hops.build_last
    unfold PictureSet.add
    simp
  have htrue : (recordContent ops w s region point).2.1 = true := by
    cases hr : (recordContent ops w s region point).2.1 with
    | true => rfl
    | false =>
      have hempty := ((recordContent_false_iff ops w s region point).1 hr).2
      unfold PictureSet.isEmpty at hempty
      rw [List.isEmpty_iff] at hempty
      rw [hempty] at hlast
      cases hlast
  obtain ⟨d1, d2, d3⟩ := hops.drawTimes_keeps (recordingAttempt ops w s).2 s.m_content
  have hsize := hops.build_size
    (s.m_content.add s.m_addInval (pictureFor w w.first s.m_addInval.getBounds) 0 false)
  rw [recordContent_of_true ops w s region point htrue]
  refine ⟨rfl, ?_, ?_, ?_⟩
  · show (recordingAttempt ops w s).1.m_addInval.opRegion
      (recordingAttempt ops w s).1.m_rebuildInval = _
    rw [a1, a2]
  · show (⟨(ops.setDrawTimes (recordingAttempt ops w s).2 s.m_content).width,
      (ops.setDrawTimes (recordingAttempt ops w s).2 s.m_content).height⟩ : IntPoint) = _
    rw [d1, d2, a3, hsize.1, hsize.2]
    unfold PictureSet.add
    simp only [hwidth, hheight]
  · show (ops.setDrawTimes (recordingAttempt ops w s).2 s.m_content).tiles.getLast?.map
      Tile.area = _
    have h1 := congrArg (List.map fun q : SkIRect × Bool × Option SkPicture => q.1) d3
    simp only [List.map_map, Function.comp_def] at h1
    have h2 := congrArg List.getLast? h1
    rw [List.getLast?_map, List.getLast?_map, hlast] at h2
    exact h2

/-- C13: scenario A. On a settled page whose content is 800 by 600, starting
from a picture set of that size whose tiles are all valid and none of them
split (the state a record cycle leaves, the set without tiles included) and
from empty invalidation regions, contentInvalidate of the rectangle at (0,0)
of size 100 by 100 followed by recordContent makes recordContent return true,
report a region that is exactly the rectangle (0,0,100,100), and report the
size (800,600). -/
theorem recordContent_scenario_A (ops : PictureSetOps) (hops : ops.Lawful)
    (hsplit : ops.ReusesSplitOnly) (w : World)
    (hw : w.Settled 800 600) (s : WebViewCore) (region : SkRegion) (point : IntPoint)
    (hwidth : s.m_content.width = 800) (hheight : s.m_content.height = 600)
    (htiles : ∀ t ∈ s.m_content.tiles, t.valid = true ∧ t.split = false)
    (hadd : s.m_addInval = SkRegion.empty)
    (hrebuild : s.m_rebuildInval = SkRegion.empty) :
    (recordContent ops w (s.contentInvalidate ⟨0, 0, 100, 100⟩) region point).2.1 = true ∧
    SkRegion.SamePoints
      (recordContent ops w (s.contentInvalidate ⟨0, 0, 100, 100⟩) region point).2.2.1
      ⟨[⟨0, 0, 100, 100⟩]⟩ ∧
    (recordContent ops w (s.contentInvalidate ⟨0, 0, 100, 100⟩) region point).2.2.1.getBounds =
      ⟨0, 0, 100, 100⟩ ∧
    (recordContent ops w (s.contentInvalidate ⟨0, 0, 100, 100⟩) region point).2.2.2 =
      ⟨800, 600⟩ := by
  obtain ⟨k1, k2⟩ := contentInvalidate_keeps s ⟨0, 0, 100, 100⟩
  have hinv : (s.contentInvalidate ⟨0, 0, 100, 100⟩).m_addInval = ⟨[⟨0, 0, 100, 100⟩]⟩ := by
    rw [contentInvalidate_positive s ⟨0, 0, 100, 100⟩ (by decide) (by decide) (by decide)
      (by decide) (by decide) (by decide), hadd]
    rfl
  obtain ⟨r1, r2, r3, -⟩ := recordContent_unsplit ops hops hsplit w
    (s.contentInvalidate ⟨0, 0, 100, 100⟩) region point 800 600 hw
    (by rw [k1, hwidth]) (by rw [k1, hheight]) (by rw [k1]; exact htiles)
    (by rw [hinv]; decide)
  rw [k2, hinv, hrebuild] at r2
  have hregion : (recordContent ops w (s.contentInvalidate ⟨0, 0, 100, 100⟩) region
      point).2.2.1 = ⟨[⟨0, 0, 100, 100⟩, ⟨0, 0, 100, 100⟩]⟩ := by
    rw [r2]
    decide
  refine ⟨r1, ?_, ?_, r3⟩
  · intro x y
    rw [hregion]
    simp [SkRegion.containsPoint]
  · rw [hregion]
    decide

theorem ops_reusesSplitOnly : Fixture.ops.ReusesSplitOnly := fun _ _ _ => rfl

/-- The cycle before scenario A: from the constructor state the picture set
has the size (0,0), so the first recordContent on the page of 800 by 600
reports the whole content whatever was invalidated, and leaves one tile that
covers it. -/
theorem recordContent_first_cycle :
    Fixture.fresh.m_content = PictureSet.empty ∧
    (recordContent Fixture.ops Fixture.world (Fixture.fresh.contentInvalidate ⟨0, 0, 100, 100⟩)
      SkRegion.empty ⟨0, 0⟩).2.2.1.getBounds = ⟨0, 0, 800, 600⟩ ∧
    Fixture.recordedOnce.m_content.tiles.map Tile.area = [⟨0, 0, 800, 600⟩] := by
  decide

/-- C13 witness: the object after the first record cycle on the settled
fixture page, whose picture set holds the one tile (0,0,800,600). -/
theorem recordContent_scenario_A_witness :
    Fixture.recordedOnce.m_content.tiles.map Tile.area = [⟨0, 0, 800, 600⟩] ∧
    (recordContent Fixture.ops Fixture.world
        (Fixture.recordedOnce.contentInvalidate ⟨0, 0, 100, 100⟩) SkRegion.empty ⟨0, 0⟩).2.1 =
      true ∧
    SkRegion.SamePoints
      (recordContent Fixture.ops Fixture.world
        (Fixture.recordedOnce.contentInvalidate ⟨0, 0, 100, 100⟩) SkRegion.empty ⟨0, 0⟩).2.2.1
      ⟨[⟨0, 0, 100, 100⟩]⟩ ∧
    (recordContent Fixture.ops Fixture.world
        (Fixture.recordedOnce.contentInvalidate ⟨0, 0, 100, 100⟩) SkRegion.empty
        ⟨0, 0⟩).2.2.1.getBounds = ⟨0, 0, 100, 100⟩ ∧
    (recordContent Fixture.ops Fixture.world
        (Fixture.recordedOnce.contentInvalidate ⟨0, 0, 100, 100⟩) SkRegion.empty ⟨0, 0⟩).2.2.2 =
      ⟨800, 600⟩ :=
  ⟨by decide,
    recordContent_scenario_A Fixture.ops ops_lawful ops_reusesSplitOnly Fixture.world
      world_settled Fixture.recordedOnce SkRegion.empty ⟨0, 0⟩ (by decide) (by decide)
      (by decide) (by decide) (by decide)⟩

theorem scenario_B_addInval (s : WebViewCore) (hadd : s.m_addInval = SkRegion.empty) :
    ((s.contentInvalidate ⟨0, 0, 50, 50⟩).contentInvalidate ⟨700, 550, 100, 100⟩).m_addInval =
      ⟨[⟨0, 0, 50, 50⟩, ⟨700, 550, 800, 650⟩]⟩ := by
  rw [contentInvalidate_positive _ ⟨700, 550, 100, 100⟩ (by decide) (by decide) (by decide)
      (by decide) (by decide) (by decide),
    contentInvalidate_positive s ⟨0, 0, 50, 50⟩ (by decide) (by decide) (by decide)
      (by decide) (by decide) (by decide), hadd]
  rfl

theorem scenario_B_checked (p : PictureSet) :
    (p.checkDimensions 800 600 ⟨[⟨0, 0, 50, 50⟩, ⟨700, 550, 800, 650⟩]⟩).2.getBounds =
        ⟨0, 0, 800, 650⟩ ∧
    ((p.checkDimensions 800 600 ⟨[⟨0, 0, 50, 50⟩, ⟨700, 550, 800, 650⟩]⟩).2.opRegion
        (SkRegion.empty.opRect ⟨0, 0, 800, 650⟩)).getBounds = ⟨0, 0, 800, 650⟩ := by
  unfold PictureSet.checkDimensions
  split <;> refine ⟨?_, ?_⟩ <;> dsimp only <;> decide

/-- C14: scenario B, the region. On a settled 800 by 600 page, starting with
no tile and empty invalidation regions, invalidating (0,0) of size 50 by 50
and then (700,550) of size 100 by 100 leaves in m_addInval exactly the points
of the two rectangles, with bounds (0,0,800,650), and the recordContent that
follows returns true and reports a region with the same bounds. -/
theorem recordContent_scenario_B_region (ops : PictureSetOps) (hops : ops.Lawful) (w : World)
    (hw : w.Settled 800 600) (s : WebViewCore) (region : SkRegion) (point : IntPoint)
    (htiles : s.m_content.tiles = []) (hadd : s.m_addInval = SkRegion.empty)
    (hrebuild : s.m_rebuildInval = SkRegion.empty) :
    (∀ x y,
      ((s.contentInvalidate ⟨0, 0, 50, 50⟩).contentInvalidate
          ⟨700, 550, 100, 100⟩).m_addInval.containsPoint x y =
        ((SkIRect.ofIntRect ⟨0, 0, 50, 50⟩).containsPoint x y ||
          (SkIRect.ofIntRect ⟨700, 550, 100, 100⟩).containsPoint x y)) ∧
    ((s.contentInvalidate ⟨0, 0, 50, 50⟩).contentInvalidate
        ⟨700, 550, 100, 100⟩).m_addInval.getBounds = ⟨0, 0, 800, 650⟩ ∧
    (recordContent ops w
      ((s.contentInvalidate ⟨0, 0, 50, 50⟩).contentInvalidate ⟨700, 550, 100, 100⟩)
      region point).2.1 = true ∧
    (recordContent ops w
      ((s.contentInvalidate ⟨0, 0, 50, 50⟩).contentInvalidate ⟨700, 550, 100, 100⟩)
      region point).2.2.1.getBounds = ⟨0, 0, 800, 650⟩ := by
  have hinv := scenario_B_addInval s hadd
  obtain ⟨k1, k2⟩ := contentInvalidate_keeps s ⟨0, 0, 50, 50⟩
  obtain ⟨k3, k4⟩ := contentInvalidate_keeps (s.contentInvalidate ⟨0, 0, 50, 50⟩)
    ⟨700, 550, 100, 100⟩
  obtain ⟨r1, r2, -, -⟩ := recordContent_tileless ops hops w
    ((s.contentInvalidate ⟨0, 0, 50, 50⟩).contentInvalidate ⟨700, 550, 100, 100⟩) region point
    800 600 hw (by rw [k3, k1, htiles]) (by rw [hinv]; decide)
  rw [hinv, k4, k2, hrebuild, (scenario_B_checked _).1] at r2
  refine ⟨?_, ?_, r1, ?_⟩
  · intro x y
    rw [hinv]
    have e1 : SkIRect.ofIntRect ⟨0, 0, 50, 50⟩ = ⟨0, 0, 50, 50⟩ := by decide
    have e2 : SkIRect.ofIntRect ⟨700, 550, 100, 100⟩ = ⟨700, 550, 800, 650⟩ := by decide
    rw [e1, e2]
    simp [SkRegion.containsPoint]
  · rw [hinv]
    decide
  · rw [r2]
    exact (scenario_B_checked _).2

/-- C14 witness: the sized fixture on the settled fixture page. -/
theorem recordContent_scenario_B_region_witness :
    (∀ x y,
      ((Fixture.sized.contentInvalidate ⟨0, 0, 50, 50⟩).contentInvalidate
          ⟨700, 550, 100, 100⟩).m_addInval.containsPoint x y =
        ((SkIRect.ofIntRect ⟨0, 0, 50, 50⟩).containsPoint x y ||
          (SkIRect.ofIntRect ⟨700, 550, 100, 100⟩).containsPoint x y)) ∧
    ((Fixture.sized.contentInvalidate ⟨0, 0, 50, 50⟩).contentInvalidate
        ⟨700, 550, 100, 100⟩).m_addInval.getBounds = ⟨0, 0, 800, 650⟩ ∧
    (recordContent Fixture.ops Fixture.world
      ((Fixture.sized.contentInvalidate ⟨0, 0, 50, 50⟩).contentInvalidate ⟨700, 550, 100, 100⟩)
      SkRegion.empty ⟨0, 0⟩).2.1 = true ∧
    (recordContent Fixture.ops Fixture.world
      ((Fixture.sized.contentInvalidate ⟨0, 0, 50, 50⟩).contentInvalidate ⟨700, 550, 100, 100⟩)
      SkRegion.empty ⟨0, 0⟩).2.2.1.getBounds = ⟨0, 0, 800, 650⟩ :=
  recordContent_scenario_B_region Fixture.ops ops_lawful Fixture.world world_settled
    Fixture.sized SkRegion.empty ⟨0, 0⟩ rfl rfl rfl

/-- C15, as the code has it: in scenario B, starting with no tile, the record
cycle leaves the picture set with one tile, not two: recordPictureSet adds a
single tile for the whole accumulated region, and the rectangle of that tile
is the bounds (0,0,800,650) of the region. -/
theorem recordContent_scenario_B_tiles (ops : PictureSetOps) (hops : ops.Lawful) (w : World)
    (hw : w.Settled 800 600) (s : WebViewCore) (region : SkRegion) (point : IntPoint)
    (htiles : s.m_content.tiles = []) (hadd : s.m_addInval = SkRegion.empty) :
    (recordContent ops w
      ((s.contentInvalidate ⟨0, 0, 50, 50⟩).contentInvalidate ⟨700, 550, 100, 100⟩)
      region point).1.m_content.size = 1 ∧
    (recordContent ops w
      ((s.contentInvalidate ⟨0, 0, 50, 50⟩).contentInvalidate ⟨700, 550, 100, 100⟩)
      region point).1.m_content.tiles.map Tile.area = [⟨0, 0, 800, 650⟩] := by
  have hinv := scenario_B_addInval s hadd
  obtain ⟨k1, -⟩ := contentInvalidate_keeps s ⟨0, 0, 50, 50⟩
  obtain ⟨k3, -⟩ := contentInvalidate_keeps (s.contentInvalidate ⟨0, 0, 50, 50⟩)
    ⟨700, 550, 100, 100⟩
  obtain ⟨-, -, -, r4⟩ := recordContent_tileless ops hops w
    ((s.contentInvalidate ⟨0, 0, 50, 50⟩).contentInvalidate ⟨700, 550, 100, 100⟩) region point
    800 600 hw (by rw [k3, k1, htiles]) (by rw [hinv]; decide)
  rw [hinv, (scenario_B_checked _).1] at r4
  refine ⟨?_, r4⟩
  have := congrArg List.length r4
  simpa [PictureSet.size] using this

/-- C15 witness: the sized fixture on the settled fixture page. -/
theorem recordContent_scenario_B_tiles_witness :
    (recordContent Fixture.ops Fixture.world
      ((Fixture.sized.contentInvalidate ⟨0, 0, 50, 50⟩).contentInvalidate ⟨700, 550, 100, 100⟩)
      SkRegion.empty ⟨0, 0⟩).1.m_content.size = 1 ∧
    (recordContent Fixture.ops Fixture.world
      ((Fixture.sized.contentInvalidate ⟨0, 0, 50, 50⟩).contentInvalidate ⟨700, 550, 100, 100⟩)
      SkRegion.empty ⟨0, 0⟩).1.m_content.tiles.map Tile.area = [⟨0, 0, 800, 650⟩] :=
  recordContent_scenario_B_tiles Fixture.ops ops_lawful Fixture.world world_settled
    Fixture.sized SkRegion.empty ⟨0, 0⟩ rfl rfl

/-- C15 refuted as stated: on the settled 800 by 600 fixture page, starting
from the empty picture set of that size (tile count 0), the two invalidations
of scenario B followed by recordContent report a region with bounds
(0,0,800,650) and leave a tile count that is not 2. -/
theorem scenario_B_leaves_one_tile :
    Fixture.sized.m_content.size = 0 ∧
    (recordContent Fixture.ops Fixture.world
      ((Fixture.sized.contentInvalidate ⟨0, 0, 50, 50⟩).contentInvalidate ⟨700, 550, 100, 100⟩)
      SkRegion.empty ⟨0, 0⟩).2.2.1.getBounds = ⟨0, 0, 800, 650⟩ ∧
    (recordContent Fixture.ops Fixture.world
      ((Fixture.sized.contentInvalidate ⟨0, 0, 50, 50⟩).contentInvalidate ⟨700, 550, 100, 100⟩)
      SkRegion.empty ⟨0, 0⟩).1.m_content.size ≠ 2 := by
  decide

/-- C18: reuse of a subdivided tile or a new top-level tile. In the tile step
of recordPictureSet, when reuseSubdivided(m_addInval) returns false the picture
set handed on is the result of one PictureSet::add with the whole accumulated
region and the picture recorded for the bounds of that region, which appends
one tile to the tiles left by reuseSubdivided; when reuseSubdivided returns
true the picture set handed on is the one left by reuseSubdivided, with no
add, and the tile count at the end of the step is not larger than before. -/
theorem recordPictureSetTiles_reuse_or_append (ops : PictureSetOps) (hops : ops.Lawful)
    (w : World) (cur : Snapshot) (s : WebViewCore) (content : PictureSet)
    (width height : Int) :
    ((ops.reuseSubdivided (content.checkDimensions width height s.m_addInval).1
        (content.checkDimensions width height s.m_addInval).2).2 = false →
      recordPictureSetTiles ops w cur s content width height =
        buildAndRebuild ops w cur
          (rebuildPicture w cur
            { s with m_addInval := (content.checkDimensions width height s.m_addInval).2 }
            (content.checkDimensions width height s.m_addInval).2.getBounds).1
          ((ops.reuseSubdivided (content.checkDimensions width height s.m_addInval).1
              (content.checkDimensions width height s.m_addInval).2).1.add
            (content.checkDimensions width height s.m_addInval).2
            (pictureFor w cur (content.checkDimensions width height s.m_addInval).2.getBounds)
            0 false) ∧
      ((ops.reuseSubdivided (content.checkDimensions width height s.m_addInval).1
              (content.checkDimensions width height s.m_addInval).2).1.add
            (content.checkDimensions width height s.m_addInval).2
            (pictureFor w cur (content.checkDimensions width height s.m_addInval).2.getBounds)
            0 false).tiles =
        (ops.reuseSubdivided (content.checkDimensions width height s.m_addInval).1
            (content.checkDimensions width height s.m_addInval).2).1.tiles ++
          [⟨(content.checkDimensions width height s.m_addInval).2.getBounds, true,
            some (pictureFor w cur
              (content.checkDimensions width height s.m_addInval).2.getBounds), 0, false⟩]) ∧
    ((ops.reuseSubdivided (content.checkDimensions width height s.m_addInval).1
        (content.checkDimensions width height s.m_addInval).2).2 = true →
      recordPictureSetTiles ops w cur s content width height =
        buildAndRebuild ops w cur
          { s with m_addInval := (content.checkDimensions width height s.m_addInval).2 }
          (ops.reuseSubdivided (content.checkDimensions width height s.m_addInval).1
            (content.checkDimensions width height s.m_addInval).2).1 ∧
      (recordPictureSetTiles ops w cur s content width height).2.size ≤ content.size) := by
  constructor
  · intro h
    rw [recordPictureSetTiles_eq, h]
    exact ⟨rfl, rfl⟩
  · intro h
    have heq : recordPictureSetTiles ops w cur s content width height =
        buildAndRebuild ops w cur
          { s with m_addInval := (content.checkDimensions width height s.m_addInval).2 }
          (ops.reuseSubdivided (content.checkDimensions width height s.m_addInval).1
            (content.checkDimensions width height s.m_addInval).2).1 := by
      rw [recordPictureSetTiles_eq, h]
      rfl
    refine ⟨heq, ?_⟩
    rw [heq]
    have h1 := buildAndRebuild_length ops hops w cur
      { s with m_addInval := (content.checkDimensions width height s.m_addInval).2 }
      (ops.reuseSubdivided (content.checkDimensions width height s.m_addInval).1
        (content.checkDimensions width height s.m_addInval).2).1
    rw [hops.reuse_length, (checkDimensions_tiles content width height s.m_addInval).1] at h1
    exact h1

/-- C18 witness: the split tile of the fixture is reused in place, and the two
tiles stay two. -/
theorem recordPictureSetTiles_reuse_or_append_witness :
    (Fixture.splitOps.reuseSubdivided
        (Fixture.splitTiles.checkDimensions 800 600 Fixture.splitPending.m_addInval).1
        (Fixture.splitTiles.checkDimensions 800 600 Fixture.splitPending.m_addInval).2).2 =
      true ∧
    Fixture.splitTiles.size = 2 ∧
    (recordPictureSetTiles Fixture.splitOps Fixture.world Fixture.world.first
        Fixture.splitPending Fixture.splitTiles 800 600).2.size ≤ Fixture.splitTiles.size :=
  ⟨by decide, by decide,
    ((recordPictureSetTiles_reuse_or_append Fixture.splitOps splitOps_lawful Fixture.world
      Fixture.world.first Fixture.splitPending Fixture.splitTiles 800 600).2 (by decide)).2⟩

end WebViewCore

/-! ## The cursor and the rebuild of the frame cache (C21 and C22) -/

namespace WebViewCore

/-- The shape of a rebuild, with the tree of the new snapshot. -/
theorem prepareFrameCache_tree (w : World) (s : WebViewCore)
    (h : s.m_frameCacheOutOfDate = true) :
    ∃ temp : CachedRoot, temp.tree = w.buildCache ∧
      prepareFrameCache w s =
        ({ (recordPicture w { s with m_frameCacheOutOfDate := false } SkPicture.blank).1 with
            m_temp := some temp
            m_tempPict :=
              some (recordPicture w { s with m_frameCacheOutOfDate := false } SkPicture.blank).2 },
          true) := by
  unfold prepareFrameCache
  simp only [h, Bool.not_true, Bool.false_eq_true, if_false]
  rcases hp : recordPicture w { s with m_frameCacheOutOfDate := false } SkPicture.blank with
    ⟨t, tempPict⟩
  simp only
  split
  · exact ⟨_, rfl, rfl⟩
  · split
    · exact ⟨_, rfl, rfl⟩
    · repeat' split
      all_goals exact ⟨_, rfl, rfl⟩

/-- The focus bounds recordPictureSet reads: those of the focused node, or
the empty rectangle at the origin. -/
theorem recordPicture_focus (w : World) (s : WebViewCore) (picture : SkPicture) :
    (recordPicture w s picture).1.m_frameCacheOutOfDate = s.m_frameCacheOutOfDate ∧
    (recordPicture w s picture).1.m_updatedFrameCache = s.m_updatedFrameCache ∧
    (recordPicture w s picture).1.m_lastFocused = s.m_lastFocused ∧
    (recordPicture w s picture).1.m_lastFocusedBounds = s.m_lastFocusedBounds ∧
    (recordPicture w s picture).1.m_domtree_version = s.m_domtree_version :=
  recordPicture_invariant
    (fun t => t.m_frameCacheOutOfDate = s.m_frameCacheOutOfDate ∧
      t.m_updatedFrameCache = s.m_updatedFrameCache ∧ t.m_lastFocused = s.m_lastFocused ∧
      t.m_lastFocusedBounds = s.m_lastFocusedBounds ∧
      t.m_domtree_version = s.m_domtree_version)
    (fun _ _ h => h) (fun _ _ h => h) (fun _ _ h => h) w s picture ⟨rfl, rfl, rfl, rfl, rfl⟩

theorem recordPictureSetFocus_rebuilds (w : World) (cur : Snapshot) (s : WebViewCore) :
    (recordPictureSetFocus w cur s).m_frameCacheOutOfDate = false ∧
    (recordPictureSetFocus w cur s).m_updatedFrameCache = true ∧
    (recordPictureSetFocus w cur s).m_frameCacheKit = (recordPictureSetFocus w cur s).m_temp ∧
    (recordPictureSetFocus w cur s).m_frameCacheKit.map CachedRoot.tree = some w.buildCache ∧
    (recordPictureSetFocus w cur s).m_lastFocused = w.currentFocus ∧
    (recordPictureSetFocus w cur s).m_lastFocusedBounds =
      (match w.currentFocus with
        | some node => w.getRect node
        | none => ⟨0, 0, 0, 0⟩) := by
  obtain ⟨temp, htree, ht⟩ := prepareFrameCache_tree w
    { s with
      m_frameCacheOutOfDate := true
      m_lastFocused := w.currentFocus
      m_lastFocusedBounds :=
        match w.currentFocus with
        | some node => w.getRect node
        | none => ⟨0, 0, 0, 0⟩
      m_domtree_version := if s.m_check_domtree_version then sumDomTreeVersion cur.frame else 0
      m_useReplay := false } rfl
  obtain ⟨f1, -, f3, f4, -⟩ := recordPicture_focus w
    { s with
      m_frameCacheOutOfDate := false
      m_lastFocused := w.currentFocus
      m_lastFocusedBounds :=
        match w.currentFocus with
        | some node => w.getRect node
        | none => ⟨0, 0, 0, 0⟩
      m_domtree_version := if s.m_check_domtree_version then sumDomTreeVersion cur.frame else 0
      m_useReplay := false } SkPicture.blank
  have heq : recordPictureSetFocus w cur s =
      releaseFrameCache (prepareFrameCache w
        { s with
          m_frameCacheOutOfDate := true
          m_lastFocused := w.currentFocus
          m_lastFocusedBounds :=
            match w.currentFocus with
            | some node => w.getRect node
            | none => ⟨0, 0, 0, 0⟩
          m_domtree_version :=
            if s.m_check_domtree_version then sumDomTreeVersion cur.frame else 0
          m_useReplay := false }).1
        (prepareFrameCache w
        { s with
          m_frameCacheOutOfDate := true
          m_lastFocused := w.currentFocus
          m_lastFocusedBounds :=
            match w.currentFocus with
            | some node => w.getRect node
            | none => ⟨0, 0, 0, 0⟩
          m_domtree_version :=
            if s.m_check_domtree_version then sumDomTreeVersion cur.frame else 0
          m_useReplay := false }).2 := rfl
  rw [heq, ht]
  refine ⟨f1, rfl, rfl, ?_, f3, f4⟩
  show (some temp).map CachedRoot.tree = some w.buildCache
  rw [Option.map_some', htree]

/-- C22, as the code has it: a recordPictureSet cycle that gets past its
early returns always marks the frame cache out of date and rebuilds it,
whatever the focus, the find overlay and the version sum say: on return the
flag is cleared again, m_updatedFrameCache is set, the current snapshot is the
one just built from buildCache(), and m_lastFocused and m_lastFocusedBounds
hold the focus read in this cycle. -/
theorem recordPictureSet_always_rebuilds (ops : PictureSetOps) (w : World) (s : WebViewCore)
    (content : PictureSet) (hdoc : w.hasDocument = true) (hpending : s.m_addInval.isEmpty = false)
    (hlayout : ¬ LayoutFails w) :
    (recordPictureSet ops w s content).1.m_frameCacheOutOfDate = false ∧
    (recordPictureSet ops w s content).1.m_updatedFrameCache = true ∧
    (recordPictureSet ops w s content).1.m_frameCacheKit =
      (recordPictureSet ops w s content).1.m_temp ∧
    (recordPictureSet ops w s content).1.m_frameCacheKit.map CachedRoot.tree =
      some w.buildCache ∧
    (recordPictureSet ops w s content).1.m_lastFocused = w.currentFocus ∧
    (recordPictureSet ops w s content).1.m_lastFocusedBounds =
      (match w.currentFocus with
        | some node => w.getRect node
        | none => ⟨0, 0, 0, 0⟩) := by
  rw [recordPictureSet_eq]
  simp only [hdoc, hpending, Bool.not_true, Bool.false_eq_true, if_false]
  unfold LayoutFails at hlayout
  cases h1 : (layoutIfNeededRecursive w.first.frame).1
  · exact absurd (Or.inl h1) hlayout
  · simp only [Bool.not_true, Bool.false_eq_true, if_false]
    cases h2 : w.contentRect.contains (totalRect w.contentRect w.first.frame)
    · simp only [Bool.not_false, if_true]
      cases h3 : (layoutIfNeededRecursive w.resized.frame).1
      · exact absurd (Or.inr ⟨h1, h2, h3⟩) hlayout
      · simp only [Bool.not_true, Bool.false_eq_true, if_false]
        exact recordPictureSetFocus_rebuilds w w.resized _
    · simp only [Bool.not_true, Bool.false_eq_true, if_false]
      exact recordPictureSetFocus_rebuilds w w.first _

/-- C22 witness: the up-to-date fixture on the settled fixture page. -/
theorem recordPictureSet_always_rebuilds_witness :
    (recordPictureSet Fixture.ops Fixture.world Fixture.current
      Fixture.current.m_content).1.m_frameCacheOutOfDate = false ∧
    (recordPictureSet Fixture.ops Fixture.world Fixture.current
      Fixture.current.m_content).1.m_updatedFrameCache = true ∧
    (recordPictureSet Fixture.ops Fixture.world Fixture.current
        Fixture.current.m_content).1.m_frameCacheKit =
      (recordPictureSet Fixture.ops Fixture.world Fixture.current
        Fixture.current.m_content).1.m_temp ∧
    (recordPictureSet Fixture.ops Fixture.world Fixture.current
        Fixture.current.m_content).1.m_frameCacheKit.map CachedRoot.tree =
      some Fixture.world.buildCache ∧
    (recordPictureSet Fixture.ops Fixture.world Fixture.current
        Fixture.current.m_content).1.m_lastFocused = Fixture.world.currentFocus ∧
    (recordPictureSet Fixture.ops Fixture.world Fixture.current
        Fixture.current.m_content).1.m_lastFocusedBounds =
      (match Fixture.world.currentFocus with
        | some node => Fixture.world.getRect node
        | none => ⟨0, 0, 0, 0⟩) :=
  recordPictureSet_always_rebuilds Fixture.ops Fixture.world Fixture.current
    Fixture.current.m_content rfl (by decide) (by unfold LayoutFails; decide)

/-- C22 refuted as stated: on the settled fixture page the focus, its bounds
and the version sum are what the object stored, no find overlay is up, so
`update` is false; the cycle gets past its early returns and still replaces
the frame cache (none before, a snapshot after) and sets m_updatedFrameCache. -/
theorem recordPictureSet_rebuilds_without_update :
    Fixture.world.hasDocument = true ∧
    Fixture.current.m_addInval.isEmpty = false ∧
    (layoutIfNeededRecursive Fixture.world.first.frame).1 = true ∧
    Fixture.current.update Fixture.world.currentFocus ⟨0, 0, 0, 0⟩
      (sumDomTreeVersion Fixture.world.first.frame) = false ∧
    Fixture.current.m_frameCacheKit = none ∧
    Fixture.current.m_updatedFrameCache = false ∧
    (recordPictureSet Fixture.ops Fixture.world Fixture.current
      Fixture.current.m_content).1.m_frameCacheKit ≠ none ∧
    (recordPictureSet Fixture.ops Fixture.world Fixture.current
      Fixture.current.m_content).1.m_updatedFrameCache = true := by
  decide

end WebViewCore

/-! ## The button list (C23, C24 and C29) -/

theorem updateFirstMatch_none (u : Container) (l : List Container)
    (h : ∀ q ∈ l, q.node ≠ u.node) : updateFirstMatch u l = none := by
  induction l with
  | nil => rfl
  | cons p rest ih =>
    have hp : p.node ≠ u.node := h p (List.mem_cons_self _ _)
    have hrest := ih fun q hq => h q (List.mem_cons_of_mem _ hq)
    simp [updateFirstMatch, Container.matchesNode, Ne.symm hp, hrest]

theorem updateFirstMatch_some (u : Container) (pre : List Container) (p : Container)
    (post : List Container) (hpre : ∀ q ∈ pre, q.node ≠ u.node) (hp : p.node = u.node) :
    updateFirstMatch u (pre ++ p :: post) = some (pre ++ p.setRect u.rect :: post) := by
  induction pre with
  | nil => simp [updateFirstMatch, Container.matchesNode, hp]
  | cons q rest ih =>
    have hq : q.node ≠ u.node := hpre q (List.mem_cons_self _ _)
    have hrest := ih fun q hq => hpre q (List.mem_cons_of_mem _ hq)
    simp [updateFirstMatch, Container.matchesNode, Ne.symm hq, hrest]

/-- Every list either has no entry for a node or splits at the first one. -/
theorem split_at_first (n : Node) (l : List Container) :
    (∀ q ∈ l, q.node ≠ n) ∨
      ∃ pre p post, l = pre ++ p :: post ∧ (∀ q ∈ pre, q.node ≠ n) ∧ p.node = n := by
  induction l with
  | nil => exact Or.inl fun _ h => absurd h (List.not_mem_nil _)
  | cons p rest ih =>
    by_cases hp : p.node = n
    · exact Or.inr ⟨[], p, rest, rfl, fun _ h => absurd h (List.not_mem_nil _), hp⟩
    · rcases ih with h | ⟨pre, q, post, rfl, hpre, hq⟩
      · left
        intro q hq
        rcases List.mem_cons.1 hq with rfl | hq
        · exact hp
        · exact h q hq
      · right
        refine ⟨p :: pre, q, post, rfl, ?_, hq⟩
        intro r hr
        rcases List.mem_cons.1 hr with rfl | hr
        · exact hp
        · exact hpre r hr

theorem mergeButton_append (buttons : List Container) (u : Container)
    (h : ∀ q ∈ buttons, q.node ≠ u.node) : mergeButton buttons u = buttons ++ [u] := by
  unfold mergeButton
  rw [updateFirstMatch_none u buttons h]

theorem mergeButton_update (u : Container) (pre : List Container) (p : Container)
    (post : List Container) (hpre : ∀ q ∈ pre, q.node ≠ u.node) (hp : p.node = u.node) :
    mergeButton (pre ++ p :: post) u = pre ++ p.setRect u.rect :: post := by
  unfold mergeButton
  rw [updateFirstMatch_some u pre p post hpre hp]

theorem find?_of_no_match (n : Node) (l : List Container) (h : ∀ q ∈ l, q.node ≠ n) :
    l.find? (fun p => decide (p.node = n)) = none := by
  rw [List.find?_eq_none]
  intro q hq
  simpa using h q hq

theorem mergeButton_find_self (buttons : List Container) (u : Container) :
    ((mergeButton buttons u).find? fun p => decide (p.node = u.node)).map Container.rect =
      some u.rect := by
  rcases split_at_first u.node buttons with h | ⟨pre, p, post, rfl, hpre, hp⟩
  · rw [mergeButton_append buttons u h, List.find?_append, find?_of_no_match _ _ h]
    simp
  · rw [mergeButton_update u pre p post hpre hp, List.find?_append, find?_of_no_match _ _ hpre]
    simp [Container.setRect, hp]

theorem mergeButton_find_other (buttons : List Container) (u : Container) (n : Node)
    (hn : u.node ≠ n) :
    (mergeButton buttons u).find? (fun p => decide (p.node = n)) =
      buttons.find? (fun p => decide (p.node = n)) := by
  rcases split_at_first u.node buttons with h | ⟨pre, p, post, rfl, hpre, hp⟩
  · rw [mergeButton_append buttons u h, List.find?_append]
    simp [hn]
  · rw [mergeButton_update u pre p post hpre hp, List.find?_append, List.find?_append]
    have hpn : p.node ≠ n := hp ▸ hn
    simp [Container.setRect, hpn]

theorem mergeButton_getElem? (buttons : List Container) (u : Container) (i : Nat)
    (p : Container) (hi : buttons[i]? = some p) (hp : p.node ≠ u.node) :
    (mergeButton buttons u)[i]? = some p := by
  rcases split_at_first u.node buttons with h | ⟨pre, q, post, rfl, hpre, hq⟩
  · rw [mergeButton_append buttons u h]
    have hlt : i < buttons.length := by
      rcases Nat.lt_or_ge i buttons.length with h | h
      · exact h
      · rw [List.getElem?_eq_none h] at hi
        exact absurd hi (by simp)
    rw [List.getElem?_append_left hlt]
    exact hi
  · rw [mergeButton_update u pre q post hpre hq]
    rcases Nat.lt_trichotomy i pre.length with hlt | heq | hgt
    · rw [List.getElem?_append_left hlt] at hi ⊢
      exact hi
    · subst heq
      rw [getElem?_append_cons] at hi
      cases hi
      exact absurd hq hp
    · rw [List.getElem?_append_right (Nat.le_of_lt hgt)] at hi ⊢
      obtain ⟨k, hk⟩ : ∃ k, i - pre.length = k + 1 := ⟨i - pre.length - 1, by omega⟩
      rw [hk] at hi ⊢
      exact hi

theorem mergeButton_length (buttons : List Container) (u : Container) :
    buttons.length ≤ (mergeButton buttons u).length ∧
      (mergeButton buttons u).length ≤ buttons.length + 1 := by
  rcases split_at_first u.node buttons with h | ⟨pre, p, post, rfl, hpre, hp⟩
  · rw [mergeButton_append buttons u h]
    simp
  · rw [mergeButton_update u pre p post hpre hp]
    simp

theorem mergeButton_nodes (buttons : List Container) (u : Container) :
    (mergeButton buttons u).map Container.node =
      if u.node ∈ buttons.map Container.node then buttons.map Container.node
      else buttons.map Container.node ++ [u.node] := by
  rcases split_at_first u.node buttons with h | ⟨pre, p, post, rfl, hpre, hp⟩
  · rw [mergeButton_append buttons u h]
    have : u.node ∉ buttons.map Container.node := by
      intro hmem
      obtain ⟨q, hq, hqn⟩ := List.mem_map.1 hmem
      exact h q hq hqn
    simp [this]
  · rw [mergeButton_update u pre p post hpre hp]
    have : u.node ∈ (pre ++ p :: post).map Container.node :=
      List.mem_map.2 ⟨p, by simp, hp⟩
    rw [if_pos this]
    simp [Container.setRect]

theorem lastRectFor_append_self (us : List Container) (u : Container) :
    lastRectFor (us ++ [u]) u.node = some u.rect := by
  simp [lastRectFor]

theorem lastRectFor_append_other (us : List Container) (u : Container) (n : Node)
    (hn : u.node ≠ n) : lastRectFor (us ++ [u]) n = lastRectFor us n := by
  simp [lastRectFor, hn]

theorem foldl_mergeButton_find (updated : List Container) (m_buttons : List Container) :
    ∀ u ∈ updated,
      ((updated.foldl mergeButton m_buttons).find? fun p => decide (p.node = u.node)).map
        Container.rect = lastRectFor updated u.node := by
  induction updated using List.reverseRecOn with
  | nil => intro u hu; exact absurd hu (List.not_mem_nil _)
  | append_singleton us v ih =>
    intro u hu
    rw [List.foldl_append, List.foldl_cons, List.foldl_nil]
    by_cases hv : v.node = u.node
    · rw [← hv, mergeButton_find_self, lastRectFor_append_self]
    · rw [mergeButton_find_other _ _ _ hv, lastRectFor_append_other _ _ _ hv]
      rcases List.mem_append.1 hu with h | h
      · exact ih u h
      · rw [List.mem_singleton] at h
        exact absurd (h ▸ rfl) hv

theorem foldl_mergeButton_getElem? (updated : List Container) (m_buttons : List Container)
    (i : Nat) (p : Container) (hi : m_buttons[i]? = some p)
    (hp : ∀ u ∈ updated, u.node ≠ p.node) :
    (updated.foldl mergeButton m_buttons)[i]? = some p := by
  induction updated generalizing m_buttons with
  | nil => exact hi
  | cons u rest ih =>
    rw [List.foldl_cons]
    apply ih
    · exact mergeButton_getElem? m_buttons u i p hi (hp u (List.mem_cons_self _ _)).symm
    · exact fun v hv => hp v (List.mem_cons_of_mem _ hv)

theorem foldl_mergeButton_length (updated : List Container) (m_buttons : List Container) :
    m_buttons.length ≤ (updated.foldl mergeButton m_buttons).length ∧
      (updated.foldl mergeButton m_buttons).length ≤ m_buttons.length + updated.length := by
  induction updated generalizing m_buttons with
  | nil => simp
  | cons u rest ih =>
    rw [List.foldl_cons, List.length_cons]
    have h1 := mergeButton_length m_buttons u
    have h2 := ih (mergeButton m_buttons u)
    omega

theorem foldl_mergeButton_nodup (updated : List Container) (m_buttons : List Container)
    (h : (m_buttons.map Container.node).Nodup) :
    ((updated.foldl mergeButton m_buttons).map Container.node).Nodup := by
  induction updated generalizing m_buttons with
  | nil => exact h
  | cons u rest ih =>
    rw [List.foldl_cons]
    apply ih
    rw [mergeButton_nodes]
    split
    · exact h
    · rename_i hmem
      rw [List.nodup_append]
      refine ⟨h, List.nodup_singleton _, ?_⟩
      intro a ha hb
      rw [List.mem_singleton] at hb
      exact hmem (hb ▸ ha)

/-- The removal loop on a list whose first entries are known to stay. -/
theorem removeLoop_spec (fuel : Nat) :
    ∀ (pre rest : List Container), rest.length ≤ fuel →
      (∀ b ∈ pre, b.canBeRemoved = false) →
      (∀ b ∈ removeLoop fuel pre.length (pre ++ rest), b.canBeRemoved = false) ∧
      (removeLoop fuel pre.length (pre ++ rest)).Perm
        (pre ++ rest.filter fun b => !b.canBeRemoved) ∧
      removeLoop fuel pre.length (pre ++ rest) =
        removeLoop rest.length pre.length (pre ++ rest) := by
  induction fuel with
  | zero =>
    intro pre rest hlen hpre
    have : rest = [] := List.eq_nil_of_length_eq_zero (Nat.le_zero.1 hlen)
    subst this
    simp only [removeLoop, List.append_nil, List.filter_nil, List.length_nil]
    exact ⟨hpre, List.Perm.refl _, trivial⟩
  | succ fuel ih =>
    intro pre rest hlen hpre
    cases rest with
    | nil =>
      have hnone : pre[pre.length]? = none := List.getElem?_eq_none (Nat.le_refl _)
      have hexit : removeLoop (fuel + 1) pre.length pre = pre := by
        simp only [removeLoop, hnone]
      rw [List.append_nil, hexit]
      exact ⟨hpre, by simp, rfl⟩
    | cons b post =>
      have hsome : (pre ++ b :: post)[pre.length]? = some b := getElem?_append_cons pre b post
      have hlen' : post.length ≤ fuel := by simpa using hlen
      cases hb : b.canBeRemoved
      · -- the entry stays and the index moves on
        have hstep : ∀ f, removeLoop (f + 1) pre.length (pre ++ b :: post) =
            removeLoop f (pre ++ [b]).length ((pre ++ [b]) ++ post) := by
          intro f
          simp only [removeLoop, hsome, hb, Bool.false_eq_true, if_false, List.length_append,
            List.length_singleton, List.append_assoc, List.singleton_append]
        have hpre' : ∀ c ∈ pre ++ [b], c.canBeRemoved = false := by
          intro c hc
          rcases List.mem_append.1 hc with h | h
          · exact hpre c h
          · rw [List.mem_singleton] at h
            rw [h]
            exact hb
        obtain ⟨h1, h2, h3⟩ := ih (pre ++ [b]) post hlen' hpre'
        obtain ⟨-, -, h3'⟩ := ih (pre ++ [b]) post hlen' hpre'
        rw [hstep fuel]
        refine ⟨h1, ?_, ?_⟩
        · simpa [List.filter_cons, hb] using h2
        · rw [List.length_cons, hstep post.length]
          exact h3
      · -- the entry is replaced by the last one, which is dropped
        rcases List.eq_nil_or_concat post with hpost | ⟨mid, l, hpost⟩
        · subst hpost
          have hstep : ∀ f, removeLoop (f + 1) pre.length (pre ++ [b]) =
              removeLoop f pre.length (pre ++ []) := by
            intro f
            have hlast : (pre ++ [b]).getLast? = some b := by simp
            have hset : ((pre ++ [b]).set pre.length b).dropLast = pre := by
              rw [List.set_append_right _ _ (Nat.le_refl _), Nat.sub_self]
              simp
            simp only [removeLoop, hsome, hb, if_true, hlast, hset, List.append_nil]
          obtain ⟨h1, h2, h3⟩ := ih pre [] (Nat.zero_le _) hpre
          rw [hstep fuel]
          refine ⟨h1, ?_, ?_⟩
          · simpa [List.filter_cons, hb] using h2
          · rw [List.length_singleton, hstep 0]
            exact h3
        · rw [List.concat_eq_append] at hpost
          subst hpost
          have hstep : ∀ f, removeLoop (f + 1) pre.length (pre ++ b :: (mid ++ [l])) =
              removeLoop f pre.length (pre ++ l :: mid) := by
            intro f
            have hlast : (pre ++ b :: (mid ++ [l])).getLast? = some l := by
              rw [show pre ++ b :: (mid ++ [l]) = (pre ++ b :: mid) ++ [l] by simp]
              exact List.getLast?_concat _
            have hset : ((pre ++ b :: (mid ++ [l])).set pre.length l).dropLast =
                pre ++ l :: mid := by
              rw [List.set_append_right _ _ (Nat.le_refl _), Nat.sub_self, List.set_cons_zero,
                show pre ++ l :: (mid ++ [l]) = (pre ++ l :: mid) ++ [l] by simp,
                List.dropLast_concat]
            simp only [removeLoop, hsome, hb, if_true, hlast, hset]
          have hmid : (l :: mid).length ≤ fuel := by
            simpa using hlen'
          obtain ⟨h1, h2, h3⟩ := ih pre (l :: mid) hmid hpre
          rw [hstep fuel]
          refine ⟨h1, ?_, ?_⟩
          · refine h2.trans (List.Perm.append_left pre ?_)
            have hf : (b :: (mid ++ [l])).filter (fun b => !b.canBeRemoved) =
                (mid ++ [l]).filter (fun b => !b.canBeRemoved) :=
              List.filter_cons_of_neg (by simp [hb])
            rw [hf]
            exact (List.Perm.filter _ (List.perm_append_singleton l mid).symm)
          · have hl : (b :: (mid ++ [l])).length = (l :: mid).length + 1 := by simp
            rw [hl, hstep (l :: mid).length]
            exact h3

/-- C23: button merge, update or append. updateButtonList runs the removal
loop on the list that merging the updated entries one by one gives. One
merge step on a list that holds an entry for the node of `u` gives the first
such entry the rectangle of `u` and appends nothing; on a list without such an
entry it appends `u`. After all steps the first entry for the node of every
updated entry has the rectangle of the last updated entry for that node, the
entries of m_buttons whose node is not updated are where and what they were,
and the list has grown by at most the number of updated entries. -/
theorem updateButtonList_merges (m_buttons updated : List Container) :
    updateButtonList m_buttons updated =
      removeLoop (updated.foldl mergeButton m_buttons).length 0
        (updated.foldl mergeButton m_buttons) ∧
    (∀ (pre : List Container) (p : Container) (post : List Container) (u : Container),
      (∀ q ∈ pre, q.node ≠ u.node) → p.node = u.node →
      mergeButton (pre ++ p :: post) u = pre ++ p.setRect u.rect :: post) ∧
    (∀ (buttons : List Container) (u : Container),
      (∀ q ∈ buttons, q.node ≠ u.node) → mergeButton buttons u = buttons ++ [u]) ∧
    (∀ u ∈ updated,
      ((updated.foldl mergeButton m_buttons).find? fun p => decide (p.node = u.node)).map
        Container.rect = lastRectFor updated u.node) ∧
    (∀ (i : Nat) (p : Container), m_buttons[i]? = some p →
      (∀ u ∈ updated, u.node ≠ p.node) →
      (updated.foldl mergeButton m_buttons)[i]? = some p) ∧
    m_buttons.length ≤ (updated.foldl mergeButton m_buttons).length ∧
    (updated.foldl mergeButton m_buttons).length ≤ m_buttons.length + updated.length :=
  ⟨rfl, fun pre p post u hpre hp => mergeButton_update u pre p post hpre hp,
    fun buttons u h => mergeButton_append buttons u h,
    foldl_mergeButton_find updated m_buttons,
    fun i p hi hp => foldl_mergeButton_getElem? updated m_buttons i p hi hp,
    (foldl_mergeButton_length updated m_buttons).1,
    (foldl_mergeButton_length updated m_buttons).2⟩

/-- C24: no removable overlay survives a cycle. After updateButtonList no entry
of the list can be removed, the list is a permutation of the merged entries
that cannot be removed (each kept exactly once), and the removal loop has run
to its exit: any number of rounds from the length of the merged list on gives
the same list. -/
theorem updateButtonList_drops_removable (m_buttons updated : List Container) :
    (∀ b ∈ updateButtonList m_buttons updated, b.canBeRemoved = false) ∧
    (updateButtonList m_buttons updated).Perm
      ((updated.foldl mergeButton m_buttons).filter fun b => !b.canBeRemoved) ∧
    (∀ fuel, (updated.foldl mergeButton m_buttons).length ≤ fuel →
      removeLoop fuel 0 (updated.foldl mergeButton m_buttons) =
        updateButtonList m_buttons updated) := by
  have hspec := fun fuel h => removeLoop_spec fuel [] (updated.foldl mergeButton m_buttons) h
    (fun _ hb => absurd hb (List.not_mem_nil _))
  simp only [List.length_nil, List.nil_append] at hspec
  obtain ⟨h1, h2, -⟩ := hspec _ (Nat.le_refl _)
  exact ⟨h1, h2, fun fuel hfuel => (hspec fuel hfuel).2.2⟩

/-- C29: updateButtonList preserves node uniqueness. If no two entries of
m_buttons reference the same node, no two entries do afterwards, for every
updated list, also one that repeats a node. -/
theorem updateButtonList_keeps_nodes_distinct (m_buttons updated : List Container)
    (h : (m_buttons.map Container.node).Nodup) :
    ((updateButtonList m_buttons updated).map Container.node).Nodup := by
  have hmerged := foldl_mergeButton_nodup updated m_buttons h
  have hperm := (removeLoop_spec (updated.foldl mergeButton m_buttons).length []
    (updated.foldl mergeButton m_buttons) (Nat.le_refl _)
    (fun _ hb => absurd hb (List.not_mem_nil _))).2.1
  simp only [List.length_nil, List.nil_append] at hperm
  have hsub : (((updated.foldl mergeButton m_buttons).filter fun b => !b.canBeRemoved).map
      Container.node).Sublist ((updated.foldl mergeButton m_buttons).map Container.node) :=
    (List.filter_sublist _).map _
  exact ((hperm.map Container.node).nodup_iff).2 (hmerged.sublist hsub)

/-- C29 witness: three buttons, an update that names node 4 twice. -/
theorem updateButtonList_keeps_nodes_distinct_witness :
    (Fixture.buttons.map Container.node).Nodup ∧
    ((updateButtonList Fixture.buttons Fixture.updatedButtons).map Container.node).Nodup :=
  ⟨by decide, updateButtonList_keeps_nodes_distinct Fixture.buttons Fixture.updatedButtons
    (by decide)⟩

/-- The fixture update, worked out: node 3 moves, node 4 is added once with
its last rectangle, the removable button of node 2 is gone. -/
theorem updateButtonList_example :
    updateButtonList Fixture.buttons Fixture.updatedButtons =
      [⟨1, ⟨0, 0, 10, 10⟩, false⟩, ⟨4, ⟨0, 61, 10, 10⟩, false⟩, ⟨3, ⟨5, 40, 10, 10⟩, false⟩] := by
  decide

/-! ## The total content rectangle (C25 and C26) -/

theorem foldl_owner_offset (sel : RenderPart → Int) (ancestors : List Frame) (start : Int)
    (hstart : fitsInt start) :
    ancestors.foldl
      (fun acc parent => match parent.ownerRenderer with
        | some parentOwner => wrapInt (acc + sel parentOwner)
        | none => acc) start =
      wrapInt (start + ((ancestors.filterMap Frame.ownerRenderer).map sel).sum) := by
  induction ancestors generalizing start with
  | nil => simp [wrapInt_of_fits _ hstart]
  | cons parent rest ih =>
    rw [List.foldl_cons]
    cases h : parent.ownerRenderer with
    | none =>
      simp only [List.filterMap_cons, h]
      exact ih start hstart
    | some o =>
      simp only [List.filterMap_cons, h, List.map_cons, List.sum_cons]
      rw [ih _ (wrapInt_fits _), wrapInt_add_left, Int.add_assoc]

/-- The rectangle of a sub-frame whose owner has `int` coordinates: the
owner's rectangle moved by the sums of the x and of the y of the owners of
its ancestors, each edge taken as an `int`. -/
theorem frameRect_eq (frame : Frame) (ancestors : List Frame) (owner : RenderPart)
    (h : frame.ownerRenderer = some owner) (hx : fitsInt owner.x) (hy : fitsInt owner.y) :
    frameRect frame ancestors =
      some ⟨wrapInt (owner.x + ownersX ancestors), wrapInt (owner.y + ownersY ancestors),
        wrapInt (owner.x + ownersX ancestors + owner.width),
        wrapInt (owner.y + ownersY ancestors + owner.height)⟩ := by
  have ex := foldl_owner_offset RenderPart.x ancestors owner.x hx
  have ey := foldl_owner_offset RenderPart.y ancestors owner.y hy
  have eq : frameRect frame ancestors =
      some ⟨wrapInt (owner.x + ownersX ancestors), wrapInt (owner.y + ownersY ancestors),
        wrapInt (wrapInt (owner.x + ownersX ancestors) + owner.width),
        wrapInt (wrapInt (owner.y + ownersY ancestors) + owner.height)⟩ := by
    unfold frameRect ownersX ownersY
    simp only [h, Option.some.injEq, SkIRect.mk.injEq]
    exact ⟨ex, ey, congrArg (fun v => wrapInt (v + owner.width)) ex,
      congrArg (fun v => wrapInt (v + owner.height)) ey⟩
  rw [eq, wrapInt_add_left, wrapInt_add_left]

theorem frameRect_none (frame : Frame) (ancestors : List Frame)
    (h : frame.ownerRenderer = none) : frameRect frame ancestors = none := by
  unfold frameRect
  simp only [h]

theorem join_of_intersects (t r : SkIRect) (h : SkIRect.Intersects t r = true) :
    t.isEmpty = false ∧ r.isEmpty = false ∧
    t.join r.fLeft r.fTop r.fRight r.fBottom =
      ⟨min t.fLeft r.fLeft, min t.fTop r.fTop, max t.fRight r.fRight, max t.fBottom r.fBottom⟩
    := by
  unfold SkIRect.Intersects at h
  simp only [Bool.and_eq_true, Bool.not_eq_true', decide_eq_true_eq] at h
  obtain ⟨⟨⟨⟨⟨ht, hr⟩, -⟩, -⟩, -⟩, -⟩ := h
  refine ⟨ht, hr, ?_⟩
  unfold SkIRect.isEmpty at ht hr
  simp only [Bool.or_eq_false_iff, decide_eq_false_iff_not, not_le] at ht hr
  unfold SkIRect.join
  rw [if_neg (by omega), if_neg (by omega)]

theorem joinFrame_grows (t : SkIRect) (entry : Frame × List Frame) :
    (joinFrame t entry).fLeft ≤ t.fLeft ∧ (joinFrame t entry).fTop ≤ t.fTop ∧
    t.fRight ≤ (joinFrame t entry).fRight ∧ t.fBottom ≤ (joinFrame t entry).fBottom ∧
    (t.isEmpty = false → (joinFrame t entry).isEmpty = false) := by
  unfold joinFrame
  split
  · exact ⟨Int.le_refl _, Int.le_refl _, Int.le_refl _, Int.le_refl _, fun h => h⟩
  · rename_i r hr
    split
    · rename_i hi
      obtain ⟨ht, -, hj⟩ := join_of_intersects t r hi
      rw [hj]
      refine ⟨min_le_left _ _, min_le_left _ _, le_max_left _ _, le_max_left _ _, fun _ => ?_⟩
      unfold SkIRect.isEmpty at ht ⊢
      simp only [Bool.or_eq_false_iff, decide_eq_false_iff_not, not_le] at ht ⊢
      constructor
      · exact lt_of_le_of_lt (min_le_left _ _) (lt_of_lt_of_le ht.1 (le_max_left _ _))
      · exact lt_of_le_of_lt (min_le_left _ _) (lt_of_lt_of_le ht.2 (le_max_left _ _))
    · exact ⟨Int.le_refl _, Int.le_refl _, Int.le_refl _, Int.le_refl _, fun h => h⟩

theorem foldl_joinFrame_grows (entries : List (Frame × List Frame)) (t : SkIRect) :
    (entries.foldl joinFrame t).fLeft ≤ t.fLeft ∧ (entries.foldl joinFrame t).fTop ≤ t.fTop ∧
    t.fRight ≤ (entries.foldl joinFrame t).fRight ∧
    t.fBottom ≤ (entries.foldl joinFrame t).fBottom := by
  induction entries generalizing t with
  | nil => exact ⟨Int.le_refl _, Int.le_refl _, Int.le_refl _, Int.le_refl _⟩
  | cons e rest ih =>
    rw [List.foldl_cons]
    obtain ⟨a1, a2, a3, a4, -⟩ := joinFrame_grows t e
    obtain ⟨b1, b2, b3, b4⟩ := ih (joinFrame t e)
    exact ⟨Int.le_trans b1 a1, Int.le_trans b2 a2, Int.le_trans a3 b3, Int.le_trans a4 b4⟩

theorem contains_join (c t r : SkIRect) (ht : t.isEmpty = false) (hr : r.isEmpty = false) :
    c.contains ⟨min t.fLeft r.fLeft, min t.fTop r.fTop, max t.fRight r.fRight,
        max t.fBottom r.fBottom⟩ = (c.contains t && c.contains r) := by
  unfold SkIRect.contains
  have hj : (⟨min t.fLeft r.fLeft, min t.fTop r.fTop, max t.fRight r.fRight,
      max t.fBottom r.fBottom⟩ : SkIRect).isEmpty = false := by
    unfold SkIRect.isEmpty at ht ⊢
    simp only [Bool.or_eq_false_iff, decide_eq_false_iff_not, not_le] at ht ⊢
    constructor
    · exact lt_of_le_of_lt (min_le_left _ _) (lt_of_lt_of_le ht.1 (le_max_left _ _))
    · exact lt_of_le_of_lt (min_le_left _ _) (lt_of_lt_of_le ht.2 (le_max_left _ _))
  rw [hj, ht, hr]
  cases hc : c.isEmpty
  · simp only [Bool.not_false, Bool.true_and]
    rw [Bool.eq_iff_iff]
    simp only [Bool.and_eq_true, decide_eq_true_eq, ge_iff_le, le_min_iff, max_le_iff]
    tauto
  · simp

theorem contains_foldl_joinFrame (c : SkIRect) (entries : List (Frame × List Frame))
    (t : SkIRect) (ht : t.isEmpty = false) :
    c.contains (entries.foldl joinFrame t) = true ↔
      c.contains t = true ∧ ∀ r ∈ mergedRects t entries, c.contains r = true := by
  induction entries generalizing t with
  | nil => simp [mergedRects]
  | cons e rest ih =>
    rw [List.foldl_cons, ih _ ((joinFrame_grows t e).2.2.2.2 ht)]
    unfold joinFrame
    rw [mergedRects]
    cases hf : frameRect e.1 e.2 with
    | none => simp only
    | some r =>
      simp only
      cases hi : SkIRect.Intersects t r
      · simp only [Bool.false_eq_true, if_false]
      · simp only [if_true]
        obtain ⟨-, hr, hj⟩ := join_of_intersects t r hi
        rw [hj, contains_join c t r ht hr]
        simp only [Bool.and_eq_true, List.mem_cons, forall_eq_or_imp]
        rw [← hj]
        tauto

namespace WebViewCore

theorem contentInvalidate_resizeLog (s : WebViewCore) (r : IntRect) :
    (s.contentInvalidate r).log.filter Event.isResizeStep =
      s.log.filter Event.isResizeStep := by
  unfold contentInvalidate
  split
  · rfl
  · by_cases h : s.m_skipContentDraw = true <;>
      simp [h, contentDraw, emit, List.filter_append, Event.isResizeStep]

theorem foldl_contentInvalidate_resizeLog (invals : List IntRect) (s : WebViewCore) :
    (invals.foldl contentInvalidate s).log.filter Event.isResizeStep =
      s.log.filter Event.isResizeStep := by
  induction invals generalizing s with
  | nil => rfl
  | cons r rest ih => exact (ih _).trans (contentInvalidate_resizeLog s r)

theorem layoutPass_resizeLog (s : WebViewCore) (frame : Frame) :
    (s.layoutPass frame).1.log.filter Event.isResizeStep = s.log.filter Event.isResizeStep :=
  foldl_contentInvalidate_resizeLog _ s

theorem recordPicture_resizeLog (w : World) (s : WebViewCore) (picture : SkPicture) :
    (recordPicture w s picture).1.log.filter Event.isResizeStep =
      s.log.filter Event.isResizeStep := by
  unfold recordPicture
  split
  · rfl
  · have h := layoutPass_resizeLog s w.nav.frame
    rcases hp : s.layoutPass w.nav.frame with ⟨t, success⟩
    rw [hp] at h
    cases success
    · simpa using h
    · exact h

theorem updateFrameCache_resizeLog (w : World) (s : WebViewCore) :
    (updateFrameCache w s).log.filter Event.isResizeStep = s.log.filter Event.isResizeStep := by
  have heq : updateFrameCache w s =
      releaseFrameCache (prepareFrameCache w { s with m_useReplay := false }).1
        (prepareFrameCache w { s with m_useReplay := false }).2 := rfl
  rw [heq]
  rcases Bool.eq_false_or_eq_true s.m_frameCacheOutOfDate with h | h
  · obtain ⟨temp, ht⟩ := prepareFrameCache_outOfDate w { s with m_useReplay := false } h
    rw [ht]
    exact recordPicture_resizeLog w
      { s with m_useReplay := false, m_frameCacheOutOfDate := false } SkPicture.blank
  · rw [prepareFrameCache_upToDate w { s with m_useReplay := false } h]
    rfl

theorem recordPictureSetFocus_resizeLog (w : World) (cur : Snapshot) (s : WebViewCore) :
    (recordPictureSetFocus w cur s).log.filter Event.isResizeStep =
      s.log.filter Event.isResizeStep := by
  unfold recordPictureSetFocus
  dsimp only
  simp only [Bool.false_and, Bool.false_eq_true, if_false]
  exact updateFrameCache_resizeLog w
    { s with
      m_frameCacheOutOfDate := true
      m_lastFocused := w.currentFocus
      m_lastFocusedBounds :=
        match w.currentFocus with
        | some node => w.getRect node
        | none => ⟨0, 0, 0, 0⟩
      m_domtree_version := if s.m_check_domtree_version then sumDomTreeVersion cur.frame else 0 }

theorem rebuildPictureSet_log (w : World) (cur : Snapshot) (s : WebViewCore) (p : PictureSet) :
    (rebuildPictureSet w cur s p).1.log = s.log := by
  unfold rebuildPictureSet
  generalize List.range p.size = indices
  have : ∀ (acc : WebViewCore × PictureSet),
      (indices.foldl (rebuildTile w cur) acc).1.log = acc.1.log := by
    induction indices with
    | nil => intro acc; rfl
    | cons i rest ih =>
      intro acc
      rw [List.foldl_cons, ih]
      unfold rebuildTile
      split <;> rfl
  exact this (s, p)

theorem recordPictureSetTiles_log (ops : PictureSetOps) (w : World) (cur : Snapshot)
    (s : WebViewCore) (content : PictureSet) (width height : Int) :
    (recordPictureSetTiles ops w cur s content width height).1.log = s.log := by
  have hb : ∀ (t : WebViewCore) (c : PictureSet), (buildAndRebuild ops w cur t c).1.log = t.log := by
    intro t c
    unfold buildAndRebuild
    dsimp only
    split
    · exact rebuildPictureSet_log w cur _ _
    · rfl
  rw [recordPictureSetTiles_eq]
  split
  · rw [hb]
    rfl
  · rw [hb]

theorem afterFirstPass_resizeLog (w : World) (s : WebViewCore) :
    (s.afterFirstPass w).log.filter Event.isResizeStep = s.log.filter Event.isResizeStep :=
  layoutPass_resizeLog { s with m_skipContentDraw := true } w.first.frame

theorem afterResize_resizeLog (w : World) (s : WebViewCore) (total : SkIRect) :
    (s.afterResize w total).log.filter Event.isResizeStep =
      s.log.filter Event.isResizeStep ++
        [Event.viewResize total.width total.height, Event.setNeedsLayoutAndPrefWidthsRecalc,
          Event.forceLayout] := by
  unfold afterResize
  have h1 := layoutPass_resizeLog
    { ((w.forceLayoutInvals.foldl contentInvalidate
          (((s.afterFirstPass w).emit (.viewResize total.width total.height)).emit
            .setNeedsLayoutAndPrefWidthsRecalc)).emit .forceLayout) with
        m_skipContentDraw := true } w.resized.frame
  have h2 := foldl_contentInvalidate_resizeLog w.forceLayoutInvals
    (((s.afterFirstPass w).emit (.viewResize total.width total.height)).emit
      .setNeedsLayoutAndPrefWidthsRecalc)
  have h3 := afterFirstPass_resizeLog w s
  show ((_ : WebViewCore × Bool).1).log.filter Event.isResizeStep = _
  rw [h1]
  show ((List.foldl contentInvalidate _ w.forceLayoutInvals).log ++ [Event.forceLayout]).filter
    Event.isResizeStep = _
  rw [List.filter_append, h2]
  simp only [emit, List.filter_append, h3]
  simp [Event.isResizeStep]

/-- A rectangle that intersects `c` intersects every rectangle around `c`. -/
theorem intersects_of_covers (c t r : SkIRect)
    (hc : t.fLeft ≤ c.fLeft ∧ t.fTop ≤ c.fTop ∧ c.fRight ≤ t.fRight ∧ c.fBottom ≤ t.fBottom)
    (h : SkIRect.Intersects c r = true) : SkIRect.Intersects t r = true := by
  unfold SkIRect.Intersects SkIRect.isEmpty at h ⊢
  simp only [Bool.and_eq_true, Bool.not_eq_true', Bool.or_eq_false_iff, decide_eq_false_iff_not,
    decide_eq_true_eq, not_le] at h ⊢
  omega

theorem mem_mergedRects (c : SkIRect) (entries : List (Frame × List Frame)) (t : SkIRect)
    (hc : t.fLeft ≤ c.fLeft ∧ t.fTop ≤ c.fTop ∧ c.fRight ≤ t.fRight ∧ c.fBottom ≤ t.fBottom)
    (entry : Frame × List Frame) (hentry : entry ∈ entries) (r : SkIRect)
    (hr : frameRect entry.1 entry.2 = some r) (hi : SkIRect.Intersects c r = true) :
    r ∈ mergedRects t entries := by
  induction entries generalizing t with
  | nil => exact absurd hentry (List.not_mem_nil _)
  | cons e rest ih =>
    rw [mergedRects]
    rcases List.mem_cons.1 hentry with he | he
    · subst he
      simp only [hr, intersects_of_covers c t r hc hi, if_true]
      exact List.mem_cons_self _ _
    · cases hf : frameRect e.1 e.2 with
      | none => exact ih t hc he
      | some r' =>
        simp only
        cases hi' : SkIRect.Intersects t r'
        · simp only [Bool.false_eq_true, if_false]
          exact ih t hc he
        · simp only [if_true]
          apply List.mem_cons_of_mem
          apply ih _ _ he
          obtain ⟨-, -, hj⟩ := join_of_intersects t r' hi'
          rw [hj]
          obtain ⟨a1, a2, a3, a4⟩ := hc
          exact ⟨le_trans (min_le_left _ _) a1, le_trans (min_le_left _ _) a2,
            le_trans a3 (le_max_left _ _), le_trans a4 (le_max_left _ _)⟩

theorem mergedRects_sub (entries : List (Frame × List Frame)) (t r : SkIRect)
    (h : r ∈ mergedRects t entries) :
    ∃ entry ∈ entries, frameRect entry.1 entry.2 = some r := by
  induction entries generalizing t with
  | nil => exact absurd h (List.not_mem_nil _)
  | cons e rest ih =>
    rw [mergedRects] at h
    cases hf : frameRect e.1 e.2 with
    | none =>
      simp only [hf] at h
      obtain ⟨entry, he, hr⟩ := ih t h
      exact ⟨entry, List.mem_cons_of_mem _ he, hr⟩
    | some r' =>
      simp only [hf] at h
      cases hi' : SkIRect.Intersects t r'
      · simp only [hi', Bool.false_eq_true, if_false] at h
        obtain ⟨entry, he, hr⟩ := ih t h
        exact ⟨entry, List.mem_cons_of_mem _ he, hr⟩
      · simp only [hi', if_true] at h
        rcases List.mem_cons.1 h with h | h
        · exact ⟨e, List.mem_cons_self _ _, h ▸ hf⟩
        · obtain ⟨entry, he, hr⟩ := ih _ h
          exact ⟨entry, List.mem_cons_of_mem _ he, hr⟩

/-- Every rectangle the loop joins lies inside the total at the end. -/
theorem mergedRects_covered (entries : List (Frame × List Frame)) (t r : SkIRect)
    (h : r ∈ mergedRects t entries) :
    (entries.foldl joinFrame t).fLeft ≤ r.fLeft ∧ (entries.foldl joinFrame t).fTop ≤ r.fTop ∧
    r.fRight ≤ (entries.foldl joinFrame t).fRight ∧
    r.fBottom ≤ (entries.foldl joinFrame t).fBottom := by
  induction entries generalizing t with
  | nil => exact absurd h (List.not_mem_nil _)
  | cons e rest ih =>
    rw [mergedRects] at h
    rw [List.foldl_cons]
    cases hf : frameRect e.1 e.2 with
    | none =>
      have hstep : joinFrame t e = t := by
        unfold joinFrame
        simp only [hf]
      simp only [hf] at h
      rw [hstep]
      exact ih t h
    | some r' =>
      simp only [hf] at h
      cases hi' : SkIRect.Intersects t r'
      · have hstep : joinFrame t e = t := by
          unfold joinFrame
          simp only [hf, hi', Bool.false_eq_true, if_false]
        simp only [hi', Bool.false_eq_true, if_false] at h
        rw [hstep]
        exact ih t h
      · have hstep : joinFrame t e = t.join r'.fLeft r'.fTop r'.fRight r'.fBottom := by
          unfold joinFrame
          simp only [hf, hi', if_true]
        simp only [hi', if_true] at h
        rw [hstep]
        rcases List.mem_cons.1 h with h | h
        · subst h
          obtain ⟨g1, g2, g3, g4⟩ := foldl_joinFrame_grows rest
            (t.join r.fLeft r.fTop r.fRight r.fBottom)
          obtain ⟨-, -, hj⟩ := join_of_intersects t r hi'
          rw [hj] at g1 g2 g3 g4 ⊢
          exact ⟨le_trans g1 (min_le_right t.fLeft r.fLeft),
            le_trans g2 (min_le_right t.fTop r.fTop),
            le_trans (le_max_right t.fRight r.fRight) g3,
            le_trans (le_max_right t.fBottom r.fBottom) g4⟩
        · exact ih _ h

/-- C25: the total content rectangle. The loop takes the sub-frames in the
order of traverseNext(): the children of a frame one after the other, each
followed by what lies below it, each with its chain of parent frames.
`total` starts as the content rectangle. A frame without owner leaves it
alone. For a frame with an owner the frame rectangle is the owner's rectangle
moved by the sum of the x and of the y of the owners of all its ancestors (as
`int`s; exactly that rectangle when the four edges are `int`s); it is joined
into the running total (smallest rectangle around both) when it intersects
the running total, and leaves the total unchanged when it does not. The
total never loses an edge: it reaches at least as far as the content
rectangle on all four sides and holds every point of it, and it reaches
around every sub-frame rectangle that intersects the content rectangle. -/
theorem totalRect_joins_intersecting_frames (contentRect : SkIRect) (mainFrame : Frame) :
    (∀ (ancestors : List Frame) (frame : Frame),
      traverseBelow ancestors frame =
        frame.children.flatMap fun child =>
          (child, frame :: ancestors) :: traverseBelow (frame :: ancestors) child) ∧
    totalRect contentRect mainFrame =
      (traverseBelow [] mainFrame).foldl joinFrame contentRect ∧
    (∀ (total : SkIRect) (frame : Frame) (ancestors : List Frame),
      frame.ownerRenderer = none → joinFrame total (frame, ancestors) = total) ∧
    (∀ (frame : Frame) (ancestors : List Frame) (owner : RenderPart),
      frame.ownerRenderer = some owner → fitsInt owner.x → fitsInt owner.y →
      frameRect frame ancestors =
        some ⟨wrapInt (owner.x + ownersX ancestors), wrapInt (owner.y + ownersY ancestors),
          wrapInt (owner.x + ownersX ancestors + owner.width),
          wrapInt (owner.y + ownersY ancestors + owner.height)⟩ ∧
      (fitsInt (owner.x + ownersX ancestors) → fitsInt (owner.y + ownersY ancestors) →
        fitsInt (owner.x + ownersX ancestors + owner.width) →
        fitsInt (owner.y + ownersY ancestors + owner.height) →
        frameRect frame ancestors =
          some ⟨owner.x + ownersX ancestors, owner.y + ownersY ancestors,
            owner.x + ownersX ancestors + owner.width,
            owner.y + ownersY ancestors + owner.height⟩)) ∧
    (∀ (total : SkIRect) (entry : Frame × List Frame) (r : SkIRect),
      frameRect entry.1 entry.2 = some r →
      (SkIRect.Intersects total r = true →
        joinFrame total entry =
          ⟨min total.fLeft r.fLeft, min total.fTop r.fTop, max total.fRight r.fRight,
            max total.fBottom r.fBottom⟩) ∧
      (SkIRect.Intersects total r = false → joinFrame total entry = total)) ∧
    ((totalRect contentRect mainFrame).fLeft ≤ contentRect.fLeft ∧
      (totalRect contentRect mainFrame).fTop ≤ contentRect.fTop ∧
      contentRect.fRight ≤ (totalRect contentRect mainFrame).fRight ∧
      contentRect.fBottom ≤ (totalRect contentRect mainFrame).fBottom) ∧
    (∀ x y, contentRect.containsPoint x y = true →
      (totalRect contentRect mainFrame).containsPoint x y = true) ∧
    (∀ entry ∈ traverseBelow [] mainFrame, ∀ r : SkIRect,
      frameRect entry.1 entry.2 = some r → SkIRect.Intersects contentRect r = true →
      (totalRect contentRect mainFrame).fLeft ≤ r.fLeft ∧
      (totalRect contentRect mainFrame).fTop ≤ r.fTop ∧
      r.fRight ≤ (totalRect contentRect mainFrame).fRight ∧
      r.fBottom ≤ (totalRect contentRect mainFrame).fBottom) := by
  have hlist : ∀ (ancestors : List Frame) (frames : List Frame),
      traverseList ancestors frames =
        frames.flatMap fun child => (child, ancestors) :: traverseBelow ancestors child := by
    intro ancestors frames
    induction frames with
    | nil => simp [traverseList]
    | cons child siblings ih => simp [traverseList, ih]
  have hbelow : ∀ (ancestors : List Frame) (frame : Frame),
      traverseBelow ancestors frame =
        frame.children.flatMap fun child =>
          (child, frame :: ancestors) :: traverseBelow (frame :: ancestors) child := by
    intro ancestors frame
    cases frame with
    | mk v o d children =>
      rw [traverseBelow, hlist]
      rfl
  have hgrow := foldl_joinFrame_grows (traverseBelow [] mainFrame) contentRect
  refine ⟨hbelow, rfl, ?_, ?_, ?_, hgrow, ?_, ?_⟩
  · intro total frame ancestors h
    unfold joinFrame
    simp only [frameRect_none frame ancestors h]
  · intro frame ancestors owner h hx hy
    have hr := frameRect_eq frame ancestors owner h hx hy
    refine ⟨hr, fun f1 f2 f3 f4 => ?_⟩
    rw [hr, wrapInt_of_fits _ f1, wrapInt_of_fits _ f2, wrapInt_of_fits _ f3,
      wrapInt_of_fits _ f4]
  · intro total entry r hr
    constructor
    · intro hi
      unfold joinFrame
      simp only [hr, hi, if_true]
      exact (join_of_intersects _ _ hi).2.2
    · intro hi
      unfold joinFrame
      simp only [hr, hi, Bool.false_eq_true, if_false]
  · intro x y hxy
    obtain ⟨g1, g2, g3, g4⟩ := hgrow
    unfold SkIRect.containsPoint at hxy ⊢
    simp only [Bool.and_eq_true, decide_eq_true_eq] at hxy ⊢
    unfold totalRect
    omega
  · intro entry hentry r hr hi
    exact mergedRects_covered _ _ _
      (mem_mergedRects contentRect _ contentRect
        ⟨Int.le_refl _, Int.le_refl _, Int.le_refl _, Int.le_refl _⟩ entry hentry r hr hi)

/-- The fixture page with the sub-frame, worked out: the sub-frame is the one
frame below the main frame, its rectangle is (700,500,900,700), and the total
is (0,0,900,700). -/
theorem framed_page_total :
    (traverseBelow [] Fixture.framedFrame).map (fun entry => frameRect entry.1 entry.2) =
      [some ⟨700, 500, 900, 700⟩] ∧
    totalRect Fixture.framedWorld.contentRect Fixture.framedWorld.first.frame =
      ⟨0, 0, 900, 700⟩ := by
  decide

/-- C26: for a non-empty content rectangle, in a cycle that gets past the
first layout, recordPictureSet resizes the view to the width and height of
the total and forces a layout exactly when the total is not contained in the
content rectangle (otherwise it makes none of these calls), and that is the
case exactly when one of the sub-frame rectangles joined into the total is
not contained in the content rectangle. The joined rectangles are rectangles
of frames below the main frame, every such rectangle that intersects the
content rectangle is joined, and so a sub-frame that intersects the content
rectangle and is not contained in it makes the view resize. -/
theorem recordPictureSet_resizes_for_frames (ops : PictureSetOps) (w : World) (s : WebViewCore)
    (content : PictureSet) (hdoc : w.hasDocument = true)
    (hpending : s.m_addInval.isEmpty = false)
    (hlayout : (layoutIfNeededRecursive w.first.frame).1 = true)
    (hcontent : w.contentRect.isEmpty = false) :
    (w.contentRect.contains (totalRect w.contentRect w.first.frame) = false →
      (recordPictureSet ops w s content).1.log.filter Event.isResizeStep =
        s.log.filter Event.isResizeStep ++
          [Event.viewResize (totalRect w.contentRect w.first.frame).width
              (totalRect w.contentRect w.first.frame).height,
            Event.setNeedsLayoutAndPrefWidthsRecalc, Event.forceLayout]) ∧
    (w.contentRect.contains (totalRect w.contentRect w.first.frame) = true →
      (recordPictureSet ops w s content).1.log.filter Event.isResizeStep =
        s.log.filter Event.isResizeStep) ∧
    (w.contentRect.contains (totalRect w.contentRect w.first.frame) = false ↔
      ∃ r ∈ mergedRects w.contentRect (traverseBelow [] w.first.frame),
        w.contentRect.contains r = false) ∧
    (∀ r ∈ mergedRects w.contentRect (traverseBelow [] w.first.frame),
      ∃ entry ∈ traverseBelow [] w.first.frame, frameRect entry.1 entry.2 = some r) ∧
    (∀ entry ∈ traverseBelow [] w.first.frame, ∀ r : SkIRect,
      frameRect entry.1 entry.2 = some r → SkIRect.Intersects w.contentRect r = true →
      r ∈ mergedRects w.contentRect (traverseBelow [] w.first.frame)) ∧
    (∀ child ∈ w.first.frame.children, ∀ r : SkIRect,
      frameRect child [w.first.frame] = some r → SkIRect.Intersects w.contentRect r = true →
      w.contentRect.contains r = false →
      (recordPictureSet ops w s content).1.log.filter Event.isResizeStep =
        s.log.filter Event.isResizeStep ++
          [Event.viewResize (totalRect w.contentRect w.first.frame).width
              (totalRect w.contentRect w.first.frame).height,
            Event.setNeedsLayoutAndPrefWidthsRecalc, Event.forceLayout]) := by
  have hlist : ∀ (ancestors : List Frame) (frames : List Frame),
      traverseList ancestors frames =
        frames.flatMap fun child => (child, ancestors) :: traverseBelow ancestors child := by
    intro ancestors frames
    induction frames with
    | nil => simp [traverseList]
    | cons child siblings ih => simp [traverseList, ih]
  have hbelow : ∀ (ancestors : List Frame) (frame : Frame),
      traverseBelow ancestors frame =
        frame.children.flatMap fun child =>
          (child, frame :: ancestors) :: traverseBelow (frame :: ancestors) child := by
    intro ancestors frame
    cases frame with
    | mk v o d children =>
      rw [traverseBelow, hlist]
      rfl
  have hchild : ∀ child ∈ w.first.frame.children,
      (child, [w.first.frame]) ∈ traverseBelow [] w.first.frame := by
    intro child hmem
    rw [hbelow, List.mem_flatMap]
    exact ⟨child, hmem, List.mem_cons_self _ _⟩
  have hmerge : ∀ entry ∈ traverseBelow [] w.first.frame, ∀ r : SkIRect,
      frameRect entry.1 entry.2 = some r → SkIRect.Intersects w.contentRect r = true →
      r ∈ mergedRects w.contentRect (traverseBelow [] w.first.frame) :=
    fun entry hentry r hr hi => mem_mergedRects w.contentRect _ w.contentRect
      ⟨Int.le_refl _, Int.le_refl _, Int.le_refl _, Int.le_refl _⟩ entry hentry r hr hi
  have hresize : w.contentRect.contains (totalRect w.contentRect w.first.frame) = false →
      (recordPictureSet ops w s content).1.log.filter Event.isResizeStep =
        s.log.filter Event.isResizeStep ++
          [Event.viewResize (totalRect w.contentRect w.first.frame).width
              (totalRect w.contentRect w.first.frame).height,
            Event.setNeedsLayoutAndPrefWidthsRecalc, Event.forceLayout] := by
    intro h
    rw [recordPictureSet_eq]
    simp only [hdoc, hpending, hlayout, h, Bool.not_true, Bool.not_false, Bool.false_eq_true,
      if_false, if_true]
    split
    · exact afterResize_resizeLog w s _
    · rw [recordPictureSetFocus_resizeLog, recordPictureSetTiles_log]
      exact afterResize_resizeLog w s _
  have hiffMerged : w.contentRect.contains (totalRect w.contentRect w.first.frame) = false ↔
      ∃ r ∈ mergedRects w.contentRect (traverseBelow [] w.first.frame),
        w.contentRect.contains r = false := by
    have hself : w.contentRect.contains w.contentRect = true := by
      unfold SkIRect.contains
      simp [hcontent]
    have hiff := contains_foldl_joinFrame w.contentRect (traverseBelow [] w.first.frame)
      w.contentRect hcontent
    have htotal : totalRect w.contentRect w.first.frame =
        (traverseBelow [] w.first.frame).foldl joinFrame w.contentRect := rfl
    rw [htotal]
    constructor
    · intro h
      by_contra hne
      have hall : ∀ r ∈ mergedRects w.contentRect (traverseBelow [] w.first.frame),
          w.contentRect.contains r = true := by
        intro r hr
        by_contra hc
        exact hne ⟨r, hr, by simpa using hc⟩
      rw [hiff.2 ⟨hself, hall⟩] at h
      exact absurd h (by simp)
    · rintro ⟨r, hr, hc⟩
      by_contra hne
      have ht : w.contentRect.contains
          ((traverseBelow [] w.first.frame).foldl joinFrame w.contentRect) = true := by
        simpa using hne
      rw [(hiff.1 ht).2 r hr] at hc
      exact absurd hc (by simp)
  refine ⟨hresize, ?_, hiffMerged, fun r hr => mergedRects_sub _ _ r hr, hmerge, ?_⟩
  · intro h
    rw [recordPictureSet_eq]
    simp only [hdoc, hpending, hlayout, h, Bool.not_true, Bool.false_eq_true, if_false]
    rw [recordPictureSetFocus_resizeLog, recordPictureSetTiles_log]
    exact afterFirstPass_resizeLog w s
  · intro child hmem r hr hi hc
    exact hresize (hiffMerged.2
      ⟨r, hmerge (child, [w.first.frame]) (hchild child hmem) r hr hi, hc⟩)

/-- C26 witness: a page of 800 x 600 whose one sub-frame lies at (700,500)
and is 200 x 200. The sub-frame intersects the content rectangle and is not
contained in it, and the view is resized to 900 x 700. -/
theorem recordPictureSet_resizes_for_frames_witness :
    Fixture.framedWorld.first.frame.children =
      [.mk (some ⟨false, [], false⟩) (some ⟨700, 500, 200, 200⟩) 1 []] ∧
    (recordPictureSet Fixture.ops Fixture.framedWorld Fixture.pending
      Fixture.pending.m_content).1.log.filter Event.isResizeStep =
      [Event.viewResize 900 700, Event.setNeedsLayoutAndPrefWidthsRecalc, Event.forceLayout] :=
  ⟨rfl,
    (recordPictureSet_resizes_for_frames Fixture.ops Fixture.framedWorld Fixture.pending
      Fixture.pending.m_content rfl (by decide) (by decide) (by decide)).2.2.2.2.2
      (.mk (some ⟨false, [], false⟩) (some ⟨700, 500, 200, 200⟩) 1 [])
      (List.mem_singleton.2 rfl) ⟨700, 500, 900, 700⟩ (by decide) (by decide) (by decide)⟩

/-- The settled fixture page has no sub-frame: the total is the content
rectangle and the view is not resized. -/
theorem plain_page_is_not_resized :
    totalRect Fixture.world.contentRect Fixture.world.first.frame = ⟨0, 0, 800, 600⟩ ∧
    (recordPictureSet Fixture.ops Fixture.world Fixture.pending
      Fixture.pending.m_content).1.log.filter Event.isResizeStep = [] := by
  decide

end WebViewCore

/-! ## Version sums and labels (C27 and C28) -/

theorem foldl_add_mod (vs : List Nat) (a : Nat) :
    vs.foldl (fun latestVersion v => (latestVersion + v) % 2 ^ 32) a % 2 ^ 32 =
      (a + vs.sum) % 2 ^ 32 := by
  induction vs generalizing a with
  | nil => simp
  | cons v rest ih =>
    rw [List.foldl_cons, ih, List.sum_cons, Nat.mod_add_mod, Nat.add_assoc]

theorem sumDomTreeVersion_eq (mainFrame : Frame) :
    sumDomTreeVersion mainFrame = (frameVersions mainFrame).sum % 2 ^ 32 := by
  have h := foldl_add_mod (frameVersions mainFrame) 0
  rw [Nat.zero_add] at h
  rw [← h]
  unfold sumDomTreeVersion frameVersions
  rw [List.foldl_map]
  generalize (mainFrame :: (traverseBelow [] mainFrame).map Prod.fst) = frames
  have : ∀ (fs : List Frame) (a : Nat), a < 2 ^ 32 →
      fs.foldl (fun latestVersion frame => (latestVersion + frame.domTreeVersion) % 2 ^ 32) a
        < 2 ^ 32 := by
    intro fs
    induction fs with
    | nil => intro a ha; exact ha
    | cons f rest ih => intro a _; exact ih _ (Nat.mod_lt _ (by norm_num))
  exact (Nat.mod_eq_of_lt (this frames 0 (by norm_num))).symm

theorem forall₂_le_sum_eq {before after : List Nat}
    (hgrow : List.Forall₂ (fun b a => b ≤ a) before after) (hsum : after.sum = before.sum) :
    after = before := by
  induction hgrow with
  | nil => rfl
  | @cons b a bs as hba hrest ih =>
    have hle : bs.sum ≤ as.sum := by
      clear ih hsum
      induction hrest with
      | nil => exact Nat.le_refl _
      | cons h _ ih => simp only [List.sum_cons]; omega
    simp only [List.sum_cons] at hsum
    have h1 : a = b := by omega
    have h2 : as.sum = bs.sum := by omega
    rw [h1, ih h2]

theorem forall₂_le_sum {before after : List Nat}
    (hgrow : List.Forall₂ (fun b a => b ≤ a) before after) : before.sum ≤ after.sum := by
  induction hgrow with
  | nil => exact Nat.le_refl _
  | cons h _ ih => simp only [List.sum_cons]; omega

/-- What the comparison of the sums detects, exactly: for the same frames
with counters that only grow, the 32-bit sums of two cycles are equal if and
only if no counter has changed or the counters have grown by a positive
multiple of 2^32 in total. -/
theorem domTreeVersion_sum_detects (before after : Frame)
    (hgrow : List.Forall₂ (fun b a => b ≤ a) (frameVersions before) (frameVersions after)) :
    sumDomTreeVersion after = sumDomTreeVersion before ↔
      frameVersions after = frameVersions before ∨
      ∃ k, 0 < k ∧ (frameVersions after).sum = (frameVersions before).sum + k * 2 ^ 32 := by
  rw [sumDomTreeVersion_eq, sumDomTreeVersion_eq]
  have hle := forall₂_le_sum hgrow
  constructor
  · intro hsame
    by_cases hsum : (frameVersions after).sum = (frameVersions before).sum
    · exact Or.inl (forall₂_le_sum_eq hgrow hsum)
    · refine Or.inr ⟨(frameVersions after).sum / 2 ^ 32 - (frameVersions before).sum / 2 ^ 32,
        ?_, ?_⟩
      · have h1 := Nat.div_add_mod (frameVersions after).sum (2 ^ 32)
        have h2 := Nat.div_add_mod (frameVersions before).sum (2 ^ 32)
        omega
      · have h1 := Nat.div_add_mod (frameVersions after).sum (2 ^ 32)
        have h2 := Nat.div_add_mod (frameVersions before).sum (2 ^ 32)
        have h3 : (frameVersions before).sum / 2 ^ 32 ≤ (frameVersions after).sum / 2 ^ 32 :=
          Nat.div_le_div_right hle
        rw [Nat.sub_mul]
        omega
  · rintro (hsame | ⟨k, -, hk⟩)
    · rw [hsame]
    · rw [hk, Nat.add_mul_mod_self_right]

/-- C27: checking the sum is not enough. The object has stored the sum 0 of
two frames whose documents are at version 0; in the next cycle each document
is at version 2^31. The counters only grew and each fits 32 bits, yet the sum
in `unsigned latestVersion` is 0 again, it equals the stored
m_domtree_version, and `update` comes out false with the version check
switched on, although both counters have changed. -/
theorem domTreeVersion_sum_wraps :
    List.Forall₂ (fun b a => b ≤ a) (frameVersions Fixture.wrapBefore)
      (frameVersions Fixture.wrapAfter) ∧
    (∀ v ∈ frameVersions Fixture.wrapAfter, v < 2 ^ 32) ∧
    Fixture.fresh.m_check_domtree_version = true ∧
    Fixture.fresh.m_domtree_version = sumDomTreeVersion Fixture.wrapBefore ∧
    sumDomTreeVersion Fixture.wrapAfter = Fixture.fresh.m_domtree_version ∧
    Fixture.fresh.update none ⟨0, 0, 0, 0⟩ (sumDomTreeVersion Fixture.wrapAfter) = false ∧
    frameVersions Fixture.wrapBefore = [0, 0] ∧
    frameVersions Fixture.wrapAfter = [2147483648, 2147483648] := by
  decide

/-- Two frames at version 3000000000 each, one of which sees one more change:
the sums differ, although the counters add up to more than 2^32 in both
cycles. -/
theorem domTreeVersion_sum_example :
    sumDomTreeVersion (.mk none none 3000000000 [.mk none none 3000000001 []]) ≠
      sumDomTreeVersion (.mk none none 3000000000 [.mk none none 3000000000 []]) := by
  decide

theorem labelString_stringConverter (text : WString) (h : text.length < 65536) :
    labelString (stringConverter text) = text := by
  unfold stringConverter labelString
  simp [Nat.mod_eq_of_lt h]

/-- C28, as the code has it: for every string of fewer than 65536 characters
the array stringConverter returns starts with the length of the string, goes
on with its characters, and reading it back the way makeLabelArray does gives
the string again. -/
theorem stringConverter_roundtrip (text : WString) (h : text.length < 65536) :
    (stringConverter text).head? = some text.length ∧
    (stringConverter text).tail = text ∧
    labelString (stringConverter text) = text := by
  unfold stringConverter labelString
  simp [Nat.mod_eq_of_lt h]

/-- C28 witness: the string "hi". -/
theorem stringConverter_roundtrip_witness :
    (stringConverter [104, 105]).head? = some ([104, 105] : WString).length ∧
    (stringConverter [104, 105]).tail = [104, 105] ∧
    labelString (stringConverter [104, 105]) = [104, 105] :=
  stringConverter_roundtrip [104, 105] (by decide)

/-- The labels of a list box come back from makeLabelArray as they went into
stringConverter, as long as each has fewer than 65536 characters. -/
theorem makeLabelArray_roundtrip (texts : List WString)
    (h : ∀ text ∈ texts, text.length < 65536) :
    WebViewCore.makeLabelArray (texts.map stringConverter) texts.length = texts.map some := by
  unfold WebViewCore.makeLabelArray
  apply List.ext_getElem?
  intro i
  simp only [List.getElem?_map]
  by_cases hi : i < texts.length
  · rw [List.getElem?_range hi, List.getElem?_eq_getElem hi]
    simp only [Option.map_some', List.getElem?_map, List.getElem?_eq_getElem hi]
    rw [labelString_stringConverter _ (h _ (List.getElem_mem _))]
  · rw [List.getElem?_eq_none (by simpa using hi), List.getElem?_eq_none (by simpa using hi)]
    rfl

theorem stringConverter_long (text : WString) (h : text.length = 65536) :
    (stringConverter text).head? = some 0 ∧ labelString (stringConverter text) = [] := by
  unfold stringConverter labelString
  simp [h]

/-- C28 refuted as stated: a string of 65536 characters. The first element of
the array is 0, not the length, and reading the array back gives the empty
string. -/
theorem stringConverter_truncates_length :
    (List.replicate 65536 97 : WString).length = 65536 ∧
    (stringConverter (List.replicate 65536 97)).head? = some 0 ∧
    labelString (stringConverter (List.replicate 65536 97)) = [] ∧
    labelString (stringConverter (List.replicate 65536 97)) ≠ List.replicate 65536 97 := by
  have hlen : (List.replicate 65536 97 : WString).length = 65536 := List.length_replicate _ _
  obtain ⟨h0, h1⟩ := stringConverter_long _ hlen
  refine ⟨hlen, h0, h1, ?_⟩
  rw [h1]
  intro h
  have h2 := congrArg List.length h
  rw [hlen] at h2
  exact absurd h2 (by decide)

/-! ## The reply of a multiple-choice list box (C30) -/

/-- What `selectChosen` leaves at each list index: an option is selected
exactly when its index is in the array, any other item is as it was. -/
theorem selectChosen_getElem? (array : List Int) (items : List ListItem) (k i : Nat) :
    (selectChosen array k items)[i]? =
      (items[i]?).map fun item =>
        match item with
        | .option text disabled _ =>
          .option text disabled (decide (((k + i : Nat) : Int) ∈ array))
        | other => other := by
  induction items generalizing k i with
  | nil => simp [selectChosen]
  | cons item rest ih =>
    cases i with
    | zero => cases item <;> simp [selectChosen]
    | succ i =>
      have hki : k + 1 + i = k + (i + 1) := by omega
      cases item <;> simp [selectChosen, ih, hki]

/-- The loop of replyIntArray, entered at list index `k` with the entries
`done` of the array behind it and the entries `todo` still to come. -/
theorem replyIntArrayLoop_spec (array : List Int) (hsorted : array.Pairwise (· < ·)) :
    ∀ (rest : List ListItem) (k : Nat) (done todo : List Int) (sel : Int),
      array = done ++ todo → sel = todo.head?.getD (-1) →
      (∀ a ∈ done, a < (k : Int)) →
      (∀ a ∈ todo, ∃ i : Nat, a = ((k + i : Nat) : Int) ∧
        ∃ t d b, rest[i]? = some (ListItem.option t d b)) →
      replyIntArrayLoop array array.length rest k done.length sel =
        some (selectChosen array k rest) := by
  intro rest
  induction rest with
  | nil =>
    intro k done todo sel _ _ _ _
    simp [replyIntArrayLoop, selectChosen]
  | cons item rest ih =>
    intro k done todo sel harr hsel hdone htodo
    have hsorted' := hsorted
    rw [harr, List.pairwise_append] at hsorted'
    obtain ⟨-, htodoSorted, -⟩ := hsorted'
    -- the index `k` is chosen exactly when it is the value compared against
    have hmem : (k : Int) ∈ array ↔ (k : Int) = sel := by
      constructor
      · intro h
        rw [harr, List.mem_append] at h
        rcases h with h | h
        · exact absurd (hdone _ h) (lt_irrefl _)
        · cases todo with
          | nil => exact absurd h (List.not_mem_nil _)
          | cons a0 tl =>
            simp only [List.head?_cons, Option.getD_some] at hsel
            rcases List.mem_cons.1 h with h | h
            · rw [hsel, h]
            · have hlt : a0 < (k : Int) := (List.pairwise_cons.1 htodoSorted).1 _ h
              obtain ⟨i, hi, -⟩ := htodo a0 (List.mem_cons_self _ _)
              omega
      · intro h
        cases todo with
        | nil =>
          simp only [List.head?_nil, Option.getD_none] at hsel
          omega
        | cons a0 tl =>
          simp only [List.head?_cons, Option.getD_some] at hsel
          rw [harr, h, hsel]
          simp
    -- an entry still to come that is not `k` lies further on
    have hshift : ∀ a ∈ todo, a ≠ (k : Int) →
        ∃ i : Nat, a = ((k + 1 + i : Nat) : Int) ∧
          ∃ t d b, rest[i]? = some (ListItem.option t d b) := by
      intro a ha hne
      obtain ⟨i, hi, t, d, b, hopt⟩ := htodo a ha
      cases i with
      | zero => exact absurd hi hne
      | succ i =>
        refine ⟨i, ?_, t, d, b, ?_⟩
        · rw [hi]; congr 1; omega
        · simpa using hopt
    have hdone' : ∀ a ∈ done, a < ((k + 1 : Nat) : Int) := by
      intro a ha
      have := hdone a ha
      omega
    have hcast : ((k : Nat) : Int) + 1 = ((k + 1 : Nat) : Int) := by push_cast; rfl
    -- an item that is not an option is passed over
    have hskip : (∀ t d b, item ≠ ListItem.option t d b) →
        ∀ a ∈ todo, a ≠ (k : Int) := by
      intro hitem a ha hak
      obtain ⟨i, hi, t, d, b, hopt⟩ := htodo a ha
      have hi0 : i = 0 := by omega
      subst hi0
      simp only [List.getElem?_cons_zero, Option.some.injEq] at hopt
      exact hitem t d b hopt
    cases item with
    | option t d b =>
      by_cases hk : (k : Int) = sel
      · -- the option at `k` is chosen
        cases todo with
        | nil =>
          simp only [List.head?_nil, Option.getD_none] at hsel
          omega
        | cons a0 tl =>
          simp only [List.head?_cons, Option.getD_some] at hsel
          have ha0 : a0 = (k : Int) := by rw [← hsel, hk]
          have hin : decide ((k : Int) ∈ array) = true := by
            rw [decide_eq_true_eq]
            exact hmem.2 hk
          subst hk
          have harr' : array = (done ++ [a0]) ++ tl := by rw [harr]; simp
          have hlen' : (done ++ [a0]).length = done.length + 1 := by simp
          have hdone'' : ∀ a ∈ done ++ [a0], a < ((k + 1 : Nat) : Int) := by
            intro a ha
            rcases List.mem_append.1 ha with h | h
            · exact hdone' a h
            · rw [List.mem_singleton] at h
              omega
          have htl : ∀ a ∈ tl, ∃ i : Nat, a = ((k + 1 + i : Nat) : Int) ∧
              ∃ t d b, rest[i]? = some (ListItem.option t d b) := by
            intro a ha
            apply hshift a (List.mem_cons_of_mem _ ha)
            have hlt : a0 < a := (List.pairwise_cons.1 htodoSorted).1 _ ha
            omega
          cases tl with
          | nil =>
            have hcount : ((done.length + 1 : Nat) : Int) = (array.length : Int) := by
              rw [harr]; simp
            have hrec := ih (k + 1) (done ++ [a0]) [] (-1) harr' rfl hdone'' htl
            rw [hlen'] at hrec
            simp only [replyIntArrayLoop, if_true, hcount, hcast, hrec, Option.map_some',
              selectChosen, hin]
          | cons a1 tl' =>
            have hcount : ¬ ((done.length + 1 : Nat) : Int) = (array.length : Int) := by
              rw [harr]
              simp only [List.length_append, List.length_cons]
              omega
            have hread : array[done.length + 1]? = some a1 := by
              rw [harr', ← hlen', List.getElem?_append_right (Nat.le_refl _), Nat.sub_self]
              exact List.getElem?_cons_zero
            have hrec := ih (k + 1) (done ++ [a0]) (a1 :: tl') a1 harr' rfl hdone'' htl
            rw [hlen'] at hrec
            simp only [replyIntArrayLoop, if_true, hcount, if_false, hread, hcast, hrec,
              Option.map_some', selectChosen, hin]
      · -- the option at `k` is not chosen
        have hout : decide ((k : Int) ∈ array) = false := by
          rw [decide_eq_false_iff_not]
          exact fun h => hk (hmem.1 h)
        have htodo' : ∀ a ∈ todo, ∃ i : Nat, a = ((k + 1 + i : Nat) : Int) ∧
            ∃ t d b, rest[i]? = some (ListItem.option t d b) := by
          intro a ha
          apply hshift a ha
          intro hak
          apply hk
          apply hmem.1
          rw [harr, ← hak]
          exact List.mem_append_right _ ha
        have hrec := ih (k + 1) done todo sel harr hsel hdone' htodo'
        simp only [replyIntArrayLoop, hk, if_false, hcast, hrec, Option.map_some',
          selectChosen, hout]
    | optgroup label =>
      have htodo' : ∀ a ∈ todo, ∃ i : Nat, a = ((k + 1 + i : Nat) : Int) ∧
          ∃ t d b, rest[i]? = some (ListItem.option t d b) :=
        fun a ha => hshift a ha (hskip (fun _ _ _ h => by cases h) a ha)
      have hrec := ih (k + 1) done todo sel harr hsel hdone' htodo'
      simp only [replyIntArrayLoop, hcast, hrec, Option.map_some', selectChosen]
    | other =>
      have htodo' : ∀ a ∈ todo, ∃ i : Nat, a = ((k + 1 + i : Nat) : Int) ∧
          ∃ t d b, rest[i]? = some (ListItem.option t d b) :=
        fun a ha => hshift a ha (hskip (fun _ _ _ h => by cases h) a ha)
      have hrec := ih (k + 1) done todo sel harr hsel hdone' htodo'
      simp only [replyIntArrayLoop, hcast, hrec, Option.map_some', selectChosen]

/-- For a select element that is still valid and an array that holds at least
one index, the indices rising and each one that of an option, replyIntArray
reads no cell outside the `count` cells of the array and leaves the list
items as `selectChosen` describes them; it then reports the change and
invalidates the rectangle of the element. -/
theorem replyIntArray_selects (w : World) (s : WebViewCore) (reply : ListBoxReply)
    (select : Node) (array : List Int) (hselect : reply.m_select = some select)
    (hvalid : w.validNode (some reply.m_frame) (some select) = true) (hne : array ≠ [])
    (hsorted : array.Pairwise (· < ·))
    (hopt : ∀ a ∈ array, ∃ i : Nat, a = (i : Int) ∧
      ∃ t d b, (w.listItems select)[i]? = some (ListItem.option t d b)) :
    reply.replyIntArray w s array array.length =
      some ((s.emit (.selectOnChange select)).contentInvalidate (w.getRect select),
        some (selectChosen array 0 (w.listItems select))) := by
  cases array with
  | nil => exact absurd rfl hne
  | cons a0 tl =>
    have hloop := replyIntArrayLoop_spec (a0 :: tl) hsorted (w.listItems select) 0 [] (a0 :: tl)
      a0 rfl rfl (fun _ h => absurd h (List.not_mem_nil _))
      (fun a ha => by
        obtain ⟨i, hi, h⟩ := hopt a ha
        exact ⟨i, by rw [hi, Nat.zero_add], h⟩)
    unfold ListBoxReply.replyIntArray
    simp only [hselect, hvalid, Bool.not_true, Bool.false_eq_true, if_false,
      List.getElem?_cons_zero]
    simp only [List.length_nil, Nat.cast_zero] at hloop
    rw [hloop]

/-- C30: the reply with no box ticked. SendListBoxChoices writes no cell of
its storage and passes count = 0, and replyIntArray reads array[0] all the
same, before it looks at count. With the count cells alone (none) the read
is outside the array. With storage whose first cell happens to hold 0 the
first option is selected although no index was sent; with storage holding -1
every option is deselected. The outcome depends on cells nobody wrote. -/
theorem SendListBoxChoices_nothing_ticked :
    gatherChoices [false, false] (List.range 2) ([0, 7], 0) = some ([0, 7], 0) ∧
    (⟨some 5, 1⟩ : ListBoxReply).replyIntArray Fixture.selectWorld Fixture.withPopup [] 0 =
      none ∧
    ((⟨some 5, 1⟩ : ListBoxReply).replyIntArray Fixture.selectWorld Fixture.withPopup
        [0, 7] 0).map Prod.snd =
      some (some [.option [97] false true, .option [98] false false]) ∧
    (SendListBoxChoices Fixture.selectWorld Fixture.withPopup [false, false] 2 [0, 7]).map
        Prod.snd =
      some (some [.option [97] false true, .option [98] false false]) ∧
    (SendListBoxChoices Fixture.selectWorld Fixture.withPopup [false, false] 2 [-1, -1]).map
        Prod.snd =
      some (some [.option [97] false false, .option [98] false false]) ∧
    selectChosen [] 0 (Fixture.selectWorld.listItems 5) =
      [.option [97] false false, .option [98] false false] := by
  decide

/-- The reply with boxes ticked, worked out on the fixture: the first box
alone, then both. The cells behind the count are not read. -/
theorem SendListBoxChoices_example :
    (SendListBoxChoices Fixture.selectWorld Fixture.withPopup [true, false] 2 [9, 9]).map
        Prod.snd =
      some (some [.option [97] false true, .option [98] false false]) ∧
    (SendListBoxChoices Fixture.selectWorld Fixture.withPopup [true, true] 2 [9, 9]).map
        Prod.snd =
      some (some [.option [97] false true, .option [98] false true]) := by
  decide

end WebKit
